import Mathlib

/-! CyberTyper core: the application state machine.

A shallow embedding of `src/src/cybertyper_core.c`.

* The module-level globals of the C file (columns, column_count, focused_column, the
  editor and modal buffers, current_state, the blink variables) are the fields of one
  record `State`, passed explicitly.
* Character arrays that the C code only ever uses as NUL-terminated strings
  (a column's `directory`, the slots of `file_list`, `edit_filename`, the local path
  buffers) are modelled by their string value, a `List Nat` of byte codes without the
  terminator.  `strncpy(dst, src, n); dst[n-1] = 0` and `snprintf(dst, n, ...)` both
  keep the first `n-1` characters.
* Arrays that are indexed together with a separate length variable (`edit_buffer`,
  `input_buffer`) are modelled as arrays (`List Nat`, one entry per byte),
  so `memmove` and the explicit terminator writes are visible.
* The hardware abstraction layer is a parameter: `Hal σ` gives the Storage Gateway
  functions over an abstract storage state `σ`.  Every Storage Gateway call is also
  appended to the log `State.calls`.
* The Display Sink (`hal_display_clear`, `hal_display_write`) is write-only and has no
  influence on any variable of the core, so the render functions are not modelled.
* `time(NULL)` is an input: the value it returns is passed to the function that reads it.
* `size_t` values are `Nat`.  The decrements of `selected_index`, `focused_column`,
  `input_len` and `edit_cursor_pos` are guarded in the source by a test that the value
  is positive; `edit_length--` and `edit_length - edit_cursor_pos` run with
  `0 < edit_cursor_pos ≤ edit_length` whenever the Editor Model invariant holds, so no
  subtraction wraps around.
-/

namespace CyberTyper

/-! ## Constants (`#define`s of cybertyper_core.c) -/

def MAX_FILES : Nat := 50
def MAX_FILENAME_LEN : Nat := 64
def MAX_PATH_LEN : Nat := 512
def INPUT_BUFFER_SIZE : Nat := 128
def MAX_FILE_CONTENT_SIZE : Nat := 1024
def MAX_COLUMNS : Nat := 10

/-! ## Key codes (`enum KeyCode` of hal_interface.h, by enumerator value) -/

def KEY_NONE : Nat := 0
def KEY_ENTER : Nat := 1
def KEY_BACKSPACE : Nat := 2
def KEY_TAB : Nat := 3
def KEY_ESCAPE : Nat := 4
def KEY_ARROW_UP : Nat := 15
def KEY_ARROW_DOWN : Nat := 16
def KEY_ARROW_LEFT : Nat := 17
def KEY_ARROW_RIGHT : Nat := 18
def KEY_F2 : Nat := 26
def KEY_CTRL_R : Nat := 58
def KEY_CTRL_N : Nat := 59
def KEY_CTRL_S : Nat := 60
def KEY_CTRL_ALT_N : Nat := 61
def KEY_CHAR_BASE : Nat := 62

/-- The character `'/'`. -/
def SLASH : Nat := 47

/-- The string `".txt"`. -/
def DOT_TXT : List Nat := [46, 116, 120, 116]

/-! ## Data model -/

/-- Mirror of `enum AppState`. -/
inductive AppState where
  | STATE_NORMAL
  | STATE_RENAME
  | STATE_NEW_FOLDER
  | STATE_NEW_FILE
  | STATE_EDITING
  deriving DecidableEq, Repr

/-- Mirror of `struct DirectoryColumn`.  `file_list` holds all `MAX_FILES` slots of the
array; only the first `file_count` of them are entries of the listing. -/
structure DirectoryColumn where
  directory : List Nat
  file_list : List (List Nat)
  file_count : Nat
  selected_index : Nat
  deriving DecidableEq, Repr

/-- A column whose bytes are all zero (static initialisation, or `memset(.., 0, ..)`). -/
def zeroColumn : DirectoryColumn :=
  { directory := [], file_list := List.replicate MAX_FILES [], file_count := 0,
    selected_index := 0 }

/-- The entries of a column: the first `file_count` slots of `file_list`. -/
def DirectoryColumn.entries (c : DirectoryColumn) : List (List Nat) :=
  c.file_list.take c.file_count

/-- One call of a Storage Gateway function, with its arguments. -/
inductive StorageCall where
  | list_files (directory : List Nat) (max_files : Nat)
  | read_file (filepath : List Nat) (buffer_size : Nat)
  | is_directory (filepath : List Nat)
  | file_exists (filepath : List Nat)
  | create_file (filepath : List Nat)
  | create_directory (dirpath : List Nat)
  | rename_file (oldpath newpath : List Nat)
  | write_file (filepath : List Nat) (buffer : List Nat) (length : Nat)
  deriving DecidableEq, Repr

/-- The Storage Gateway of hal_interface.h over a storage state `σ`.

* `list_files st dir max` is the list of names the gateway stores into the slots
  `0, 1, ...` of the caller's array; its length is the returned count.
* `read_file st path size` is `some bytes` when the gateway stores `bytes` into the
  caller's buffer and returns their number, `none` when it returns a negative value.
* the four mutating functions return the success flag and the new storage state. -/
structure Hal (σ : Type) where
  list_files : σ → List Nat → Nat → List (List Nat)
  read_file : σ → List Nat → Nat → Option (List Nat)
  is_directory : σ → List Nat → Bool
  file_exists : σ → List Nat → Bool
  create_file : σ → List Nat → Bool × σ
  create_directory : σ → List Nat → Bool × σ
  rename_file : σ → List Nat → List Nat → Bool × σ
  write_file : σ → List Nat → List Nat → Nat → Bool × σ

/-- The globals of cybertyper_core.c, the storage state behind the gateway, and the log
of gateway calls made so far. -/
structure State (σ : Type) where
  columns : List DirectoryColumn
  column_count : Nat
  focused_column : Nat
  edit_filename : List Nat
  edit_buffer : List Nat
  edit_length : Nat
  edit_cursor_pos : Nat
  initialized : Bool
  current_state : AppState
  input_buffer : List Nat
  input_len : Nat
  cursor_visible : Bool
  last_toggle_time : Int
  storage : σ
  calls : List StorageCall

/-- The state at program start: the static initialisers of the globals. -/
def boot {σ : Type} (st : σ) : State σ :=
  { columns := List.replicate MAX_COLUMNS zeroColumn
    column_count := 1
    focused_column := 0
    edit_filename := []
    edit_buffer := List.replicate MAX_FILE_CONTENT_SIZE 0
    edit_length := 0
    edit_cursor_pos := 0
    initialized := false
    current_state := AppState.STATE_NORMAL
    input_buffer := List.replicate INPUT_BUFFER_SIZE 0
    input_len := 0
    cursor_visible := true
    last_toggle_time := 0
    storage := st
    calls := [] }

/-! ## C library helpers -/

/-- The string value of a character array: the bytes before the first NUL. -/
def cstr (buf : List Nat) : List Nat :=
  buf.takeWhile (fun b => b != 0)

/-- The function `memmove(buf + dst, buf + src, n)` inside one array: the `n` bytes
at `src` are copied (as if through a temporary) to `dst`. -/
def memmove (buf : List Nat) (dst src n : Nat) : List Nat :=
  let tmp := (buf.drop src).take n
  buf.take dst ++ tmp ++ buf.drop (dst + tmp.length)

/-- What a gateway listing leaves in a `file_list` array: the names found in the
leading slots, the remaining slots as they were. -/
def store_listing (file_list : List (List Nat)) (names : List (List Nat)) :
    List (List Nat) :=
  names ++ file_list.drop names.length

/-- The column `columns[i]`. -/
def State.col {σ : Type} (s : State σ) (i : Nat) : DirectoryColumn :=
  s.columns.getD i zeroColumn

/-- The column `columns[focused_column]`. -/
def State.focused {σ : Type} (s : State σ) : DirectoryColumn :=
  s.col s.focused_column

/-- The string `columns[focused_column].file_list[selected_index]`. -/
def State.selected_name {σ : Type} (s : State σ) : List Nat :=
  (s.col s.focused_column).file_list.getD (s.col s.focused_column).selected_index []

/-! ## The functions of cybertyper_core.c -/

section Core

variable {σ : Type}

/-- Mirror of `load_directory` (lines 123-129). -/
def load_directory (hal : Hal σ) (col : Nat) (dir : List Nat) (s : State σ) : State σ :=
  if col ≥ MAX_COLUMNS then s
  else
    let names := hal.list_files s.storage dir MAX_FILES
    { s with
      columns := s.columns.set col
        { directory := dir.take (MAX_PATH_LEN - 1)
          file_list := store_listing (s.col col).file_list names
          file_count := names.length
          selected_index := 0 }
      calls := s.calls ++ [StorageCall.list_files dir MAX_FILES] }

/-- Mirror of `cybertyper_init` (lines 99-120); `now` is the value of `time(NULL)`. -/
def cybertyper_init (hal : Hal σ) (now : Int) (s : State σ) : State σ :=
  let s1 := load_directory hal 0 [SLASH] s
  { s1 with
    column_count := 1
    focused_column := 0
    cursor_visible := true
    last_toggle_time := now
    initialized := true }

/-- Mirror of `enter_edit_mode` (lines 136-160); `now` is the value of `time(NULL)`. -/
def enter_edit_mode (hal : Hal σ) (now : Int) (filename : List Nat) (s : State σ) :
    State σ :=
  let r := hal.read_file s.storage filename MAX_FILE_CONTENT_SIZE
  let buf := match r with
    | some bytes => bytes ++ s.edit_buffer.drop bytes.length
    | none => s.edit_buffer
  let len := match r with
    | some bytes => bytes.length
    | none => 0
  { s with
    edit_filename := filename.take (MAX_FILENAME_LEN - 1)
    edit_buffer := buf.set len 0
    edit_length := len
    edit_cursor_pos := len
    current_state := AppState.STATE_EDITING
    cursor_visible := true
    last_toggle_time := now
    calls := s.calls ++ [StorageCall.read_file filename MAX_FILE_CONTENT_SIZE] }

/-- Mirror of `handle_editor_input` (lines 311-362). -/
def handle_editor_input (hal : Hal σ) (key : Nat) (s : State σ) : State σ :=
  if key = KEY_CTRL_S then
    let r := hal.write_file s.storage s.edit_filename s.edit_buffer s.edit_length
    { s with
      storage := r.2
      calls := s.calls ++
        [StorageCall.write_file s.edit_filename s.edit_buffer s.edit_length] }
  else if key = KEY_ESCAPE then
    { s with current_state := AppState.STATE_NORMAL }
  else
    let s1 :=
      if key = KEY_ARROW_LEFT ∧ s.edit_cursor_pos > 0 then
        { s with edit_cursor_pos := s.edit_cursor_pos - 1 }
      else if key = KEY_ARROW_RIGHT ∧ s.edit_cursor_pos < s.edit_length then
        { s with edit_cursor_pos := s.edit_cursor_pos + 1 }
      else s
    let s2 :=
      if key = KEY_BACKSPACE ∧ s1.edit_cursor_pos > 0 then
        { s1 with
          edit_buffer := memmove s1.edit_buffer (s1.edit_cursor_pos - 1) s1.edit_cursor_pos
            (s1.edit_length - s1.edit_cursor_pos + 1)
          edit_length := s1.edit_length - 1
          edit_cursor_pos := s1.edit_cursor_pos - 1 }
      else s1
    if key ≥ KEY_CHAR_BASE then
      let c := (key - KEY_CHAR_BASE) % 256
      if s2.edit_length < MAX_FILE_CONTENT_SIZE - 1 ∧ 32 ≤ c ∧ c ≤ 126 then
        { s2 with
          edit_buffer := (memmove s2.edit_buffer (s2.edit_cursor_pos + 1) s2.edit_cursor_pos
            (s2.edit_length - s2.edit_cursor_pos + 1)).set s2.edit_cursor_pos c
          edit_length := s2.edit_length + 1
          edit_cursor_pos := s2.edit_cursor_pos + 1 }
      else s2
    else s2

/-- Mirror of `enter_rename_mode` (lines 365-372). -/
def enter_rename_mode (s : State σ) : State σ :=
  if (s.col s.focused_column).file_count = 0 then s
  else
    { s with
      current_state := AppState.STATE_RENAME
      input_len := 0
      input_buffer := s.input_buffer.set 0 0 }

/-- Mirror of `enter_new_folder_mode` (lines 375-381). -/
def enter_new_folder_mode (s : State σ) : State σ :=
  { s with
    current_state := AppState.STATE_NEW_FOLDER
    input_len := 0
    input_buffer := s.input_buffer.set 0 0 }

/-- Mirror of `enter_new_file_mode` (lines 384-390). -/
def enter_new_file_mode (s : State σ) : State σ :=
  { s with
    current_state := AppState.STATE_NEW_FILE
    input_len := 0
    input_buffer := s.input_buffer.set 0 0 }

/-- The reload shared by the three commit functions:
`file_count = hal_storage_list_files(directory, file_list, MAX_FILES); selected_index = 0;
current_state = STATE_NORMAL`, run on the storage state `st`. -/
def reload_column (hal : Hal σ) (col : Nat) (st : σ) (s : State σ) : State σ :=
  let c := s.col col
  let names := hal.list_files st c.directory MAX_FILES
  { s with
    columns := s.columns.set col
      { c with
        file_list := store_listing c.file_list names
        file_count := names.length
        selected_index := 0 }
    current_state := AppState.STATE_NORMAL
    storage := st
    calls := s.calls ++ [StorageCall.list_files c.directory MAX_FILES] }

/-- Mirror of `commit_rename` (lines 393-414). -/
def commit_rename (hal : Hal σ) (s : State σ) : State σ :=
  if s.column_count = 0 then s
  else
    let col := s.focused_column
    let oldpath :=
      ((s.col col).directory ++ [SLASH] ++ s.selected_name).take (MAX_PATH_LEN - 1)
    let newpath :=
      ((s.col col).directory ++ [SLASH] ++ cstr s.input_buffer).take (MAX_PATH_LEN - 1)
    let r := hal.rename_file s.storage oldpath newpath
    reload_column hal col r.2
      { s with calls := s.calls ++ [StorageCall.rename_file oldpath newpath] }

/-- Mirror of `commit_new_folder` (lines 417-435). -/
def commit_new_folder (hal : Hal σ) (s : State σ) : State σ :=
  if s.column_count = 0 then s
  else
    let col := s.focused_column
    let newdir :=
      ((s.col col).directory ++ [SLASH] ++ cstr s.input_buffer).take (MAX_PATH_LEN - 1)
    let r := hal.create_directory s.storage newdir
    reload_column hal col r.2
      { s with calls := s.calls ++ [StorageCall.create_directory newdir] }

/-- Mirror of `commit_new_file` (lines 438-465); `now` is the value of `time(NULL)`
read by `enter_edit_mode`. -/
def commit_new_file (hal : Hal σ) (now : Int) (s : State σ) : State σ :=
  if s.column_count = 0 then s
  else
    let col := s.focused_column
    let newfile :=
      ((s.col col).directory ++ [SLASH] ++ cstr s.input_buffer ++ DOT_TXT).take
        (MAX_PATH_LEN - 1)
    let s1 := { s with calls := s.calls ++ [StorageCall.file_exists newfile] }
    if hal.file_exists s.storage newfile then
      reload_column hal col s1.storage s1
    else
      let r := hal.create_file s1.storage newfile
      let s2 := { s1 with
        storage := r.2
        calls := s1.calls ++ [StorageCall.create_file newfile] }
      if r.1 then enter_edit_mode hal now newfile s2
      else reload_column hal col s2.storage s2

/-- Mirror of `handle_text_input` (lines 468-485). -/
def handle_text_input (key : Nat) (s : State σ) : State σ :=
  if key = KEY_BACKSPACE then
    if s.input_len > 0 then
      { s with
        input_len := s.input_len - 1
        input_buffer := s.input_buffer.set (s.input_len - 1) 0 }
    else s
  else if key ≥ KEY_CHAR_BASE then
    let c := (key - KEY_CHAR_BASE) % 256
    if s.input_len < INPUT_BUFFER_SIZE - 1 ∧ 32 ≤ c ∧ c ≤ 126 then
      { s with
        input_len := s.input_len + 1
        input_buffer := (s.input_buffer.set s.input_len c).set (s.input_len + 1) 0 }
    else s
  else s

/-- Mirror of `handle_rename_input` (lines 488-511). -/
def handle_rename_input (hal : Hal σ) (key : Nat) (s : State σ) : State σ :=
  if key = KEY_ENTER then
    if s.input_len = 0 then s else commit_rename hal s
  else if key = KEY_ESCAPE then
    { s with current_state := AppState.STATE_NORMAL }
  else handle_text_input key s

/-- Mirror of `handle_new_folder_input` (lines 514-537). -/
def handle_new_folder_input (hal : Hal σ) (key : Nat) (s : State σ) : State σ :=
  if key = KEY_ENTER then
    if s.input_len = 0 then s else commit_new_folder hal s
  else if key = KEY_ESCAPE then
    { s with current_state := AppState.STATE_NORMAL }
  else handle_text_input key s

/-- Mirror of `handle_new_file_input` (lines 540-563). -/
def handle_new_file_input (hal : Hal σ) (now : Int) (key : Nat) (s : State σ) : State σ :=
  if key = KEY_ENTER then
    if s.input_len = 0 then s else commit_new_file hal now s
  else if key = KEY_ESCAPE then
    { s with current_state := AppState.STATE_NORMAL }
  else handle_text_input key s

/-- The local `selected_path` of `handle_normal_navigation` (lines 590-595). -/
def selected_path (s : State σ) : List Nat :=
  let dir := (s.col s.focused_column).directory
  if dir.length > 0 ∧ dir.getD (dir.length - 1) 0 = SLASH then
    (dir ++ s.selected_name).take (MAX_PATH_LEN - 1)
  else
    (dir ++ [SLASH] ++ s.selected_name).take (MAX_PATH_LEN - 1)

/-- Mirror of `handle_normal_navigation` (lines 566-652); `now` is the value of
`time(NULL)` read by `enter_edit_mode`. -/
def handle_normal_navigation (hal : Hal σ) (now : Int) (key : Nat) (s : State σ) :
    State σ :=
  let fc := s.col s.focused_column
  let focused_col_file_count := fc.file_count
  if key = KEY_ARROW_UP then
    if focused_col_file_count > 0 ∧ fc.selected_index > 0 then
      { s with
        columns := s.columns.set s.focused_column
          { fc with selected_index := fc.selected_index - 1 } }
    else s
  else if key = KEY_ARROW_DOWN then
    if focused_col_file_count > 0 ∧ fc.selected_index < fc.file_count - 1 then
      { s with
        columns := s.columns.set s.focused_column
          { fc with selected_index := fc.selected_index + 1 } }
    else s
  else if key = KEY_ARROW_RIGHT ∨ key = KEY_ENTER then
    if focused_col_file_count > 0 then
      let path := selected_path s
      let s1 := { s with calls := s.calls ++ [StorageCall.is_directory path] }
      if hal.is_directory s.storage path then
        if s1.column_count < MAX_COLUMNS then
          let s2 := load_directory hal s1.column_count path s1
          { s2 with
            column_count := s2.column_count + 1
            focused_column := s2.focused_column + 1 }
        else s1
      else enter_edit_mode hal now path s1
    else s
  else if key = KEY_ARROW_LEFT then
    if s.focused_column > 0 then
      let f := s.focused_column - 1
      { s with
        focused_column := f
        columns := (List.range s.columns.length).map (fun i =>
          if f + 1 ≤ i ∧ i < s.column_count then zeroColumn else s.col i)
        column_count := f + 1 }
    else s
  else if key = KEY_CTRL_R then
    if focused_col_file_count > 0 then enter_rename_mode s else s
  else if key = KEY_CTRL_N then
    enter_new_file_mode s
  else s

/-- The state switch at the end of `cybertyper_run_cycle` (lines 698-716): the key is
handed to the handler of the active state. -/
def dispatch_key (hal : Hal σ) (now : Int) (key : Nat) (s : State σ) : State σ :=
  match s.current_state with
  | AppState.STATE_EDITING => handle_editor_input hal key s
  | AppState.STATE_RENAME => handle_rename_input hal key s
  | AppState.STATE_NEW_FOLDER => handle_new_folder_input hal key s
  | AppState.STATE_NEW_FILE => handle_new_file_input hal now key s
  | AppState.STATE_NORMAL => handle_normal_navigation hal now key s

/-- The blink step of `cybertyper_run_cycle` (lines 667-691).  `time_t` counts whole
seconds, so `difftime(current_time, last_toggle_time) >= 0.5` holds exactly when the
difference is at least one. -/
def blink_tick (current_time : Int) (s : State σ) : State σ :=
  if current_time - s.last_toggle_time ≥ 1 then
    { s with cursor_visible := !s.cursor_visible, last_toggle_time := current_time }
  else s

/-- What one cycle reads from outside: `time(NULL)` at its start, the key returned by
`hal_input_get_key`, and `time(NULL)` as `enter_edit_mode` reads it (if it runs). -/
structure CycleInput where
  current_time : Int
  key : Nat
  open_time : Int
  deriving DecidableEq, Repr

/-- Mirror of `cybertyper_run_cycle` (lines 662-717). -/
def cybertyper_run_cycle (hal : Hal σ) (inp : CycleInput) (s : State σ) : State σ :=
  if !s.initialized then s
  else
    let s1 := blink_tick inp.current_time s
    if inp.key = KEY_NONE then s1
    else dispatch_key hal inp.open_time inp.key s1

/-- The main loop of main.c run for a finite list of cycles. -/
def run_cycles (hal : Hal σ) (inputs : List CycleInput) (s : State σ) : State σ :=
  inputs.foldl (fun st inp => cybertyper_run_cycle hal inp st) s

end Core

/-! ## An in-memory Storage Gateway

A small gateway used to instantiate the theorems at concrete inputs. -/

/-- Storage state of the in-memory gateway: file contents by path, and the listing of
each directory by path (most recent binding first). -/
structure RamDisk where
  files : List (List Nat × List Nat)
  dirs : List (List Nat × List (List Nat))
  deriving DecidableEq, Repr

/-- The in-memory gateway.  A listing returns at most `max_files` names, a read at most
`buffer_size - 1` bytes (as hal_mock.c does); a write binds the path to the first
`length` bytes of the buffer. -/
def ramHal : Hal RamDisk where
  list_files st dir max_files := ((st.dirs.lookup dir).getD []).take max_files
  read_file st path buffer_size :=
    (st.files.lookup path).map (fun bytes => bytes.take (buffer_size - 1))
  is_directory st path := (st.dirs.lookup path).isSome
  file_exists st path := (st.files.lookup path).isSome || (st.dirs.lookup path).isSome
  create_file st path := (true, { st with files := (path, []) :: st.files })
  create_directory st path := (true, { st with dirs := (path, []) :: st.dirs })
  rename_file st _ _ := (false, st)
  write_file st path buf len := (true, { st with files := (path, buf.take len) :: st.files })

/-- A card whose root holds the file `a.txt` (content `hi`) and the directory `docs`. -/
def demoDisk : RamDisk :=
  { files := [([47, 97, 46, 116, 120, 116], [104, 105])]
    dirs := [([47], [[97, 46, 116, 120, 116], [100, 111, 99, 115]]),
             ([47, 100, 111, 99, 115], [])] }

/-- The state after `cybertyper_init` on `demoDisk`. -/
def demoNormal : State RamDisk :=
  cybertyper_init ramHal 0 (boot demoDisk)

/-- The state after pressing Right on `a.txt` in `demoNormal`: the file is open. -/
def demoEditing : State RamDisk :=
  dispatch_key ramHal 0 KEY_ARROW_RIGHT demoNormal

/-- The state after the rename-request key on `a.txt` in `demoNormal`. -/
def demoRename : State RamDisk :=
  dispatch_key ramHal 0 KEY_CTRL_R demoNormal

/-- A file name of 63 characters (`a` repeated), the longest a `file_list` slot holds. -/
def longName : List Nat := List.replicate 63 97

/-- The path of `longName` in the root: 64 characters. -/
def longPath : List Nat := SLASH :: longName

/-- A card whose root holds the one file `longName`, with content `hi`. -/
def longDisk : RamDisk :=
  { files := [(longPath, [104, 105])]
    dirs := [([47], [longName])] }

/-- The key sequence Right (open), `X`, save-request, one key per cycle. -/
def openTypeSave : List CycleInput :=
  [⟨1, KEY_ARROW_RIGHT, 1⟩, ⟨2, KEY_CHAR_BASE + 88, 2⟩, ⟨3, KEY_CTRL_S, 3⟩]

/-- The write calls of a gateway log. -/
def write_calls (cs : List StorageCall) : List StorageCall :=
  cs.filter (fun c => match c with
    | StorageCall.write_file _ _ _ => true
    | _ => false)

/-- The read calls of a gateway log. -/
def read_calls (cs : List StorageCall) : List StorageCall :=
  cs.filter (fun c => match c with
    | StorageCall.read_file _ _ => true
    | _ => false)

/-- The key sequence `openTypeSave` followed by Escape and Right (open the same entry
again). -/
def openTypeSaveReopen : List CycleInput :=
  openTypeSave ++ [⟨4, KEY_ESCAPE, 4⟩, ⟨5, KEY_ARROW_RIGHT, 5⟩]

/-- The state after Down and Right on `docs` in `demoNormal`: two columns, focus on the
second. -/
def demoDocs : State RamDisk :=
  run_cycles ramHal [⟨1, KEY_ARROW_DOWN, 1⟩, ⟨2, KEY_ARROW_RIGHT, 2⟩] demoNormal

/-- The state after typing `x` in the rename prompt of `demoRename`. -/
def demoRenameTyped : State RamDisk :=
  dispatch_key ramHal 0 (KEY_CHAR_BASE + 120) demoRename

/-- The state after the new-file-request key and the character `n` in `demoDocs`. -/
def demoNewFile : State RamDisk :=
  dispatch_key ramHal 0 (KEY_CHAR_BASE + 110) (dispatch_key ramHal 0 KEY_CTRL_N demoDocs)

/-- The state `demoNormal` put into NewFolder by `enter_new_folder_mode`, with `x` typed. -/
def demoNewFolder : State RamDisk :=
  dispatch_key ramHal 0 (KEY_CHAR_BASE + 120) (enter_new_folder_mode demoNormal)

/-- A card whose root directory is empty. -/
def emptyDisk : RamDisk :=
  { files := []
    dirs := [([47], [])] }

/-- The application right after `cybertyper_init` on `emptyDisk`: the root column has
no entries, so the browse screen shows the hint for F2 and Ctrl+N. -/
def demoEmpty : State RamDisk :=
  cybertyper_init ramHal 0 (boot emptyDisk)

/-- Normal state with a stale modal buffer: `demoRenameTyped` left through Escape. -/
def demoStale : State RamDisk :=
  dispatch_key ramHal 0 KEY_ESCAPE demoRenameTyped

/-- The state reached from `cybertyper_init` on `demoDisk` by one cycle with the key
Down: Normal, one column, the directory `docs` selected. -/
def demoReached : State RamDisk :=
  run_cycles ramHal [⟨1, KEY_ARROW_DOWN, 1⟩] (cybertyper_init ramHal 0 (boot demoDisk))

/-- The new-file prompt in the directory `/docs` of `demoDocs` with a name of 60
characters (`n` repeated) typed: the target path has 70 characters. -/
def demoLongNewFile : State RamDisk :=
  run_cycles ramHal (⟨0, KEY_CTRL_N, 0⟩ :: List.replicate 60 ⟨0, KEY_CHAR_BASE + 110, 0⟩)
    demoDocs

/-! ## Predicates used in the statements -/

/-- The modal buffer is a well-formed C string of length `input_len`: the array has its
`INPUT_BUFFER_SIZE` bytes, `input_len` is below that size, the first `input_len` bytes
are not NUL and the byte at `input_len` is the terminator. -/
def ModalWF {σ : Type} (s : State σ) : Prop :=
  s.input_buffer.length = INPUT_BUFFER_SIZE ∧ s.input_len < INPUT_BUFFER_SIZE ∧
  (∀ k, k < s.input_len → s.input_buffer.getD k 0 ≠ 0) ∧
  s.input_buffer.getD s.input_len 0 = 0

/-- The path of an entry as the specification words it: the directory path followed by
the entry name, with a separator in between unless the directory path already ends with
one. -/
def spec_open_path (d n : List Nat) : List Nat :=
  if d.getLast? = some SLASH then d ++ n else d ++ [SLASH] ++ n

/-- A storage model in which reading a path returns the bytes last written to that path,
up to the read limit of `buffer_size - 1` bytes. -/
def ReadAfterWrite {σ : Type} (hal : Hal σ) : Prop :=
  ∀ (st : σ) (path buf : List Nat) (len size : Nat),
    hal.read_file (hal.write_file st path buf len).2 path size
      = some ((buf.take len).take (size - 1))

/-- The Editor Model invariant `cursor ≤ length ≤ capacity`. -/
def EditorInv {σ : Type} (s : State σ) : Prop :=
  s.edit_cursor_pos ≤ s.edit_length ∧ s.edit_length ≤ MAX_FILE_CONTENT_SIZE

/-- A column whose selection fits its listing: `selected_index < file_count` when the
column has entries, `selected_index = 0` when it has none, and the listing fits the
`file_list` array. -/
def ColOK (c : DirectoryColumn) : Prop :=
  (0 < c.file_count → c.selected_index < c.file_count) ∧
  (c.file_count = 0 → c.selected_index = 0) ∧
  c.file_count ≤ MAX_FILES

/-- The Navigation Model invariant: the array has its `MAX_COLUMNS` slots,
`focused_column < column_count ≤ MAX_COLUMNS`, and every column is `ColOK`. -/
def NavInv {σ : Type} (s : State σ) : Prop :=
  s.columns.length = MAX_COLUMNS ∧ s.focused_column < s.column_count ∧
  s.column_count ≤ MAX_COLUMNS ∧ ∀ c ∈ s.columns, ColOK c

/-- The gateway never lists more than the `MAX_FILES` entries it is asked for. -/
def ListingBounded {σ : Type} (hal : Hal σ) : Prop :=
  ∀ (st : σ) (dir : List Nat), (hal.list_files st dir MAX_FILES).length ≤ MAX_FILES

/-- The local `oldpath` of `commit_rename` (line 400). -/
def rename_oldpath {σ : Type} (s : State σ) : List Nat :=
  (s.focused.directory ++ [SLASH] ++ s.selected_name).take (MAX_PATH_LEN - 1)

/-- The local `newpath` of `commit_rename` (line 401) and `newdir` of `commit_new_folder`
(line 422): the focused directory, a separator and the string in the modal buffer. -/
def typed_path {σ : Type} (s : State σ) : List Nat :=
  (s.focused.directory ++ [SLASH] ++ cstr s.input_buffer).take (MAX_PATH_LEN - 1)

/-- The local `newfile` of `commit_new_file` (line 443). -/
def new_file_path {σ : Type} (s : State σ) : List Nat :=
  (s.focused.directory ++ [SLASH] ++ cstr s.input_buffer ++ DOT_TXT).take (MAX_PATH_LEN - 1)

/-- The gateway calls that change storage: `hal_storage_write_file`,
`hal_storage_create_file`, `hal_storage_create_directory`, `hal_storage_rename_file`. -/
def StorageCall.mutates : StorageCall → Bool
  | StorageCall.write_file _ _ _ => true
  | StorageCall.create_file _ => true
  | StorageCall.create_directory _ => true
  | StorageCall.rename_file _ _ => true
  | _ => false

/-- The calls to `hal_storage_create_directory`. -/
def StorageCall.is_create_directory : StorageCall → Bool
  | StorageCall.create_directory _ => true
  | _ => false

/-- The explicit commit actions: the save request in the editor, or Enter in one of the
three prompts with a non-empty modal buffer. -/
def CommitAction {σ : Type} (key : Nat) (s : State σ) : Prop :=
  (s.current_state = AppState.STATE_EDITING ∧ key = KEY_CTRL_S) ∨
  ((s.current_state = AppState.STATE_RENAME ∨ s.current_state = AppState.STATE_NEW_FOLDER ∨
      s.current_state = AppState.STATE_NEW_FILE) ∧ key = KEY_ENTER ∧ s.input_len ≠ 0)

/-- How one handled key may move the column counters: not at all, both up by one (a
directory was opened), or focus down by one with `column_count` set to the old focus
(Left). -/
def CountStep {σ : Type} (s s' : State σ) : Prop :=
  (s'.column_count = s.column_count ∧ s'.focused_column = s.focused_column) ∨
  (s'.column_count = s.column_count + 1 ∧ s'.focused_column = s.focused_column + 1) ∨
  (0 < s.focused_column ∧ s'.focused_column = s.focused_column - 1 ∧
    s'.column_count = s.focused_column)

/-- Summary of one handled key, from `s` to `s'`: the call log only grows; a mutating
call is added only by a commit action, a `create_directory` call only from the
new-folder prompt; storage changes only by a commit action; the new-folder prompt is
entered from no other state; the column counters move as `CountStep` says. -/
def StepOK {σ : Type} (key : Nat) (s s' : State σ) : Prop :=
  (∃ added : List StorageCall, s'.calls = s.calls ++ added ∧
    (∀ c ∈ added, c.mutates = true → CommitAction key s) ∧
    (∀ c ∈ added, c.is_create_directory = true →
      s.current_state = AppState.STATE_NEW_FOLDER)) ∧
  (¬ CommitAction key s → s'.storage = s.storage) ∧
  (s'.current_state = AppState.STATE_NEW_FOLDER →
    s.current_state = AppState.STATE_NEW_FOLDER) ∧
  CountStep s s'

/-- No stale column: `column_count = focused_column + 1`, and every column slot from
`column_count` on holds only zero bytes, as at program start or after the `memset` of
the Left branch. -/
def NoStaleColumns {σ : Type} (s : State σ) : Prop :=
  s.column_count = s.focused_column + 1 ∧ ∀ i, s.column_count ≤ i → s.col i = zeroColumn

/-! ## Auxiliary lemmas -/

section Lemmas

variable {σ : Type}

theorem memmove_getElem? (buf : List Nat) (dst src n k : Nat)
    (hs : src + n ≤ buf.length) (hd : dst ≤ buf.length) :
    (memmove buf dst src n)[k]? =
      if k < dst then buf[k]? else if k < dst + n then buf[src + (k - dst)]? else buf[k]? := by
  have htmp : ((buf.drop src).take n).length = n := by
    simp only [List.length_take, List.length_drop]; omega
  unfold memmove
  simp only [htmp, List.getElem?_append, List.length_append, List.length_take,
    List.getElem?_take, List.getElem?_drop, Nat.min_eq_left hd]
  split_ifs <;> first | rfl | omega | (congr 1; omega)

theorem memmove_length (buf : List Nat) (dst src n : Nat) (hd : dst + n ≤ buf.length) :
    (memmove buf dst src n).length = buf.length := by
  unfold memmove
  simp only [List.length_append, List.length_take, List.length_drop]
  omega

/-- The editor handler on the key of a printable character. -/
theorem handle_editor_input_char (hal : Hal σ) (s : State σ) (c : Nat)
    (hc : 32 ≤ c ∧ c ≤ 126) :
    handle_editor_input hal (KEY_CHAR_BASE + c) s =
      if s.edit_length < MAX_FILE_CONTENT_SIZE - 1 then
        { s with
          edit_buffer := (memmove s.edit_buffer (s.edit_cursor_pos + 1) s.edit_cursor_pos
            (s.edit_length - s.edit_cursor_pos + 1)).set s.edit_cursor_pos c
          edit_length := s.edit_length + 1
          edit_cursor_pos := s.edit_cursor_pos + 1 }
      else s := by
  obtain ⟨h1, h2⟩ := hc
  have e1 : KEY_CHAR_BASE + c ≠ KEY_CTRL_S := by simp only [KEY_CHAR_BASE, KEY_CTRL_S]; omega
  have e2 : KEY_CHAR_BASE + c ≠ KEY_ESCAPE := by simp only [KEY_CHAR_BASE, KEY_ESCAPE]; omega
  have e3 : KEY_CHAR_BASE + c ≠ KEY_ARROW_LEFT := by
    simp only [KEY_CHAR_BASE, KEY_ARROW_LEFT]; omega
  have e4 : KEY_CHAR_BASE + c ≠ KEY_ARROW_RIGHT := by
    simp only [KEY_CHAR_BASE, KEY_ARROW_RIGHT]; omega
  have e5 : KEY_CHAR_BASE + c ≠ KEY_BACKSPACE := by
    simp only [KEY_CHAR_BASE, KEY_BACKSPACE]; omega
  have e6 : (KEY_CHAR_BASE + c - KEY_CHAR_BASE) % 256 = c := by
    rw [Nat.add_sub_cancel_left]; exact Nat.mod_eq_of_lt (by omega)
  simp only [handle_editor_input, e1, e2, e3, e4, e5, e6, h1, h2, if_false, false_and,
    and_true, ge_iff_le, Nat.le_add_right, if_true]

/-- The editor handler on Backspace. -/
theorem handle_editor_input_backspace (hal : Hal σ) (s : State σ) :
    handle_editor_input hal KEY_BACKSPACE s =
      if s.edit_cursor_pos > 0 then
        { s with
          edit_buffer := memmove s.edit_buffer (s.edit_cursor_pos - 1) s.edit_cursor_pos
            (s.edit_length - s.edit_cursor_pos + 1)
          edit_length := s.edit_length - 1
          edit_cursor_pos := s.edit_cursor_pos - 1 }
      else s := by
  have e1 : KEY_BACKSPACE ≠ KEY_CTRL_S := by decide
  have e2 : KEY_BACKSPACE ≠ KEY_ESCAPE := by decide
  have e3 : KEY_BACKSPACE ≠ KEY_ARROW_LEFT := by decide
  have e4 : ¬ KEY_BACKSPACE ≥ KEY_CHAR_BASE := by decide
  have e5 : KEY_BACKSPACE ≠ KEY_ARROW_RIGHT := by decide
  simp only [handle_editor_input, e1, e2, e3, e4, e5, if_false, false_and, true_and]

/-- The editor handler on the save-request key. -/
theorem handle_editor_input_save (hal : Hal σ) (s : State σ) :
    handle_editor_input hal KEY_CTRL_S s =
      { s with
        storage := (hal.write_file s.storage s.edit_filename s.edit_buffer s.edit_length).2
        calls := s.calls ++
          [StorageCall.write_file s.edit_filename s.edit_buffer s.edit_length] } := by
  simp only [handle_editor_input, if_true]

/-- The editor handler on Escape. -/
theorem handle_editor_input_escape (hal : Hal σ) (s : State σ) :
    handle_editor_input hal KEY_ESCAPE s = { s with current_state := AppState.STATE_NORMAL } := by
  have e1 : KEY_ESCAPE ≠ KEY_CTRL_S := by decide
  simp only [handle_editor_input, e1, if_false, if_true]

/-- The editor handler on Left. -/
theorem handle_editor_input_left (hal : Hal σ) (s : State σ) :
    handle_editor_input hal KEY_ARROW_LEFT s =
      if s.edit_cursor_pos > 0 then { s with edit_cursor_pos := s.edit_cursor_pos - 1 }
      else s := by
  have e1 : KEY_ARROW_LEFT ≠ KEY_CTRL_S := by decide
  have e2 : KEY_ARROW_LEFT ≠ KEY_ESCAPE := by decide
  have e3 : KEY_ARROW_LEFT ≠ KEY_BACKSPACE := by decide
  have e4 : ¬ KEY_ARROW_LEFT ≥ KEY_CHAR_BASE := by decide
  have e5 : KEY_ARROW_LEFT ≠ KEY_ARROW_RIGHT := by decide
  simp only [handle_editor_input, e1, e2, e3, e4, e5, if_false, false_and, true_and]

/-- The editor handler on Right. -/
theorem handle_editor_input_right (hal : Hal σ) (s : State σ) :
    handle_editor_input hal KEY_ARROW_RIGHT s =
      if s.edit_cursor_pos < s.edit_length then
        { s with edit_cursor_pos := s.edit_cursor_pos + 1 }
      else s := by
  have e1 : KEY_ARROW_RIGHT ≠ KEY_CTRL_S := by decide
  have e2 : KEY_ARROW_RIGHT ≠ KEY_ESCAPE := by decide
  have e3 : KEY_ARROW_RIGHT ≠ KEY_BACKSPACE := by decide
  have e4 : ¬ KEY_ARROW_RIGHT ≥ KEY_CHAR_BASE := by decide
  have e5 : KEY_ARROW_RIGHT ≠ KEY_ARROW_LEFT := by decide
  simp only [handle_editor_input, e1, e2, e3, e4, e5, if_false, false_and, true_and]

/-- The editor handler on a key code at or above `KEY_CHAR_BASE`. -/
theorem handle_editor_input_charkey (hal : Hal σ) (s : State σ) (key : Nat)
    (hk : KEY_CHAR_BASE ≤ key) :
    handle_editor_input hal key s =
      if s.edit_length < MAX_FILE_CONTENT_SIZE - 1 ∧ 32 ≤ (key - KEY_CHAR_BASE) % 256 ∧
          (key - KEY_CHAR_BASE) % 256 ≤ 126 then
        { s with
          edit_buffer := (memmove s.edit_buffer (s.edit_cursor_pos + 1) s.edit_cursor_pos
            (s.edit_length - s.edit_cursor_pos + 1)).set s.edit_cursor_pos
              ((key - KEY_CHAR_BASE) % 256)
          edit_length := s.edit_length + 1
          edit_cursor_pos := s.edit_cursor_pos + 1 }
      else s := by
  have e1 : key ≠ KEY_CTRL_S := by simp only [KEY_CHAR_BASE, KEY_CTRL_S] at *; omega
  have e2 : key ≠ KEY_ESCAPE := by simp only [KEY_CHAR_BASE, KEY_ESCAPE] at *; omega
  have e3 : key ≠ KEY_ARROW_LEFT := by simp only [KEY_CHAR_BASE, KEY_ARROW_LEFT] at *; omega
  have e4 : key ≠ KEY_ARROW_RIGHT := by
    simp only [KEY_CHAR_BASE, KEY_ARROW_RIGHT] at *; omega
  have e5 : key ≠ KEY_BACKSPACE := by simp only [KEY_CHAR_BASE, KEY_BACKSPACE] at *; omega
  simp only [handle_editor_input, e1, e2, e3, e4, e5, if_false, false_and, ge_iff_le, hk,
    if_true]

/-- The editor handler on any other key code: nothing changes. -/
theorem handle_editor_input_other (hal : Hal σ) (s : State σ) (key : Nat)
    (h1 : key ≠ KEY_CTRL_S) (h2 : key ≠ KEY_ESCAPE) (h3 : key ≠ KEY_ARROW_LEFT)
    (h4 : key ≠ KEY_ARROW_RIGHT) (h5 : key ≠ KEY_BACKSPACE) (h6 : ¬ KEY_CHAR_BASE ≤ key) :
    handle_editor_input hal key s = s := by
  simp only [handle_editor_input, h1, h2, h3, h4, h5, h6, if_false, false_and, ge_iff_le]

/-- Every result of the editor handler is of one of seven shapes. -/
theorem handle_editor_input_cases (hal : Hal σ) (key : Nat) (s : State σ) :
    (key = KEY_CTRL_S ∧ handle_editor_input hal key s =
      { s with
        storage := (hal.write_file s.storage s.edit_filename s.edit_buffer s.edit_length).2
        calls := s.calls ++
          [StorageCall.write_file s.edit_filename s.edit_buffer s.edit_length] }) ∨
    (key = KEY_ESCAPE ∧ handle_editor_input hal key s =
      { s with current_state := AppState.STATE_NORMAL }) ∨
    (key = KEY_ARROW_LEFT ∧ 0 < s.edit_cursor_pos ∧ handle_editor_input hal key s =
      { s with edit_cursor_pos := s.edit_cursor_pos - 1 }) ∨
    (key = KEY_ARROW_RIGHT ∧ s.edit_cursor_pos < s.edit_length ∧
      handle_editor_input hal key s = { s with edit_cursor_pos := s.edit_cursor_pos + 1 }) ∨
    (key = KEY_BACKSPACE ∧ 0 < s.edit_cursor_pos ∧ handle_editor_input hal key s =
      { s with
        edit_buffer := memmove s.edit_buffer (s.edit_cursor_pos - 1) s.edit_cursor_pos
          (s.edit_length - s.edit_cursor_pos + 1)
        edit_length := s.edit_length - 1
        edit_cursor_pos := s.edit_cursor_pos - 1 }) ∨
    (KEY_CHAR_BASE ≤ key ∧ s.edit_length < MAX_FILE_CONTENT_SIZE - 1 ∧
      32 ≤ (key - KEY_CHAR_BASE) % 256 ∧ (key - KEY_CHAR_BASE) % 256 ≤ 126 ∧
      handle_editor_input hal key s =
        { s with
          edit_buffer := (memmove s.edit_buffer (s.edit_cursor_pos + 1) s.edit_cursor_pos
            (s.edit_length - s.edit_cursor_pos + 1)).set s.edit_cursor_pos
              ((key - KEY_CHAR_BASE) % 256)
          edit_length := s.edit_length + 1
          edit_cursor_pos := s.edit_cursor_pos + 1 }) ∨
    handle_editor_input hal key s = s := by
  by_cases h1 : key = KEY_CTRL_S
  · subst h1; exact Or.inl ⟨rfl, handle_editor_input_save hal s⟩
  by_cases h2 : key = KEY_ESCAPE
  · subst h2; exact Or.inr (Or.inl ⟨rfl, handle_editor_input_escape hal s⟩)
  by_cases h3 : key = KEY_ARROW_LEFT
  · subst h3
    rw [handle_editor_input_left]
    by_cases hc : s.edit_cursor_pos > 0
    · rw [if_pos hc]; exact Or.inr (Or.inr (Or.inl ⟨rfl, hc, rfl⟩))
    · rw [if_neg hc]; simp
  by_cases h4 : key = KEY_ARROW_RIGHT
  · subst h4
    rw [handle_editor_input_right]
    by_cases hc : s.edit_cursor_pos < s.edit_length
    · rw [if_pos hc]; exact Or.inr (Or.inr (Or.inr (Or.inl ⟨rfl, hc, rfl⟩)))
    · rw [if_neg hc]; simp
  by_cases h5 : key = KEY_BACKSPACE
  · subst h5
    rw [handle_editor_input_backspace]
    by_cases hc : s.edit_cursor_pos > 0
    · rw [if_pos hc]; exact Or.inr (Or.inr (Or.inr (Or.inr (Or.inl ⟨rfl, hc, rfl⟩))))
    · rw [if_neg hc]; simp
  by_cases h6 : KEY_CHAR_BASE ≤ key
  · rw [handle_editor_input_charkey hal s key h6]
    by_cases hc : s.edit_length < MAX_FILE_CONTENT_SIZE - 1 ∧
        32 ≤ (key - KEY_CHAR_BASE) % 256 ∧ (key - KEY_CHAR_BASE) % 256 ≤ 126
    · rw [if_pos hc]
      exact Or.inr (Or.inr (Or.inr (Or.inr (Or.inr (Or.inl
        ⟨h6, hc.1, hc.2.1, hc.2.2, rfl⟩)))))
    · rw [if_neg hc]; simp
  · rw [handle_editor_input_other hal s key h1 h2 h3 h4 h5 h6]; simp

/-- A column with entries is a real slot of the array. -/
theorem lt_length_of_file_count_pos (s : State σ) (i : Nat)
    (h : 0 < (s.col i).file_count) : i < s.columns.length := by
  by_contra hge
  have hnone : s.columns[i]? = none := List.getElem?_eq_none (by omega)
  simp [State.col, hnone, zeroColumn] at h

theorem getD_set_self (l : List DirectoryColumn) (i : Nat) (c : DirectoryColumn)
    (h : i < l.length) : (l.set i c).getD i zeroColumn = c := by
  simp [List.getElem?_set, h]

theorem getD_set_ne (l : List DirectoryColumn) (i j : Nat) (c : DirectoryColumn)
    (h : i ≠ j) : (l.set i c).getD j zeroColumn = l.getD j zeroColumn := by
  simp [List.getElem?_set, h]

/-- The navigation handler on Up. -/
theorem handle_normal_navigation_up (hal : Hal σ) (now : Int) (s : State σ) :
    handle_normal_navigation hal now KEY_ARROW_UP s =
      if s.focused.file_count > 0 ∧ s.focused.selected_index > 0 then
        { s with
          columns := s.columns.set s.focused_column
            { s.focused with selected_index := s.focused.selected_index - 1 } }
      else s := by
  simp only [handle_normal_navigation, State.focused, if_true]

/-- The navigation handler on Down. -/
theorem handle_normal_navigation_down (hal : Hal σ) (now : Int) (s : State σ) :
    handle_normal_navigation hal now KEY_ARROW_DOWN s =
      if s.focused.file_count > 0 ∧ s.focused.selected_index < s.focused.file_count - 1 then
        { s with
          columns := s.columns.set s.focused_column
            { s.focused with selected_index := s.focused.selected_index + 1 } }
      else s := by
  have e1 : KEY_ARROW_DOWN ≠ KEY_ARROW_UP := by decide
  simp only [handle_normal_navigation, State.focused, e1, if_false, if_true]

/-- One cycle of an initialised controller with a key event: the blink step, then the
handler of the active state. -/
theorem cybertyper_run_cycle_key (hal : Hal σ) (inp : CycleInput) (s : State σ)
    (hinit : s.initialized = true) (hkey : inp.key ≠ KEY_NONE) :
    cybertyper_run_cycle hal inp s =
      dispatch_key hal inp.open_time inp.key (blink_tick inp.current_time s) := by
  simp only [cybertyper_run_cycle, hinit, hkey, Bool.not_true, if_false]
  rfl

/-- The blink step changes only `cursor_visible` and `last_toggle_time`. -/
theorem blink_tick_eq (t : Int) (s : State σ) :
    blink_tick t s =
      { s with
        cursor_visible := (blink_tick t s).cursor_visible
        last_toggle_time := (blink_tick t s).last_toggle_time } := by
  unfold blink_tick
  split_ifs <;> rfl

theorem blink_tick_fields (t : Int) (s : State σ) :
    (blink_tick t s).columns = s.columns ∧
    (blink_tick t s).column_count = s.column_count ∧
    (blink_tick t s).focused_column = s.focused_column ∧
    (blink_tick t s).initialized = s.initialized ∧
    (blink_tick t s).current_state = s.current_state ∧
    (blink_tick t s).focused = s.focused := by
  unfold blink_tick
  split_ifs <;> simp [State.focused, State.col]

/-- One cycle with an Up or Down key in Normal state: only the selection of the focused
column can change, as the two branches of the handler say. -/
theorem updown_cycle (hal : Hal σ) (inp : CycleInput) (s : State σ)
    (hinit : s.initialized = true) (hstate : s.current_state = AppState.STATE_NORMAL)
    (hk : inp.key = KEY_ARROW_UP ∨ inp.key = KEY_ARROW_DOWN) :
    (cybertyper_run_cycle hal inp s).initialized = true ∧
    (cybertyper_run_cycle hal inp s).current_state = AppState.STATE_NORMAL ∧
    (cybertyper_run_cycle hal inp s).focused_column = s.focused_column ∧
    (cybertyper_run_cycle hal inp s).focused.file_count = s.focused.file_count ∧
    (cybertyper_run_cycle hal inp s).focused.selected_index =
      if inp.key = KEY_ARROW_UP then
        (if 0 < s.focused.file_count then s.focused.selected_index - 1
         else s.focused.selected_index)
      else
        (if s.focused.selected_index + 1 < s.focused.file_count then
          s.focused.selected_index + 1
         else s.focused.selected_index) := by
  have hne : inp.key ≠ KEY_NONE := by
    rcases hk with h | h <;> rw [h] <;> decide
  obtain ⟨b1, _, b3, b4, b5, b6⟩ := blink_tick_fields inp.current_time s
  rw [cybertyper_run_cycle_key hal inp s hinit hne]
  generalize blink_tick inp.current_time s = b at b1 b3 b4 b5 b6
  rw [hinit] at b4
  rw [hstate] at b5
  rw [← b3, ← b6]
  have hd : dispatch_key hal inp.open_time inp.key b =
      handle_normal_navigation hal inp.open_time inp.key b := by
    simp only [dispatch_key, b5]
  rw [hd]
  rcases hk with h | h
  · rw [h, handle_normal_navigation_up, if_pos rfl]
    by_cases hc : b.focused.file_count > 0 ∧ b.focused.selected_index > 0
    · have hlt : b.focused_column < b.columns.length :=
        lt_length_of_file_count_pos b _ hc.1
      rw [if_pos hc, if_pos hc.1]
      simp only [State.focused, State.col, getD_set_self _ _ _ hlt]
      exact ⟨b4, b5, trivial, trivial, trivial⟩
    · rw [if_neg hc]
      refine ⟨b4, b5, rfl, rfl, ?_⟩
      split_ifs <;> omega
  · have e1 : KEY_ARROW_DOWN ≠ KEY_ARROW_UP := by decide
    rw [h, handle_normal_navigation_down, if_neg e1]
    by_cases hc : b.focused.file_count > 0 ∧
        b.focused.selected_index < b.focused.file_count - 1
    · have hlt : b.focused_column < b.columns.length :=
        lt_length_of_file_count_pos b _ hc.1
      have hc2 : b.focused.selected_index + 1 < b.focused.file_count := by omega
      rw [if_pos hc, if_pos hc2]
      simp only [State.focused, State.col, getD_set_self _ _ _ hlt]
      exact ⟨b4, b5, trivial, trivial, trivial⟩
    · rw [if_neg hc]
      refine ⟨b4, b5, rfl, rfl, ?_⟩
      split_ifs <;> omega

/-- The navigation handler on Right or Enter. -/
theorem handle_normal_navigation_open (hal : Hal σ) (now : Int) (key : Nat) (s : State σ)
    (hk : key = KEY_ARROW_RIGHT ∨ key = KEY_ENTER) :
    handle_normal_navigation hal now key s =
      if s.focused.file_count > 0 then
        if hal.is_directory s.storage (selected_path s) then
          if s.column_count < MAX_COLUMNS then
            { load_directory hal s.column_count (selected_path s)
                { s with calls := s.calls ++ [StorageCall.is_directory (selected_path s)] } with
              column_count := (load_directory hal s.column_count (selected_path s)
                { s with calls := s.calls ++ [StorageCall.is_directory (selected_path s)] }
                ).column_count + 1
              focused_column := (load_directory hal s.column_count (selected_path s)
                { s with calls := s.calls ++ [StorageCall.is_directory (selected_path s)] }
                ).focused_column + 1 }
          else { s with calls := s.calls ++ [StorageCall.is_directory (selected_path s)] }
        else enter_edit_mode hal now (selected_path s)
          { s with calls := s.calls ++ [StorageCall.is_directory (selected_path s)] }
      else s := by
  have e1 : key ≠ KEY_ARROW_UP := by rcases hk with h | h <;> rw [h] <;> decide
  have e2 : key ≠ KEY_ARROW_DOWN := by rcases hk with h | h <;> rw [h] <;> decide
  simp only [handle_normal_navigation, State.focused, e1, e2, hk, if_false, if_true]

/-- The navigation handler on Left. -/
theorem handle_normal_navigation_left (hal : Hal σ) (now : Int) (s : State σ) :
    handle_normal_navigation hal now KEY_ARROW_LEFT s =
      if s.focused_column > 0 then
        { s with
          focused_column := s.focused_column - 1
          columns := (List.range s.columns.length).map (fun i =>
            if s.focused_column - 1 + 1 ≤ i ∧ i < s.column_count then zeroColumn
            else s.col i)
          column_count := s.focused_column - 1 + 1 }
      else s := by
  have e1 : KEY_ARROW_LEFT ≠ KEY_ARROW_UP := by decide
  have e2 : KEY_ARROW_LEFT ≠ KEY_ARROW_DOWN := by decide
  have e3 : ¬ (KEY_ARROW_LEFT = KEY_ARROW_RIGHT ∨ KEY_ARROW_LEFT = KEY_ENTER) := by decide
  simp only [handle_normal_navigation, e1, e2, e3, if_false, if_true]

/-- The navigation handler on the rename-request key. -/
theorem handle_normal_navigation_ctrl_r (hal : Hal σ) (now : Int) (s : State σ) :
    handle_normal_navigation hal now KEY_CTRL_R s =
      if s.focused.file_count > 0 then enter_rename_mode s else s := by
  have e1 : KEY_CTRL_R ≠ KEY_ARROW_UP := by decide
  have e2 : KEY_CTRL_R ≠ KEY_ARROW_DOWN := by decide
  have e3 : ¬ (KEY_CTRL_R = KEY_ARROW_RIGHT ∨ KEY_CTRL_R = KEY_ENTER) := by decide
  have e4 : KEY_CTRL_R ≠ KEY_ARROW_LEFT := by decide
  simp only [handle_normal_navigation, State.focused, e1, e2, e3, e4, if_false, if_true]

/-- The navigation handler on the new-file-request key. -/
theorem handle_normal_navigation_ctrl_n (hal : Hal σ) (now : Int) (s : State σ) :
    handle_normal_navigation hal now KEY_CTRL_N s = enter_new_file_mode s := by
  have e1 : KEY_CTRL_N ≠ KEY_ARROW_UP := by decide
  have e2 : KEY_CTRL_N ≠ KEY_ARROW_DOWN := by decide
  have e3 : ¬ (KEY_CTRL_N = KEY_ARROW_RIGHT ∨ KEY_CTRL_N = KEY_ENTER) := by decide
  have e4 : KEY_CTRL_N ≠ KEY_ARROW_LEFT := by decide
  have e5 : KEY_CTRL_N ≠ KEY_CTRL_R := by decide
  simp only [handle_normal_navigation, e1, e2, e3, e4, e5, if_false, if_true]

/-- The navigation handler on any key outside its `switch`: nothing changes. -/
theorem handle_normal_navigation_other (hal : Hal σ) (now : Int) (key : Nat) (s : State σ)
    (h1 : key ≠ KEY_ARROW_UP) (h2 : key ≠ KEY_ARROW_DOWN) (h3 : key ≠ KEY_ARROW_RIGHT)
    (h4 : key ≠ KEY_ENTER) (h5 : key ≠ KEY_ARROW_LEFT) (h6 : key ≠ KEY_CTRL_R)
    (h7 : key ≠ KEY_CTRL_N) :
    handle_normal_navigation hal now key s = s := by
  simp only [handle_normal_navigation, h1, h2, h3, h4, h5, h6, h7, if_false, or_self]

/-! ### Preservation of the navigation invariant -/

theorem colOK_zeroColumn : ColOK zeroColumn := by
  refine ⟨fun h => ?_, fun _ => rfl, Nat.zero_le _⟩
  exact absurd h (Nat.lt_irrefl 0)

theorem colOK_col (s : State σ) (i : Nat) (h : ∀ c ∈ s.columns, ColOK c) :
    ColOK (s.col i) := by
  unfold State.col
  rw [List.getD_eq_getElem?_getD]
  cases hi : s.columns[i]? with
  | none => exact colOK_zeroColumn
  | some c => exact h c (List.getElem?_mem hi)

theorem colOK_listing (d : List Nat) (fl names : List (List Nat))
    (h : names.length ≤ MAX_FILES) :
    ColOK { directory := d, file_list := fl, file_count := names.length,
            selected_index := 0 } :=
  ⟨fun hpos => hpos, fun _ => rfl, h⟩

theorem navInv_congr (s s' : State σ) (h1 : s'.columns = s.columns)
    (h2 : s'.column_count = s.column_count) (h3 : s'.focused_column = s.focused_column)
    (h : NavInv s) : NavInv s' := by
  unfold NavInv at *
  rw [h1, h2, h3]
  exact h

theorem navInv_set (s s' : State σ) (i : Nat) (c : DirectoryColumn)
    (h1 : s'.columns = s.columns.set i c) (h2 : s'.column_count = s.column_count)
    (h3 : s'.focused_column = s.focused_column) (hc : ColOK c) (h : NavInv s) :
    NavInv s' := by
  unfold NavInv at *
  rw [h1, h2, h3, List.length_set]
  refine ⟨h.1, h.2.1, h.2.2.1, fun x hx => ?_⟩
  rcases List.mem_or_eq_of_mem_set hx with hm | he
  · exact h.2.2.2 x hm
  · rw [he]; exact hc

theorem navInv_enter_edit_mode (hal : Hal σ) (now : Int) (filename : List Nat)
    (s : State σ) (h : NavInv s) : NavInv (enter_edit_mode hal now filename s) :=
  navInv_congr s _ rfl rfl rfl h

theorem navInv_reload_column (hal : Hal σ) (hb : ListingBounded hal) (col : Nat) (st : σ)
    (s : State σ) (h : NavInv s) : NavInv (reload_column hal col st s) :=
  navInv_set s _ col _ rfl rfl rfl (colOK_listing _ _ _ (hb st _)) h

theorem navInv_commit_rename (hal : Hal σ) (hb : ListingBounded hal) (s : State σ)
    (h : NavInv s) : NavInv (commit_rename hal s) := by
  simp only [commit_rename]
  split_ifs
  · exact h
  · exact navInv_reload_column hal hb _ _ _ (navInv_congr s _ rfl rfl rfl h)

theorem navInv_commit_new_folder (hal : Hal σ) (hb : ListingBounded hal) (s : State σ)
    (h : NavInv s) : NavInv (commit_new_folder hal s) := by
  simp only [commit_new_folder]
  split_ifs
  · exact h
  · exact navInv_reload_column hal hb _ _ _ (navInv_congr s _ rfl rfl rfl h)

theorem navInv_commit_new_file (hal : Hal σ) (hb : ListingBounded hal) (now : Int)
    (s : State σ) (h : NavInv s) : NavInv (commit_new_file hal now s) := by
  simp only [commit_new_file]
  split_ifs
  · exact h
  · exact navInv_reload_column hal hb _ _ _ (navInv_congr s _ rfl rfl rfl h)
  · exact navInv_enter_edit_mode hal now _ _ (navInv_congr s _ rfl rfl rfl h)
  · exact navInv_reload_column hal hb _ _ _ (navInv_congr s _ rfl rfl rfl h)

theorem navInv_handle_text_input (key : Nat) (s : State σ) (h : NavInv s) :
    NavInv (handle_text_input key s) := by
  simp only [handle_text_input]
  split_ifs <;> exact h

theorem navInv_handle_rename_input (hal : Hal σ) (hb : ListingBounded hal) (key : Nat)
    (s : State σ) (h : NavInv s) : NavInv (handle_rename_input hal key s) := by
  unfold handle_rename_input
  split_ifs
  · exact h
  · exact navInv_commit_rename hal hb s h
  · exact navInv_congr s _ rfl rfl rfl h
  · exact navInv_handle_text_input key s h

theorem navInv_handle_new_folder_input (hal : Hal σ) (hb : ListingBounded hal) (key : Nat)
    (s : State σ) (h : NavInv s) : NavInv (handle_new_folder_input hal key s) := by
  unfold handle_new_folder_input
  split_ifs
  · exact h
  · exact navInv_commit_new_folder hal hb s h
  · exact navInv_congr s _ rfl rfl rfl h
  · exact navInv_handle_text_input key s h

theorem navInv_handle_new_file_input (hal : Hal σ) (hb : ListingBounded hal) (now : Int)
    (key : Nat) (s : State σ) (h : NavInv s) :
    NavInv (handle_new_file_input hal now key s) := by
  unfold handle_new_file_input
  split_ifs
  · exact h
  · exact navInv_commit_new_file hal hb now s h
  · exact navInv_congr s _ rfl rfl rfl h
  · exact navInv_handle_text_input key s h

theorem navInv_handle_editor_input (hal : Hal σ) (key : Nat) (s : State σ)
    (h : NavInv s) : NavInv (handle_editor_input hal key s) := by
  rcases handle_editor_input_cases hal key s with
    ⟨_, e⟩ | ⟨_, e⟩ | ⟨_, _, e⟩ | ⟨_, _, e⟩ | ⟨_, _, e⟩ | ⟨_, _, _, _, e⟩ | e <;>
  rw [e] <;> exact navInv_congr s _ rfl rfl rfl h

theorem navInv_handle_normal_navigation (hal : Hal σ) (hb : ListingBounded hal)
    (now : Int) (key : Nat) (s : State σ) (h : NavInv s) :
    NavInv (handle_normal_navigation hal now key s) := by
  by_cases h1 : key = KEY_ARROW_UP
  · rw [h1, handle_normal_navigation_up]
    split_ifs with hc
    · have hok := colOK_col s s.focused_column h.2.2.2
      refine navInv_set s _ s.focused_column _ rfl rfl rfl ?_ h
      have hc1 := hok.1 hc.1
      exact ⟨fun _ => by show s.focused.selected_index - 1 < s.focused.file_count
                         unfold State.focused; omega,
             fun h0 => by have := hc.1; rw [show s.focused.file_count = 0 from h0] at this
                          exact absurd this (Nat.lt_irrefl 0),
             hok.2.2⟩
    · exact h
  by_cases h2 : key = KEY_ARROW_DOWN
  · rw [h2, handle_normal_navigation_down]
    split_ifs with hc
    · have hok := colOK_col s s.focused_column h.2.2.2
      refine navInv_set s _ s.focused_column _ rfl rfl rfl ?_ h
      have hc2 := hc.2
      exact ⟨fun _ => by show s.focused.selected_index + 1 < s.focused.file_count
                         omega,
             fun h0 => by have := hc.1; rw [show s.focused.file_count = 0 from h0] at this
                          exact absurd this (Nat.lt_irrefl 0),
             hok.2.2⟩
    · exact h
  by_cases h3 : key = KEY_ARROW_RIGHT ∨ key = KEY_ENTER
  · rw [handle_normal_navigation_open hal now key s h3]
    split_ifs with hc hd hcc
    · have hcc2 : ¬ s.column_count ≥ MAX_COLUMNS := by omega
      unfold NavInv at *
      simp only [load_directory, hcc2, if_false, List.length_set]
      refine ⟨h.1, by omega, by omega, fun x hx => ?_⟩
      rcases List.mem_or_eq_of_mem_set hx with hm | he
      · exact h.2.2.2 x hm
      · rw [he]; exact colOK_listing _ _ _ (hb _ _)
    · exact navInv_congr s _ rfl rfl rfl h
    · exact navInv_enter_edit_mode hal now _ _ (navInv_congr s _ rfl rfl rfl h)
    · exact h
  by_cases h4 : key = KEY_ARROW_LEFT
  · rw [h4, handle_normal_navigation_left]
    split_ifs with hc
    · unfold NavInv at *
      simp only [List.length_map, List.length_range]
      refine ⟨h.1, by omega, by omega, fun x hx => ?_⟩
      rw [List.mem_map] at hx
      obtain ⟨i, _, hi⟩ := hx
      rw [← hi]
      split_ifs
      · exact colOK_zeroColumn
      · exact colOK_col s i h.2.2.2
    · exact h
  by_cases h5 : key = KEY_CTRL_R
  · rw [h5, handle_normal_navigation_ctrl_r]
    unfold enter_rename_mode
    split_ifs
    · exact h
    · exact navInv_congr s _ rfl rfl rfl h
    · exact h
  by_cases h6 : key = KEY_CTRL_N
  · rw [h6, handle_normal_navigation_ctrl_n]
    exact navInv_congr s _ rfl rfl rfl h
  · rw [handle_normal_navigation_other hal now key s h1 h2 (fun e => h3 (Or.inl e))
      (fun e => h3 (Or.inr e)) h4 h5 h6]
    exact h

theorem navInv_dispatch_key (hal : Hal σ) (hb : ListingBounded hal) (now : Int)
    (key : Nat) (s : State σ) (h : NavInv s) : NavInv (dispatch_key hal now key s) := by
  unfold dispatch_key
  split
  · exact navInv_handle_editor_input hal key s h
  · exact navInv_handle_rename_input hal hb key s h
  · exact navInv_handle_new_folder_input hal hb key s h
  · exact navInv_handle_new_file_input hal hb now key s h
  · exact navInv_handle_normal_navigation hal hb now key s h

theorem navInv_blink_tick (t : Int) (s : State σ) (h : NavInv s) :
    NavInv (blink_tick t s) := by
  obtain ⟨b1, b2, b3, _⟩ := blink_tick_fields t s
  exact navInv_congr s _ b1 b2 b3 h

theorem navInv_cybertyper_run_cycle (hal : Hal σ) (hb : ListingBounded hal)
    (inp : CycleInput) (s : State σ) (h : NavInv s) :
    NavInv (cybertyper_run_cycle hal inp s) := by
  unfold cybertyper_run_cycle
  split_ifs
  · exact h
  · exact navInv_blink_tick _ s h
  · exact navInv_dispatch_key hal hb _ _ _ (navInv_blink_tick _ s h)

theorem navInv_run_cycles (hal : Hal σ) (hb : ListingBounded hal)
    (inputs : List CycleInput) (s : State σ) (h : NavInv s) :
    NavInv (run_cycles hal inputs s) := by
  induction inputs generalizing s with
  | nil => exact h
  | cons inp rest ih =>
    simp only [run_cycles, List.foldl_cons]
    exact ih _ (navInv_cybertyper_run_cycle hal hb inp s h)

theorem navInv_cybertyper_init (hal : Hal σ) (hb : ListingBounded hal) (now : Int)
    (st : σ) : NavInv (cybertyper_init hal now (boot st)) := by
  have h0 : ¬ 0 ≥ MAX_COLUMNS := by decide
  unfold NavInv
  simp only [cybertyper_init, load_directory, h0, if_false, boot, List.length_set,
    List.length_replicate]
  refine ⟨trivial, by decide, by decide, fun x hx => ?_⟩
  rcases List.mem_or_eq_of_mem_set hx with hm | he
  · rw [List.eq_of_mem_replicate hm]; exact colOK_zeroColumn
  · rw [he]; exact colOK_listing _ _ _ (hb _ _)

theorem listingBounded_ramHal : ListingBounded ramHal := by
  intro st dir
  exact List.length_take_le _ _

/-! ### Whole cycles -/

theorem blink_tick_exists (t : Int) (s : State σ) :
    ∃ (v : Bool) (l : Int),
      blink_tick t s = { s with cursor_visible := v, last_toggle_time := l } :=
  ⟨_, _, blink_tick_eq t s⟩

/-- A cycle with Right or Enter in Normal state on an entry that is not a directory:
the file is opened in the editor. -/
theorem cycle_open_file (hal : Hal σ) (inp : CycleInput) (s : State σ)
    (hinit : s.initialized = true) (hstate : s.current_state = AppState.STATE_NORMAL)
    (hk : inp.key = KEY_ARROW_RIGHT ∨ inp.key = KEY_ENTER)
    (hentries : 0 < s.focused.file_count)
    (hfile : hal.is_directory s.storage (selected_path s) = false) :
    cybertyper_run_cycle hal inp s =
      enter_edit_mode hal inp.open_time (selected_path s)
        { s with calls := s.calls ++ [StorageCall.is_directory (selected_path s)] } := by
  have hne : inp.key ≠ KEY_NONE := by rcases hk with h | h <;> rw [h] <;> decide
  obtain ⟨v, l, hb⟩ := blink_tick_exists inp.current_time s
  rw [cybertyper_run_cycle_key hal inp s hinit hne, hb]
  have hd : dispatch_key hal inp.open_time inp.key
      { s with cursor_visible := v, last_toggle_time := l } =
      handle_normal_navigation hal inp.open_time inp.key
        { s with cursor_visible := v, last_toggle_time := l } := by
    simp only [dispatch_key, hstate]
  rw [hd, handle_normal_navigation_open hal _ _ _ hk, if_pos, if_neg]
  · rfl
  · show ¬ hal.is_directory s.storage (selected_path s) = true
    rw [hfile]; exact Bool.false_ne_true
  · exact hentries

/-- A cycle with the key of a printable character in Editing state, below capacity. -/
theorem cycle_editor_char (hal : Hal σ) (inp : CycleInput) (s : State σ) (c : Nat)
    (hinit : s.initialized = true) (hstate : s.current_state = AppState.STATE_EDITING)
    (hk : inp.key = KEY_CHAR_BASE + c) (hc : 32 ≤ c ∧ c ≤ 126)
    (hlen : s.edit_length < MAX_FILE_CONTENT_SIZE - 1) :
    ∃ (v : Bool) (l : Int), cybertyper_run_cycle hal inp s =
      { s with
        edit_buffer := (memmove s.edit_buffer (s.edit_cursor_pos + 1) s.edit_cursor_pos
          (s.edit_length - s.edit_cursor_pos + 1)).set s.edit_cursor_pos c
        edit_length := s.edit_length + 1
        edit_cursor_pos := s.edit_cursor_pos + 1
        cursor_visible := v
        last_toggle_time := l } := by
  have hne : inp.key ≠ KEY_NONE := by
    rw [hk]; simp only [KEY_CHAR_BASE, KEY_NONE]; omega
  obtain ⟨v, l, hb⟩ := blink_tick_exists inp.current_time s
  refine ⟨v, l, ?_⟩
  rw [cybertyper_run_cycle_key hal inp s hinit hne, hb, hk]
  have hd : dispatch_key hal inp.open_time (KEY_CHAR_BASE + c)
      { s with cursor_visible := v, last_toggle_time := l } =
      handle_editor_input hal (KEY_CHAR_BASE + c)
        { s with cursor_visible := v, last_toggle_time := l } := by
    simp only [dispatch_key, hstate]
  rw [hd, handle_editor_input_char hal _ c hc, if_pos]
  exact hlen

/-- A cycle with the save-request key in Editing state. -/
theorem cycle_editor_save (hal : Hal σ) (inp : CycleInput) (s : State σ)
    (hinit : s.initialized = true) (hstate : s.current_state = AppState.STATE_EDITING)
    (hk : inp.key = KEY_CTRL_S) :
    ∃ (v : Bool) (l : Int), cybertyper_run_cycle hal inp s =
      { s with
        storage := (hal.write_file s.storage s.edit_filename s.edit_buffer s.edit_length).2
        calls := s.calls ++
          [StorageCall.write_file s.edit_filename s.edit_buffer s.edit_length]
        cursor_visible := v
        last_toggle_time := l } := by
  have hne : inp.key ≠ KEY_NONE := by rw [hk]; decide
  obtain ⟨v, l, hb⟩ := blink_tick_exists inp.current_time s
  refine ⟨v, l, ?_⟩
  rw [cybertyper_run_cycle_key hal inp s hinit hne, hb, hk]
  have hd : dispatch_key hal inp.open_time KEY_CTRL_S
      { s with cursor_visible := v, last_toggle_time := l } =
      handle_editor_input hal KEY_CTRL_S
        { s with cursor_visible := v, last_toggle_time := l } := by
    simp only [dispatch_key, hstate]
  rw [hd, handle_editor_input_save]

theorem readAfterWrite_ramHal : ReadAfterWrite ramHal := by
  intro st path buf len size
  simp [ramHal]

/-! ### The modal handlers -/

/-- Escape in any of the three modal states and in Editing. -/
theorem dispatch_key_escape (hal : Hal σ) (now : Int) (s : State σ)
    (h : s.current_state ≠ AppState.STATE_NORMAL) :
    dispatch_key hal now KEY_ESCAPE s = { s with current_state := AppState.STATE_NORMAL } := by
  have e1 : KEY_ESCAPE ≠ KEY_ENTER := by decide
  cases hs : s.current_state with
  | STATE_NORMAL => exact absurd hs h
  | STATE_RENAME => simp only [dispatch_key, hs, handle_rename_input, e1, if_false, if_true]
  | STATE_NEW_FOLDER =>
    simp only [dispatch_key, hs, handle_new_folder_input, e1, if_false, if_true]
  | STATE_NEW_FILE =>
    simp only [dispatch_key, hs, handle_new_file_input, e1, if_false, if_true]
  | STATE_EDITING => simp only [dispatch_key, hs, handle_editor_input_escape]

theorem getD_map_range (g : Nat → DirectoryColumn) (n i : Nat) :
    ((List.range n).map g).getD i zeroColumn = if i < n then g i else zeroColumn := by
  rw [List.getD_eq_getElem?_getD, List.getElem?_map]
  split_ifs with h
  · rw [List.getElem?_range h]; rfl
  · rw [List.getElem?_eq_none (by rw [List.length_range]; omega)]; rfl

theorem col_eq_zero_of_length_le (s : State σ) (i : Nat) (h : s.columns.length ≤ i) :
    s.col i = zeroColumn := by
  unfold State.col
  rw [List.getD_eq_getElem?_getD, List.getElem?_eq_none h]
  rfl

/-- The condition of `selected_path` says that the directory path ends with `'/'`. -/
theorem ends_with_slash_iff (d : List Nat) :
    (d.length > 0 ∧ d.getD (d.length - 1) 0 = SLASH) ↔ d.getLast? = some SLASH := by
  rw [List.getLast?_eq_getElem?, List.getD_eq_getElem?_getD]
  constructor
  · rintro ⟨hpos, h⟩
    rw [List.getElem?_eq_getElem (by omega)] at h ⊢
    simp only [Option.getD_some] at h
    rw [h]
  · intro h
    have hpos : d.length > 0 := by
      by_contra hc
      have : d = [] := List.length_eq_zero.mp (by omega)
      rw [this] at h
      simp at h
    refine ⟨hpos, ?_⟩
    rw [h]
    rfl

/-- Enter with a non-empty buffer in NewFolder runs `commit_new_folder`. -/
theorem dispatch_key_enter_new_folder (hal : Hal σ) (now : Int) (s : State σ)
    (hstate : s.current_state = AppState.STATE_NEW_FOLDER) (hlen : s.input_len ≠ 0) :
    dispatch_key hal now KEY_ENTER s = commit_new_folder hal s := by
  simp only [dispatch_key, hstate, handle_new_folder_input, hlen, if_true, if_false]

/-- Enter with a non-empty buffer in NewFile runs `commit_new_file`. -/
theorem dispatch_key_enter_new_file (hal : Hal σ) (now : Int) (s : State σ)
    (hstate : s.current_state = AppState.STATE_NEW_FILE) (hlen : s.input_len ≠ 0) :
    dispatch_key hal now KEY_ENTER s = commit_new_file hal now s := by
  simp only [dispatch_key, hstate, handle_new_file_input, hlen, if_true, if_false]

/-- Any key other than Enter and Escape in a modal state goes to `handle_text_input`. -/
theorem dispatch_key_modal_text (hal : Hal σ) (now : Int) (key : Nat) (s : State σ)
    (hmodal : s.current_state = AppState.STATE_RENAME ∨
      s.current_state = AppState.STATE_NEW_FOLDER ∨
      s.current_state = AppState.STATE_NEW_FILE)
    (h1 : key ≠ KEY_ENTER) (h2 : key ≠ KEY_ESCAPE) :
    dispatch_key hal now key s = handle_text_input key s := by
  rcases hmodal with h | h | h <;>
  simp only [dispatch_key, h, handle_rename_input, handle_new_folder_input,
    handle_new_file_input, h1, h2, if_false]

/-- The text handler on Backspace. -/
theorem handle_text_input_backspace (s : State σ) :
    handle_text_input KEY_BACKSPACE s =
      if s.input_len > 0 then
        { s with
          input_len := s.input_len - 1
          input_buffer := s.input_buffer.set (s.input_len - 1) 0 }
      else s := by
  simp only [handle_text_input, if_true]

/-- The text handler on a key code at or above `KEY_CHAR_BASE`. -/
theorem handle_text_input_charkey (key : Nat) (s : State σ) (hk : KEY_CHAR_BASE ≤ key) :
    handle_text_input key s =
      if s.input_len < INPUT_BUFFER_SIZE - 1 ∧ 32 ≤ (key - KEY_CHAR_BASE) % 256 ∧
          (key - KEY_CHAR_BASE) % 256 ≤ 126 then
        { s with
          input_len := s.input_len + 1
          input_buffer := (s.input_buffer.set s.input_len ((key - KEY_CHAR_BASE) % 256)).set
            (s.input_len + 1) 0 }
      else s := by
  have e1 : key ≠ KEY_BACKSPACE := by simp only [KEY_CHAR_BASE, KEY_BACKSPACE] at *; omega
  simp only [handle_text_input, e1, if_false, ge_iff_le, hk, if_true]

/-- The text handler on any other key code: nothing changes. -/
theorem handle_text_input_other (key : Nat) (s : State σ) (h1 : key ≠ KEY_BACKSPACE)
    (h2 : ¬ KEY_CHAR_BASE ≤ key) : handle_text_input key s = s := by
  simp only [handle_text_input, h1, if_false, ge_iff_le, h2]

/-- A character array whose first `n` bytes are not NUL and whose byte `n` is NUL holds
the string made of its first `n` bytes. -/
theorem cstr_eq_take (l : List Nat) (n : Nat) (h1 : ∀ k, k < n → l.getD k 0 ≠ 0)
    (h2 : l.getD n 0 = 0) : cstr l = l.take n := by
  induction l generalizing n with
  | nil => simp [cstr]
  | cons a tl ih =>
    cases n with
    | zero =>
      have ha : a = 0 := by simpa using h2
      simp [cstr, ha]
    | succ m =>
      have ha : a ≠ 0 := by simpa using h1 0 (Nat.succ_pos m)
      have h1' : ∀ k, k < m → tl.getD k 0 ≠ 0 := by
        intro k hk
        simpa using h1 (k + 1) (Nat.succ_lt_succ hk)
      have h2' : tl.getD m 0 = 0 := by simpa using h2
      have := ih m h1' h2'
      simp only [cstr] at this ⊢
      rw [List.takeWhile_cons_of_pos (by simpa using ha), this, List.take_succ_cons]

theorem cstr_of_modalWF (s : State σ) (h : ModalWF s) :
    cstr s.input_buffer = s.input_buffer.take s.input_len :=
  cstr_eq_take _ _ h.2.2.1 h.2.2.2

theorem cstr_set_zero (buf : List Nat) : cstr (buf.set 0 0) = [] := by
  cases buf with
  | nil => rfl
  | cons a tl => simp [cstr]

/-- Appending a character: `buf[len] = c; buf[len + 1] = 0`. -/
theorem buffer_append_wf (buf : List Nat) (len c : Nat)
    (h1 : buf.length = INPUT_BUFFER_SIZE) (h2 : len < INPUT_BUFFER_SIZE - 1)
    (h3 : ∀ k, k < len → buf.getD k 0 ≠ 0) (hc : c ≠ 0) :
    ((buf.set len c).set (len + 1) 0).length = INPUT_BUFFER_SIZE ∧
    (∀ k, k < len + 1 → ((buf.set len c).set (len + 1) 0).getD k 0 ≠ 0) ∧
    ((buf.set len c).set (len + 1) 0).getD (len + 1) 0 = 0 ∧
    ((buf.set len c).set (len + 1) 0).take (len + 1) = buf.take len ++ [c] := by
  simp only [INPUT_BUFFER_SIZE] at h1 h2
  refine ⟨by rw [List.length_set, List.length_set, h1]; rfl, fun k hk => ?_, ?_, ?_⟩
  · rw [List.getD_eq_getElem?_getD, List.getElem?_set, if_neg (by omega), List.getElem?_set]
    by_cases hkl : len = k
    · rw [if_pos hkl, if_pos (by omega)]
      exact hc
    · rw [if_neg hkl, ← List.getD_eq_getElem?_getD]
      exact h3 k (by omega)
  · rw [List.getD_eq_getElem?_getD, List.getElem?_set, if_pos rfl,
      if_pos (by rw [List.length_set, h1]; omega)]
    rfl
  · apply List.ext_getElem?
    intro k
    simp only [List.getElem?_take, List.getElem?_set, List.getElem?_append,
      List.length_take, List.length_set, h1]
    split_ifs <;> first
      | rfl
      | omega
      | (have hz : k - min len 128 = 0 := by omega
         rw [hz]; rfl)
      | exact (List.getElem?_eq_none (by simp; omega)).symm

/-- Removing the last character: `len--; buf[len] = 0`. -/
theorem buffer_backspace_wf (buf : List Nat) (len : Nat)
    (h1 : buf.length = INPUT_BUFFER_SIZE) (h2 : len < INPUT_BUFFER_SIZE) (hpos : 0 < len)
    (h3 : ∀ k, k < len → buf.getD k 0 ≠ 0) :
    (buf.set (len - 1) 0).length = INPUT_BUFFER_SIZE ∧
    (∀ k, k < len - 1 → (buf.set (len - 1) 0).getD k 0 ≠ 0) ∧
    (buf.set (len - 1) 0).getD (len - 1) 0 = 0 ∧
    (buf.set (len - 1) 0).take (len - 1) = buf.take (len - 1) := by
  simp only [INPUT_BUFFER_SIZE] at h1 h2
  refine ⟨by rw [List.length_set, h1]; rfl, fun k hk => ?_, ?_, ?_⟩
  · rw [List.getD_eq_getElem?_getD, List.getElem?_set, if_neg (by omega),
      ← List.getD_eq_getElem?_getD]
    exact h3 k (by omega)
  · rw [List.getD_eq_getElem?_getD, List.getElem?_set, if_pos rfl, if_pos (by omega)]
    rfl
  · apply List.ext_getElem?
    intro k
    simp only [List.getElem?_take, List.getElem?_set]
    split_ifs <;> first | rfl | omega

/-- The commit functions and `enter_edit_mode` never touch the modal buffer. -/
theorem commit_keeps_modal_buffer (hal : Hal σ) (now : Int) (s : State σ) :
    ((commit_rename hal s).input_len = s.input_len ∧
      (commit_rename hal s).input_buffer = s.input_buffer) ∧
    ((commit_new_folder hal s).input_len = s.input_len ∧
      (commit_new_folder hal s).input_buffer = s.input_buffer) ∧
    ((commit_new_file hal now s).input_len = s.input_len ∧
      (commit_new_file hal now s).input_buffer = s.input_buffer) := by
  refine ⟨?_, ?_, ?_⟩
  · simp only [commit_rename]
    split_ifs <;> exact ⟨rfl, rfl⟩
  · simp only [commit_new_folder]
    split_ifs <;> exact ⟨rfl, rfl⟩
  · simp only [commit_new_file]
    split_ifs <;> exact ⟨rfl, rfl⟩

/-- Enter in a modal state, whatever the buffer holds, leaves the modal buffer alone. -/
theorem dispatch_key_enter_keeps_modal_buffer (hal : Hal σ) (now : Int) (s : State σ)
    (hmodal : s.current_state = AppState.STATE_RENAME ∨
      s.current_state = AppState.STATE_NEW_FOLDER ∨
      s.current_state = AppState.STATE_NEW_FILE) :
    (dispatch_key hal now KEY_ENTER s).input_len = s.input_len ∧
    (dispatch_key hal now KEY_ENTER s).input_buffer = s.input_buffer := by
  obtain ⟨c1, c2, c3⟩ := commit_keeps_modal_buffer hal now s
  rcases hmodal with h | h | h
  · simp only [dispatch_key, h, handle_rename_input, if_true]
    split_ifs
    · exact ⟨rfl, rfl⟩
    · exact c1
  · simp only [dispatch_key, h, handle_new_folder_input, if_true]
    split_ifs
    · exact ⟨rfl, rfl⟩
    · exact c2
  · simp only [dispatch_key, h, handle_new_file_input, if_true]
    split_ifs
    · exact ⟨rfl, rfl⟩
    · exact c3

/-- A printable character key in a modal state, below the buffer limit. -/
theorem modal_append_step (hal : Hal σ) (now : Int) (key : Nat) (s : State σ)
    (hmodal : s.current_state = AppState.STATE_RENAME ∨
      s.current_state = AppState.STATE_NEW_FOLDER ∨
      s.current_state = AppState.STATE_NEW_FILE)
    (hwf : ModalWF s) (hk : KEY_CHAR_BASE ≤ key)
    (h1 : 32 ≤ (key - KEY_CHAR_BASE) % 256) (h2 : (key - KEY_CHAR_BASE) % 256 ≤ 126)
    (hl : s.input_len < INPUT_BUFFER_SIZE - 1) :
    dispatch_key hal now key s =
      { s with
        input_len := s.input_len + 1
        input_buffer := (s.input_buffer.set s.input_len ((key - KEY_CHAR_BASE) % 256)).set
          (s.input_len + 1) 0 } ∧
    ModalWF (dispatch_key hal now key s) ∧
    cstr (dispatch_key hal now key s).input_buffer
      = cstr s.input_buffer ++ [(key - KEY_CHAR_BASE) % 256] := by
  have e1 : key ≠ KEY_ENTER := by simp only [KEY_CHAR_BASE, KEY_ENTER] at *; omega
  have e2 : key ≠ KEY_ESCAPE := by simp only [KEY_CHAR_BASE, KEY_ESCAPE] at *; omega
  have hd : dispatch_key hal now key s =
      { s with
        input_len := s.input_len + 1
        input_buffer := (s.input_buffer.set s.input_len ((key - KEY_CHAR_BASE) % 256)).set
          (s.input_len + 1) 0 } := by
    rw [dispatch_key_modal_text hal now key s hmodal e1 e2,
      handle_text_input_charkey key s hk, if_pos ⟨hl, h1, h2⟩]
  obtain ⟨w1, w2, w3, w4⟩ := buffer_append_wf s.input_buffer s.input_len
    ((key - KEY_CHAR_BASE) % 256) hwf.1 hl hwf.2.2.1 (by omega)
  have hwf1 : ModalWF (dispatch_key hal now key s) := by
    rw [hd]
    refine ⟨w1, ?_, w2, w3⟩
    show s.input_len + 1 < INPUT_BUFFER_SIZE
    simp only [INPUT_BUFFER_SIZE] at hl ⊢
    omega
  refine ⟨hd, hwf1, ?_⟩
  rw [cstr_of_modalWF _ hwf1, cstr_of_modalWF s hwf, hd]
  exact w4

/-- Backspace in a modal state with a non-empty buffer. -/
theorem modal_backspace_step (hal : Hal σ) (now : Int) (s : State σ)
    (hmodal : s.current_state = AppState.STATE_RENAME ∨
      s.current_state = AppState.STATE_NEW_FOLDER ∨
      s.current_state = AppState.STATE_NEW_FILE)
    (hwf : ModalWF s) (hpos : 0 < s.input_len) :
    dispatch_key hal now KEY_BACKSPACE s =
      { s with
        input_len := s.input_len - 1
        input_buffer := s.input_buffer.set (s.input_len - 1) 0 } ∧
    ModalWF (dispatch_key hal now KEY_BACKSPACE s) ∧
    cstr (dispatch_key hal now KEY_BACKSPACE s).input_buffer
      = (cstr s.input_buffer).dropLast := by
  have e1 : KEY_BACKSPACE ≠ KEY_ENTER := by decide
  have e2 : KEY_BACKSPACE ≠ KEY_ESCAPE := by decide
  have hd : dispatch_key hal now KEY_BACKSPACE s =
      { s with
        input_len := s.input_len - 1
        input_buffer := s.input_buffer.set (s.input_len - 1) 0 } := by
    rw [dispatch_key_modal_text hal now KEY_BACKSPACE s hmodal e1 e2,
      handle_text_input_backspace, if_pos hpos]
  obtain ⟨w1, w2, w3, w4⟩ := buffer_backspace_wf s.input_buffer s.input_len
    hwf.1 hwf.2.1 hpos hwf.2.2.1
  have hwf1 : ModalWF (dispatch_key hal now KEY_BACKSPACE s) := by
    rw [hd]
    refine ⟨w1, ?_, w2, w3⟩
    show s.input_len - 1 < INPUT_BUFFER_SIZE
    have := hwf.2.1
    omega
  refine ⟨hd, hwf1, ?_⟩
  rw [cstr_of_modalWF _ hwf1, cstr_of_modalWF s hwf, hd]
  show (s.input_buffer.set (s.input_len - 1) 0).take (s.input_len - 1) = _
  rw [w4, List.dropLast_eq_take, List.take_take, List.length_take]
  have h1 := hwf.1
  have h2 := hwf.2.1
  congr 1
  omega

/-- Entering a modal mode leaves a well-formed, empty modal buffer. -/
theorem modalWF_on_entry (u : State σ) (h : u.input_buffer.length = INPUT_BUFFER_SIZE) :
    ModalWF (enter_new_file_mode u) ∧ ModalWF (enter_new_folder_mode u) ∧
    ((u.col u.focused_column).file_count ≠ 0 → ModalWF (enter_rename_mode u)) := by
  have hz : (u.input_buffer.set 0 0).getD 0 0 = 0 := by
    rw [List.getD_eq_getElem?_getD, List.getElem?_set, if_pos rfl]
    split_ifs <;> rfl
  have hw : ∀ v : State σ, v.input_len = 0 → v.input_buffer = u.input_buffer.set 0 0 →
      ModalWF v := by
    intro v h0 hv
    unfold ModalWF
    rw [h0, hv, List.length_set]
    exact ⟨h, by decide, fun k hk => absurd hk (Nat.not_lt_zero k), hz⟩
  refine ⟨hw _ rfl rfl, hw _ rfl rfl, fun hne => ?_⟩
  simp only [enter_rename_mode, hne, if_false]
  exact hw _ rfl rfl

theorem stepOK_quiet (key : Nat) (s s' : State σ) (hc : s'.calls = s.calls)
    (hs : s'.storage = s.storage)
    (hst : s'.current_state = AppState.STATE_NEW_FOLDER →
      s.current_state = AppState.STATE_NEW_FOLDER)
    (h1 : s'.column_count = s.column_count) (h2 : s'.focused_column = s.focused_column) :
    StepOK key s s' :=
  ⟨⟨[], by rw [hc, List.append_nil], fun _ h => absurd h (List.not_mem_nil _),
    fun _ h => absurd h (List.not_mem_nil _)⟩, fun _ => hs, hst, Or.inl ⟨h1, h2⟩⟩

theorem stepOK_refl (key : Nat) (s : State σ) : StepOK key s s :=
  stepOK_quiet key s s rfl rfl (fun h => h) rfl rfl

theorem mem_of_all {P : Prop} (f : StorageCall → Bool) (l : List StorageCall)
    (h : l.all (fun c => !f c) = true) : ∀ c ∈ l, f c = true → P := by
  intro c hm hf
  have h' := List.all_eq_true.mp h c hm
  rw [hf] at h'
  cases h'

theorem mutates_of_is_create_directory (c : StorageCall)
    (h : c.is_create_directory = true) : c.mutates = true := by
  cases c <;> first | rfl | cases h

theorem stepOK_reads (key : Nat) (s s' : State σ) (added : List StorageCall)
    (hc : s'.calls = s.calls ++ added)
    (hnm : added.all (fun c => !c.mutates) = true)
    (hs : s'.storage = s.storage)
    (hst : s'.current_state = AppState.STATE_NEW_FOLDER →
      s.current_state = AppState.STATE_NEW_FOLDER)
    (hcnt : CountStep s s') : StepOK key s s' :=
  ⟨⟨added, hc, mem_of_all _ added hnm,
    fun c hm h => mem_of_all _ added hnm c hm (mutates_of_is_create_directory c h)⟩,
    fun _ => hs, hst, hcnt⟩

theorem stepOK_commit (key : Nat) (s s' : State σ) (added : List StorageCall)
    (hca : CommitAction key s) (hc : s'.calls = s.calls ++ added)
    (hmk : ∀ c ∈ added, c.is_create_directory = true →
      s.current_state = AppState.STATE_NEW_FOLDER)
    (hst : s'.current_state = AppState.STATE_NEW_FOLDER →
      s.current_state = AppState.STATE_NEW_FOLDER)
    (h1 : s'.column_count = s.column_count) (h2 : s'.focused_column = s.focused_column) :
    StepOK key s s' :=
  ⟨⟨added, hc, fun _ _ _ => hca, hmk⟩, fun h => absurd hca h, hst, Or.inl ⟨h1, h2⟩⟩

theorem stepOK_commit_no_mkdir (key : Nat) (s s' : State σ) (added : List StorageCall)
    (hca : CommitAction key s) (hc : s'.calls = s.calls ++ added)
    (hmk : added.all (fun c => !c.is_create_directory) = true)
    (hst : s'.current_state = AppState.STATE_NEW_FOLDER →
      s.current_state = AppState.STATE_NEW_FOLDER)
    (h1 : s'.column_count = s.column_count) (h2 : s'.focused_column = s.focused_column) :
    StepOK key s s' :=
  stepOK_commit key s s' added hca hc (mem_of_all _ added hmk) hst h1 h2

theorem stepOK_handle_editor_input (hal : Hal σ) (key : Nat) (s : State σ)
    (hstate : s.current_state = AppState.STATE_EDITING) :
    StepOK key s (handle_editor_input hal key s) := by
  have hne : AppState.STATE_EDITING ≠ AppState.STATE_NEW_FOLDER := by decide
  rcases handle_editor_input_cases hal key s with
    ⟨hk, h⟩ | ⟨_, h⟩ | ⟨_, _, h⟩ | ⟨_, _, h⟩ | ⟨_, _, h⟩ | ⟨_, _, _, _, h⟩ | h
  · rw [h]
    exact stepOK_commit_no_mkdir key s _ [StorageCall.write_file s.edit_filename
      s.edit_buffer s.edit_length] (Or.inl ⟨hstate, hk⟩) rfl rfl (fun h => h) rfl rfl
  · rw [h]
    exact stepOK_quiet key s _ rfl rfl (fun h => by cases h) rfl rfl
  · rw [h]
    exact stepOK_quiet key s _ rfl rfl (fun h => h) rfl rfl
  · rw [h]
    exact stepOK_quiet key s _ rfl rfl (fun h => h) rfl rfl
  · rw [h]
    exact stepOK_quiet key s _ rfl rfl (fun h => h) rfl rfl
  · rw [h]
    exact stepOK_quiet key s _ rfl rfl (fun h => h) rfl rfl
  · rw [h]
    exact stepOK_refl key s

theorem handle_text_input_frame (key : Nat) (s : State σ) :
    (handle_text_input key s).calls = s.calls ∧
    (handle_text_input key s).storage = s.storage ∧
    (handle_text_input key s).current_state = s.current_state ∧
    (handle_text_input key s).column_count = s.column_count ∧
    (handle_text_input key s).focused_column = s.focused_column ∧
    (handle_text_input key s).columns = s.columns := by
  simp only [handle_text_input]
  split_ifs <;> exact ⟨rfl, rfl, rfl, rfl, rfl, rfl⟩

theorem stepOK_handle_text_input (key : Nat) (s : State σ) :
    StepOK key s (handle_text_input key s) := by
  obtain ⟨h1, h2, h3, h4, h5, _⟩ := handle_text_input_frame key s
  exact stepOK_quiet key s _ h1 h2 (fun h => by rw [← h3]; exact h) h4 h5

theorem stepOK_commit_rename (hal : Hal σ) (key : Nat) (s : State σ)
    (hca : CommitAction key s) : StepOK key s (commit_rename hal s) := by
  by_cases h0 : s.column_count = 0
  · simp only [commit_rename, if_pos h0]
    exact stepOK_refl key s
  · simp only [commit_rename, if_neg h0]
    exact stepOK_commit_no_mkdir key s _ _ hca (List.append_assoc _ _ _) rfl
      (fun h => by cases h) rfl rfl

theorem stepOK_commit_new_folder (hal : Hal σ) (key : Nat) (s : State σ)
    (hca : CommitAction key s) (hstate : s.current_state = AppState.STATE_NEW_FOLDER) :
    StepOK key s (commit_new_folder hal s) := by
  by_cases h0 : s.column_count = 0
  · simp only [commit_new_folder, if_pos h0]
    exact stepOK_refl key s
  · simp only [commit_new_folder, if_neg h0]
    exact stepOK_commit key s _ _ hca (List.append_assoc _ _ _) (fun _ _ _ => hstate)
      (fun h => by cases h) rfl rfl

theorem stepOK_commit_new_file (hal : Hal σ) (now : Int) (key : Nat) (s : State σ)
    (hca : CommitAction key s) : StepOK key s (commit_new_file hal now s) := by
  by_cases h0 : s.column_count = 0
  · simp only [commit_new_file, if_pos h0]
    exact stepOK_refl key s
  · simp only [commit_new_file, if_neg h0]
    split_ifs
    · exact stepOK_commit_no_mkdir key s _ _ hca (List.append_assoc _ _ _) rfl
        (fun h => by cases h) rfl rfl
    · refine stepOK_commit_no_mkdir key s _
        [StorageCall.file_exists (new_file_path s), StorageCall.create_file (new_file_path s),
         StorageCall.read_file (new_file_path s) MAX_FILE_CONTENT_SIZE] hca ?_ rfl
        (fun h => by cases h) rfl rfl
      simp only [enter_edit_mode, new_file_path, State.focused, List.append_assoc,
        List.singleton_append, List.cons_append, List.nil_append]
    · refine stepOK_commit_no_mkdir key s _
        [StorageCall.file_exists (new_file_path s), StorageCall.create_file (new_file_path s),
         StorageCall.list_files s.focused.directory MAX_FILES] hca ?_ rfl
        (fun h => by cases h) rfl rfl
      simp only [reload_column, new_file_path, State.focused, State.col, List.append_assoc,
        List.singleton_append, List.cons_append, List.nil_append]

theorem stepOK_handle_rename_input (hal : Hal σ) (key : Nat) (s : State σ)
    (hstate : s.current_state = AppState.STATE_RENAME) :
    StepOK key s (handle_rename_input hal key s) := by
  simp only [handle_rename_input]
  split_ifs with h1 h2 h3
  · exact stepOK_refl key s
  · exact stepOK_commit_rename hal key s (Or.inr ⟨Or.inl hstate, h1, h2⟩)
  · exact stepOK_quiet key s _ rfl rfl (fun h => by cases h) rfl rfl
  · exact stepOK_handle_text_input key s

theorem stepOK_handle_new_folder_input (hal : Hal σ) (key : Nat) (s : State σ)
    (hstate : s.current_state = AppState.STATE_NEW_FOLDER) :
    StepOK key s (handle_new_folder_input hal key s) := by
  simp only [handle_new_folder_input]
  split_ifs with h1 h2 h3
  · exact stepOK_refl key s
  · exact stepOK_commit_new_folder hal key s (Or.inr ⟨Or.inr (Or.inl hstate), h1, h2⟩) hstate
  · exact stepOK_quiet key s _ rfl rfl (fun h => by cases h) rfl rfl
  · exact stepOK_handle_text_input key s

theorem stepOK_handle_new_file_input (hal : Hal σ) (now : Int) (key : Nat) (s : State σ)
    (hstate : s.current_state = AppState.STATE_NEW_FILE) :
    StepOK key s (handle_new_file_input hal now key s) := by
  simp only [handle_new_file_input]
  split_ifs with h1 h2 h3
  · exact stepOK_refl key s
  · exact stepOK_commit_new_file hal now key s (Or.inr ⟨Or.inr (Or.inr hstate), h1, h2⟩)
  · exact stepOK_quiet key s _ rfl rfl (fun h => by cases h) rfl rfl
  · exact stepOK_handle_text_input key s

theorem load_directory_lt (hal : Hal σ) (col : Nat) (dir : List Nat) (s : State σ)
    (h : col < MAX_COLUMNS) :
    load_directory hal col dir s =
      { s with
        columns := s.columns.set col
          { directory := dir.take (MAX_PATH_LEN - 1)
            file_list := store_listing (s.col col).file_list
              (hal.list_files s.storage dir MAX_FILES)
            file_count := (hal.list_files s.storage dir MAX_FILES).length
            selected_index := 0 }
        calls := s.calls ++ [StorageCall.list_files dir MAX_FILES] } := by
  have hcap : ¬ col ≥ MAX_COLUMNS := by omega
  simp only [load_directory, if_neg hcap]

theorem stepOK_handle_normal_navigation (hal : Hal σ) (now : Int) (key : Nat)
    (s : State σ) :
    StepOK key s (handle_normal_navigation hal now key s) := by
  have hn : s.current_state = AppState.STATE_NEW_FOLDER →
      s.current_state = AppState.STATE_NEW_FOLDER := fun h => h
  by_cases h1 : key = KEY_ARROW_UP
  · subst h1
    rw [handle_normal_navigation_up]
    split_ifs
    · exact stepOK_quiet _ s _ rfl rfl hn rfl rfl
    · exact stepOK_refl _ s
  by_cases h2 : key = KEY_ARROW_DOWN
  · subst h2
    rw [handle_normal_navigation_down]
    split_ifs
    · exact stepOK_quiet _ s _ rfl rfl hn rfl rfl
    · exact stepOK_refl _ s
  by_cases h34 : key = KEY_ARROW_RIGHT ∨ key = KEY_ENTER
  · rw [handle_normal_navigation_open hal now key s h34]
    split_ifs with ha hb hc
    · rw [load_directory_lt hal _ _ _ hc]
      exact stepOK_reads key s _
        [StorageCall.is_directory (selected_path s),
         StorageCall.list_files (selected_path s) MAX_FILES] (List.append_assoc _ _ _) rfl rfl
        hn (Or.inr (Or.inl ⟨rfl, rfl⟩))
    · exact stepOK_reads key s _ [StorageCall.is_directory (selected_path s)] rfl rfl rfl hn
        (Or.inl ⟨rfl, rfl⟩)
    · refine stepOK_reads key s _
        [StorageCall.is_directory (selected_path s),
         StorageCall.read_file (selected_path s) MAX_FILE_CONTENT_SIZE] ?_ rfl rfl
        (fun h => by cases h) (Or.inl ⟨rfl, rfl⟩)
      simp only [enter_edit_mode, List.append_assoc, List.singleton_append]
    · exact stepOK_refl _ s
  have h3 : key ≠ KEY_ARROW_RIGHT := fun h => h34 (Or.inl h)
  have h4 : key ≠ KEY_ENTER := fun h => h34 (Or.inr h)
  by_cases h5 : key = KEY_ARROW_LEFT
  · subst h5
    rw [handle_normal_navigation_left]
    split_ifs with hf
    · refine ⟨⟨[], (List.append_nil _).symm, fun _ h => absurd h (List.not_mem_nil _),
        fun _ h => absurd h (List.not_mem_nil _)⟩, fun _ => rfl, hn,
        Or.inr (Or.inr ⟨hf, rfl, ?_⟩)⟩
      show s.focused_column - 1 + 1 = s.focused_column
      omega
    · exact stepOK_refl _ s
  by_cases h6 : key = KEY_CTRL_R
  · subst h6
    rw [handle_normal_navigation_ctrl_r]
    split_ifs with hf
    · have h' : ¬ (s.col s.focused_column).file_count = 0 := Nat.pos_iff_ne_zero.mp hf
      simp only [enter_rename_mode, if_neg h']
      exact stepOK_quiet _ s _ rfl rfl (fun h => by cases h) rfl rfl
    · exact stepOK_refl _ s
  by_cases h7 : key = KEY_CTRL_N
  · subst h7
    rw [handle_normal_navigation_ctrl_n]
    exact stepOK_quiet _ s _ rfl rfl (fun h => by cases h) rfl rfl
  rw [handle_normal_navigation_other hal now key s h1 h2 h3 h4 h5 h6 h7]
  exact stepOK_refl _ s

theorem stepOK_dispatch_key (hal : Hal σ) (now : Int) (key : Nat) (s : State σ) :
    StepOK key s (dispatch_key hal now key s) := by
  cases h : s.current_state
  · simp only [dispatch_key, h]
    exact stepOK_handle_normal_navigation hal now key s
  · simp only [dispatch_key, h]
    exact stepOK_handle_rename_input hal key s h
  · simp only [dispatch_key, h]
    exact stepOK_handle_new_folder_input hal key s h
  · simp only [dispatch_key, h]
    exact stepOK_handle_new_file_input hal now key s h
  · simp only [dispatch_key, h]
    exact stepOK_handle_editor_input hal key s h

/-- The two facts that hold in every state reachable from `cybertyper_init`:
`column_count = focused_column + 1`, and the new-folder prompt has never been entered
nor `create_directory` called. -/
theorem reach_dispatch_key (hal : Hal σ) (now : Int) (key : Nat) (s : State σ)
    (h : s.column_count = s.focused_column + 1 ∧
      s.current_state ≠ AppState.STATE_NEW_FOLDER ∧
      ∀ c ∈ s.calls, c.is_create_directory = false) :
    (dispatch_key hal now key s).column_count = (dispatch_key hal now key s).focused_column + 1 ∧
    (dispatch_key hal now key s).current_state ≠ AppState.STATE_NEW_FOLDER ∧
    ∀ c ∈ (dispatch_key hal now key s).calls, c.is_create_directory = false := by
  obtain ⟨hcnt, hst, hcalls⟩ := h
  obtain ⟨⟨added, ha, _, hmk⟩, _, hback, hstep⟩ := stepOK_dispatch_key hal now key s
  refine ⟨?_, fun h => hst (hback h), ?_⟩
  · rcases hstep with ⟨h1, h2⟩ | ⟨h1, h2⟩ | ⟨h0, h1, h2⟩ <;> omega
  · intro c hm
    rw [ha, List.mem_append] at hm
    rcases hm with hm | hm
    · exact hcalls c hm
    · cases hc : c.is_create_directory
      · rfl
      · exact absurd (hmk c hm hc) hst

theorem reach_cybertyper_run_cycle (hal : Hal σ) (inp : CycleInput) (s : State σ)
    (h : s.column_count = s.focused_column + 1 ∧
      s.current_state ≠ AppState.STATE_NEW_FOLDER ∧
      ∀ c ∈ s.calls, c.is_create_directory = false) :
    (cybertyper_run_cycle hal inp s).column_count
      = (cybertyper_run_cycle hal inp s).focused_column + 1 ∧
    (cybertyper_run_cycle hal inp s).current_state ≠ AppState.STATE_NEW_FOLDER ∧
    ∀ c ∈ (cybertyper_run_cycle hal inp s).calls, c.is_create_directory = false := by
  obtain ⟨v, l, hb⟩ := blink_tick_exists inp.current_time s
  simp only [cybertyper_run_cycle]
  split_ifs
  · exact h
  · rw [hb]
    exact h
  · rw [hb]
    exact reach_dispatch_key hal inp.open_time inp.key _ h

theorem reach_run_cycles (hal : Hal σ) (inputs : List CycleInput) (s : State σ)
    (h : s.column_count = s.focused_column + 1 ∧
      s.current_state ≠ AppState.STATE_NEW_FOLDER ∧
      ∀ c ∈ s.calls, c.is_create_directory = false) :
    (run_cycles hal inputs s).column_count = (run_cycles hal inputs s).focused_column + 1 ∧
    (run_cycles hal inputs s).current_state ≠ AppState.STATE_NEW_FOLDER ∧
    ∀ c ∈ (run_cycles hal inputs s).calls, c.is_create_directory = false := by
  induction inputs generalizing s with
  | nil => exact h
  | cons inp rest ih =>
    exact ih (cybertyper_run_cycle hal inp s) (reach_cybertyper_run_cycle hal inp s h)

theorem reach_cybertyper_init (hal : Hal σ) (now : Int) (st : σ) :
    (cybertyper_init hal now (boot st)).column_count
      = (cybertyper_init hal now (boot st)).focused_column + 1 ∧
    (cybertyper_init hal now (boot st)).current_state ≠ AppState.STATE_NEW_FOLDER ∧
    ∀ c ∈ (cybertyper_init hal now (boot st)).calls, c.is_create_directory = false := by
  have hcap : 0 < MAX_COLUMNS := by decide
  simp only [cybertyper_init, load_directory_lt hal 0 _ _ hcap]
  refine ⟨trivial, ?_, ?_⟩
  · show AppState.STATE_NORMAL ≠ AppState.STATE_NEW_FOLDER
    decide
  intro c hc
  have hc' : c = StorageCall.list_files [SLASH] MAX_FILES := List.mem_singleton.mp hc
  rw [hc']
  rfl

theorem noStale_congr (s s' : State σ) (h1 : s'.columns = s.columns)
    (h2 : s'.column_count = s.column_count) (h3 : s'.focused_column = s.focused_column)
    (h : NoStaleColumns s) : NoStaleColumns s' := by
  unfold NoStaleColumns State.col at *
  rw [h1, h2, h3]
  exact h

theorem noStale_set_focused (s s' : State σ) (c : DirectoryColumn)
    (h1 : s'.columns = s.columns.set s.focused_column c)
    (h2 : s'.column_count = s.column_count) (h3 : s'.focused_column = s.focused_column)
    (h : NoStaleColumns s) : NoStaleColumns s' := by
  unfold NoStaleColumns State.col at *
  rw [h1, h2, h3]
  refine ⟨h.1, fun i hi => ?_⟩
  rw [getD_set_ne _ _ _ _ (by omega)]
  exact h.2 i hi

theorem noStale_commit_rename (hal : Hal σ) (s : State σ) (h : NoStaleColumns s) :
    NoStaleColumns (commit_rename hal s) := by
  simp only [commit_rename]
  split_ifs
  · exact h
  · exact noStale_set_focused s _ _ rfl rfl rfl h

theorem noStale_commit_new_folder (hal : Hal σ) (s : State σ) (h : NoStaleColumns s) :
    NoStaleColumns (commit_new_folder hal s) := by
  simp only [commit_new_folder]
  split_ifs
  · exact h
  · exact noStale_set_focused s _ _ rfl rfl rfl h

theorem noStale_commit_new_file (hal : Hal σ) (now : Int) (s : State σ)
    (h : NoStaleColumns s) : NoStaleColumns (commit_new_file hal now s) := by
  simp only [commit_new_file]
  split_ifs
  · exact h
  · exact noStale_set_focused s _ _ rfl rfl rfl h
  · exact noStale_congr s _ rfl rfl rfl h
  · exact noStale_set_focused s _ _ rfl rfl rfl h

theorem noStale_handle_text_input (key : Nat) (s : State σ) (h : NoStaleColumns s) :
    NoStaleColumns (handle_text_input key s) := by
  obtain ⟨_, _, _, h4, h5, h6⟩ := handle_text_input_frame key s
  exact noStale_congr s _ h6 h4 h5 h

theorem noStale_handle_rename_input (hal : Hal σ) (key : Nat) (s : State σ)
    (h : NoStaleColumns s) : NoStaleColumns (handle_rename_input hal key s) := by
  unfold handle_rename_input
  split_ifs
  · exact h
  · exact noStale_commit_rename hal s h
  · exact noStale_congr s _ rfl rfl rfl h
  · exact noStale_handle_text_input key s h

theorem noStale_handle_new_folder_input (hal : Hal σ) (key : Nat) (s : State σ)
    (h : NoStaleColumns s) : NoStaleColumns (handle_new_folder_input hal key s) := by
  unfold handle_new_folder_input
  split_ifs
  · exact h
  · exact noStale_commit_new_folder hal s h
  · exact noStale_congr s _ rfl rfl rfl h
  · exact noStale_handle_text_input key s h

theorem noStale_handle_new_file_input (hal : Hal σ) (now : Int) (key : Nat) (s : State σ)
    (h : NoStaleColumns s) : NoStaleColumns (handle_new_file_input hal now key s) := by
  unfold handle_new_file_input
  split_ifs
  · exact h
  · exact noStale_commit_new_file hal now s h
  · exact noStale_congr s _ rfl rfl rfl h
  · exact noStale_handle_text_input key s h

theorem noStale_handle_editor_input (hal : Hal σ) (key : Nat) (s : State σ)
    (h : NoStaleColumns s) : NoStaleColumns (handle_editor_input hal key s) := by
  rcases handle_editor_input_cases hal key s with
    ⟨_, e⟩ | ⟨_, e⟩ | ⟨_, _, e⟩ | ⟨_, _, e⟩ | ⟨_, _, e⟩ | ⟨_, _, _, _, e⟩ | e <;>
  rw [e] <;> exact noStale_congr s _ rfl rfl rfl h

theorem noStale_handle_normal_navigation (hal : Hal σ) (now : Int) (key : Nat)
    (s : State σ) (h : NoStaleColumns s) :
    NoStaleColumns (handle_normal_navigation hal now key s) := by
  by_cases h1 : key = KEY_ARROW_UP
  · rw [h1, handle_normal_navigation_up]
    split_ifs
    · exact noStale_set_focused s _ _ rfl rfl rfl h
    · exact h
  by_cases h2 : key = KEY_ARROW_DOWN
  · rw [h2, handle_normal_navigation_down]
    split_ifs
    · exact noStale_set_focused s _ _ rfl rfl rfl h
    · exact h
  by_cases h3 : key = KEY_ARROW_RIGHT ∨ key = KEY_ENTER
  · rw [handle_normal_navigation_open hal now key s h3]
    split_ifs with hc hd hcc
    · rw [load_directory_lt hal _ _ _ hcc]
      refine ⟨?_, fun i hi => ?_⟩
      · show s.column_count + 1 = s.focused_column + 1 + 1
        rw [h.1]
      · have hi' : s.column_count + 1 ≤ i := hi
        show (s.columns.set s.column_count _).getD i zeroColumn = zeroColumn
        rw [getD_set_ne _ _ _ _ (by omega)]
        exact h.2 i (by omega)
    · exact noStale_congr s _ rfl rfl rfl h
    · exact noStale_congr s _ rfl rfl rfl h
    · exact h
  by_cases h4 : key = KEY_ARROW_LEFT
  · rw [h4, handle_normal_navigation_left]
    split_ifs with hc
    · refine ⟨rfl, fun i hi => ?_⟩
      have hi' : s.focused_column - 1 + 1 ≤ i := hi
      show ((List.range s.columns.length).map _).getD i zeroColumn = zeroColumn
      rw [getD_map_range]
      split_ifs with ha hb
      · rfl
      · exact h.2 i (by omega)
      · rfl
    · exact h
  by_cases h5 : key = KEY_CTRL_R
  · rw [h5, handle_normal_navigation_ctrl_r]
    unfold enter_rename_mode
    split_ifs
    · exact h
    · exact noStale_congr s _ rfl rfl rfl h
    · exact h
  by_cases h6 : key = KEY_CTRL_N
  · rw [h6, handle_normal_navigation_ctrl_n]
    exact noStale_congr s _ rfl rfl rfl h
  · rw [handle_normal_navigation_other hal now key s h1 h2 (fun e => h3 (Or.inl e))
      (fun e => h3 (Or.inr e)) h4 h5 h6]
    exact h

theorem noStale_dispatch_key (hal : Hal σ) (now : Int) (key : Nat) (s : State σ)
    (h : NoStaleColumns s) : NoStaleColumns (dispatch_key hal now key s) := by
  unfold dispatch_key
  split
  · exact noStale_handle_editor_input hal key s h
  · exact noStale_handle_rename_input hal key s h
  · exact noStale_handle_new_folder_input hal key s h
  · exact noStale_handle_new_file_input hal now key s h
  · exact noStale_handle_normal_navigation hal now key s h

theorem noStale_cybertyper_run_cycle (hal : Hal σ) (inp : CycleInput) (s : State σ)
    (h : NoStaleColumns s) : NoStaleColumns (cybertyper_run_cycle hal inp s) := by
  obtain ⟨v, l, hb⟩ := blink_tick_exists inp.current_time s
  simp only [cybertyper_run_cycle]
  split_ifs
  · exact h
  · rw [hb]
    exact noStale_congr s _ rfl rfl rfl h
  · rw [hb]
    exact noStale_dispatch_key hal inp.open_time inp.key _ (noStale_congr s _ rfl rfl rfl h)

theorem noStale_run_cycles (hal : Hal σ) (inputs : List CycleInput) (s : State σ)
    (h : NoStaleColumns s) : NoStaleColumns (run_cycles hal inputs s) := by
  induction inputs generalizing s with
  | nil => exact h
  | cons inp rest ih =>
    exact ih (cybertyper_run_cycle hal inp s) (noStale_cybertyper_run_cycle hal inp s h)

theorem noStale_cybertyper_init (hal : Hal σ) (now : Int) (st : σ) :
    NoStaleColumns (cybertyper_init hal now (boot st)) := by
  have hcap : 0 < MAX_COLUMNS := by decide
  simp only [cybertyper_init, load_directory_lt hal 0 _ _ hcap]
  refine ⟨rfl, fun i hi => ?_⟩
  have hi' : 1 ≤ i := hi
  show (((boot st).columns).set 0 _).getD i zeroColumn = zeroColumn
  rw [getD_set_ne _ _ _ _ (by omega)]
  show (List.replicate MAX_COLUMNS zeroColumn).getD i zeroColumn = zeroColumn
  rw [List.getD_eq_getElem?_getD, List.getElem?_replicate]
  split_ifs <;> rfl

theorem map_range_col (s : State σ) :
    (List.range s.columns.length).map (fun i => s.col i) = s.columns := by
  apply List.ext_getElem?
  intro i
  simp only [List.getElem?_map, List.getElem?_range, State.col]
  by_cases hi : i < s.columns.length
  · rw [List.getElem?_range hi, List.getElem?_eq_getElem hi, Option.map_some',
      List.getD_eq_getElem?_getD, List.getElem?_eq_getElem hi]
    rfl
  · rw [List.getElem?_eq_none (by simpa using hi), List.getElem?_eq_none (by omega)]
    rfl

theorem state_ext (a b : State σ) (h1 : a.columns = b.columns)
    (h2 : a.column_count = b.column_count) (h3 : a.focused_column = b.focused_column)
    (h4 : a.edit_filename = b.edit_filename) (h5 : a.edit_buffer = b.edit_buffer)
    (h6 : a.edit_length = b.edit_length) (h7 : a.edit_cursor_pos = b.edit_cursor_pos)
    (h8 : a.initialized = b.initialized) (h9 : a.current_state = b.current_state)
    (h10 : a.input_buffer = b.input_buffer) (h11 : a.input_len = b.input_len)
    (h12 : a.cursor_visible = b.cursor_visible)
    (h13 : a.last_toggle_time = b.last_toggle_time) (h14 : a.storage = b.storage)
    (h15 : a.calls = b.calls) : a = b := by
  cases a
  cases b
  simp only [State.mk.injEq]
  exact ⟨h1, h2, h3, h4, h5, h6, h7, h8, h9, h10, h11, h12, h13, h14, h15⟩

theorem editing_dispatch_key_keeps_filename (hal : Hal σ) (now : Int) (key : Nat)
    (s : State σ) (hstate : s.current_state = AppState.STATE_EDITING)
    (hkey : key ≠ KEY_ESCAPE) :
    (dispatch_key hal now key s).current_state = AppState.STATE_EDITING ∧
    (dispatch_key hal now key s).edit_filename = s.edit_filename ∧
    (dispatch_key hal now key s).initialized = s.initialized := by
  have hd : dispatch_key hal now key s = handle_editor_input hal key s := by
    simp only [dispatch_key, hstate]
  rw [hd]
  rcases handle_editor_input_cases hal key s with
    ⟨_, e⟩ | ⟨hk, _⟩ | ⟨_, _, e⟩ | ⟨_, _, e⟩ | ⟨_, _, e⟩ | ⟨_, _, _, _, e⟩ | e
  · rw [e]; exact ⟨hstate, rfl, rfl⟩
  · exact absurd hk hkey
  · rw [e]; exact ⟨hstate, rfl, rfl⟩
  · rw [e]; exact ⟨hstate, rfl, rfl⟩
  · rw [e]; exact ⟨hstate, rfl, rfl⟩
  · rw [e]; exact ⟨hstate, rfl, rfl⟩
  · rw [e]; exact ⟨hstate, rfl, rfl⟩

theorem editing_cycle_keeps_filename (hal : Hal σ) (inp : CycleInput) (s : State σ)
    (hstate : s.current_state = AppState.STATE_EDITING) (hkey : inp.key ≠ KEY_ESCAPE) :
    (cybertyper_run_cycle hal inp s).current_state = AppState.STATE_EDITING ∧
    (cybertyper_run_cycle hal inp s).edit_filename = s.edit_filename ∧
    (cybertyper_run_cycle hal inp s).initialized = s.initialized := by
  obtain ⟨v, l, hb⟩ := blink_tick_exists inp.current_time s
  simp only [cybertyper_run_cycle]
  split_ifs
  · exact ⟨hstate, rfl, rfl⟩
  · rw [hb]
    exact ⟨hstate, rfl, rfl⟩
  · rw [hb]
    exact editing_dispatch_key_keeps_filename hal inp.open_time inp.key _ hstate hkey

theorem editing_run_cycles_keeps_filename (hal : Hal σ) (inputs : List CycleInput)
    (s : State σ) (hstate : s.current_state = AppState.STATE_EDITING)
    (hkeys : ∀ inp ∈ inputs, inp.key ≠ KEY_ESCAPE) :
    (run_cycles hal inputs s).current_state = AppState.STATE_EDITING ∧
    (run_cycles hal inputs s).edit_filename = s.edit_filename ∧
    (run_cycles hal inputs s).initialized = s.initialized := by
  induction inputs generalizing s with
  | nil => exact ⟨hstate, rfl, rfl⟩
  | cons inp rest ih =>
    obtain ⟨h1, h2, h3⟩ := editing_cycle_keeps_filename hal inp s hstate
      (hkeys inp (List.mem_cons_self _ _))
    obtain ⟨g1, g2, g3⟩ := ih (cybertyper_run_cycle hal inp s) h1
      (fun x hx => hkeys x (List.mem_cons_of_mem _ hx))
    exact ⟨g1, g2.trans h2, g3.trans h3⟩

theorem dispatch_key_normal (hal : Hal σ) (now : Int) (key : Nat) (s : State σ)
    (h : s.current_state = AppState.STATE_NORMAL) :
    dispatch_key hal now key s = handle_normal_navigation hal now key s := by
  simp only [dispatch_key, h]

end Lemmas

/-! ## Theorems -/

section Theorems

variable {σ : Type}

/-- C1, as the code behaves: in a cycle that handles the save-request key (Ctrl+S) while
Editing is active, the Storage Gateway write is issued and the active state at the end of
the cycle is still Editing, not Normal, whatever the write reports. -/
theorem save_request_stays_editing (hal : Hal σ) (inp : CycleInput) (s : State σ)
    (hinit : s.initialized = true) (hstate : s.current_state = AppState.STATE_EDITING)
    (hkey : inp.key = KEY_CTRL_S) :
    (cybertyper_run_cycle hal inp s).current_state = AppState.STATE_EDITING ∧
    (cybertyper_run_cycle hal inp s).current_state ≠ AppState.STATE_NORMAL := by
  have h : (cybertyper_run_cycle hal inp s).current_state = AppState.STATE_EDITING := by
    simp only [cybertyper_run_cycle, hinit, hkey, blink_tick, dispatch_key]
    split_ifs <;> simp [hstate, handle_editor_input, KEY_CTRL_S, KEY_NONE]
  exact ⟨h, by rw [h]; decide⟩

/-- C1 at a concrete input: `a.txt` is open in the editor and Ctrl+S is pressed. -/
theorem save_request_stays_editing_witness :
    demoEditing.initialized = true ∧
    demoEditing.current_state = AppState.STATE_EDITING ∧
    (cybertyper_run_cycle ramHal ⟨1, KEY_CTRL_S, 1⟩ demoEditing).current_state
      = AppState.STATE_EDITING ∧
    (cybertyper_run_cycle ramHal ⟨1, KEY_CTRL_S, 1⟩ demoEditing).current_state
      ≠ AppState.STATE_NORMAL :=
  ⟨by decide, by decide,
    save_request_stays_editing ramHal ⟨1, KEY_CTRL_S, 1⟩ demoEditing (by decide) (by decide) rfl⟩

/-- C2: editor insert/delete round trip.  In Editing state, with the cursor `i` at most
the length `L` and `L < 1023`, handling the key of a printable character `c` (32..126)
and then Backspace restores the content bytes `[0, L)`, the length `L` and the cursor
`i`; the state is still Editing and no Storage Gateway call was made. -/
theorem editor_insert_backspace_roundtrip (hal : Hal σ) (now : Int) (s : State σ) (c : Nat)
    (hstate : s.current_state = AppState.STATE_EDITING)
    (hbuf : s.edit_buffer.length = MAX_FILE_CONTENT_SIZE)
    (hcur : s.edit_cursor_pos ≤ s.edit_length)
    (hlen : s.edit_length < MAX_FILE_CONTENT_SIZE - 1)
    (hc : 32 ≤ c ∧ c ≤ 126) :
    (dispatch_key hal now KEY_BACKSPACE
        (dispatch_key hal now (KEY_CHAR_BASE + c) s)).edit_buffer.take s.edit_length
      = s.edit_buffer.take s.edit_length ∧
    (dispatch_key hal now KEY_BACKSPACE
        (dispatch_key hal now (KEY_CHAR_BASE + c) s)).edit_length = s.edit_length ∧
    (dispatch_key hal now KEY_BACKSPACE
        (dispatch_key hal now (KEY_CHAR_BASE + c) s)).edit_cursor_pos = s.edit_cursor_pos ∧
    (dispatch_key hal now KEY_BACKSPACE
        (dispatch_key hal now (KEY_CHAR_BASE + c) s)).current_state
      = AppState.STATE_EDITING ∧
    (dispatch_key hal now KEY_BACKSPACE
        (dispatch_key hal now (KEY_CHAR_BASE + c) s)).calls = s.calls := by
  simp only [MAX_FILE_CONTENT_SIZE] at hbuf hlen
  have step1 : dispatch_key hal now (KEY_CHAR_BASE + c) s =
      { s with
        edit_buffer := (memmove s.edit_buffer (s.edit_cursor_pos + 1) s.edit_cursor_pos
          (s.edit_length - s.edit_cursor_pos + 1)).set s.edit_cursor_pos c
        edit_length := s.edit_length + 1
        edit_cursor_pos := s.edit_cursor_pos + 1 } := by
    simp only [dispatch_key, hstate, handle_editor_input_char hal s c hc,
      MAX_FILE_CONTENT_SIZE, hlen, if_true]
  rw [step1]
  simp only [dispatch_key, hstate, handle_editor_input_backspace, gt_iff_lt,
    Nat.zero_lt_succ, if_true, Nat.add_sub_cancel]
  refine ⟨?_, trivial, trivial, trivial, trivial⟩
  have hlen1 : (memmove s.edit_buffer (s.edit_cursor_pos + 1) s.edit_cursor_pos
      (s.edit_length - s.edit_cursor_pos + 1)).length = s.edit_buffer.length :=
    memmove_length _ _ _ _ (by omega)
  apply List.ext_getElem?
  intro k
  simp only [List.getElem?_take]
  split_ifs with hk
  · rw [memmove_getElem? _ _ _ _ _ (by rw [List.length_set, hlen1]; omega)
      (by rw [List.length_set, hlen1]; omega)]
    simp only [List.getElem?_set, hlen1]
    rw [memmove_getElem? _ _ _ _ _ (by omega) (by omega),
      memmove_getElem? _ _ _ _ _ (by omega) (by omega)]
    split_ifs <;> first | rfl | omega | (congr 1; omega)
  · rfl

set_option maxRecDepth 100000 in
/-- C2 at a concrete input: the character `'X'` typed at the end of `hi` and deleted. -/
theorem editor_insert_backspace_roundtrip_witness :
    demoEditing.current_state = AppState.STATE_EDITING ∧
    demoEditing.edit_buffer.length = MAX_FILE_CONTENT_SIZE ∧
    demoEditing.edit_cursor_pos ≤ demoEditing.edit_length ∧
    demoEditing.edit_length < MAX_FILE_CONTENT_SIZE - 1 ∧
    (dispatch_key ramHal 0 KEY_BACKSPACE
        (dispatch_key ramHal 0 (KEY_CHAR_BASE + 88) demoEditing)).edit_buffer.take
          demoEditing.edit_length
      = demoEditing.edit_buffer.take demoEditing.edit_length ∧
    (dispatch_key ramHal 0 KEY_BACKSPACE
        (dispatch_key ramHal 0 (KEY_CHAR_BASE + 88) demoEditing)).edit_length
      = demoEditing.edit_length ∧
    (dispatch_key ramHal 0 KEY_BACKSPACE
        (dispatch_key ramHal 0 (KEY_CHAR_BASE + 88) demoEditing)).edit_cursor_pos
      = demoEditing.edit_cursor_pos ∧
    (dispatch_key ramHal 0 KEY_BACKSPACE
        (dispatch_key ramHal 0 (KEY_CHAR_BASE + 88) demoEditing)).current_state
      = AppState.STATE_EDITING ∧
    (dispatch_key ramHal 0 KEY_BACKSPACE
        (dispatch_key ramHal 0 (KEY_CHAR_BASE + 88) demoEditing)).calls
      = demoEditing.calls :=
  ⟨by decide, by decide, by decide, by decide,
    editor_insert_backspace_roundtrip ramHal 0 demoEditing 88 (by decide) (by decide)
      (by decide) (by decide) (by decide)⟩

/-- C3: the Editor Model invariant `cursor ≤ length ≤ capacity` (capacity 1024).
It holds right after `enter_edit_mode` opens a file, provided the Storage Gateway read
returns at most capacity-1 bytes or fails, and every key handled in Editing state
(Left, Right, Backspace, a character, save-request, Escape or any other key code)
preserves it. -/
theorem editor_invariant (hal : Hal σ) (now : Int) :
    (∀ (s : State σ) (filename : List Nat),
      (∀ bytes, hal.read_file s.storage filename MAX_FILE_CONTENT_SIZE = some bytes →
        bytes.length ≤ MAX_FILE_CONTENT_SIZE - 1) →
      EditorInv (enter_edit_mode hal now filename s)) ∧
    (∀ (s : State σ) (key : Nat), s.current_state = AppState.STATE_EDITING →
      EditorInv s → EditorInv (dispatch_key hal now key s)) := by
  constructor
  · intro s filename hread
    cases hr : hal.read_file s.storage filename MAX_FILE_CONTENT_SIZE with
    | none =>
      simp only [EditorInv, enter_edit_mode, hr]
      exact ⟨Nat.le_refl _, Nat.zero_le _⟩
    | some bytes =>
      have hb := hread bytes hr
      simp only [EditorInv, enter_edit_mode, hr]
      exact ⟨Nat.le_refl _, Nat.le_trans hb (Nat.sub_le _ _)⟩
  · intro s key hstate hinv
    obtain ⟨h1, h2⟩ := hinv
    simp only [MAX_FILE_CONTENT_SIZE] at h2
    simp only [dispatch_key, hstate, EditorInv, MAX_FILE_CONTENT_SIZE]
    rcases handle_editor_input_cases hal key s with
      ⟨_, h⟩ | ⟨_, h⟩ | ⟨_, _, h⟩ | ⟨_, _, h⟩ | ⟨_, _, h⟩ | ⟨_, hl, _, _, h⟩ | h <;>
    rw [h] <;> (try simp only [MAX_FILE_CONTENT_SIZE] at hl) <;> (try dsimp only) <;> omega

set_option maxRecDepth 100000 in
/-- C3 at a concrete input: opening `a.txt` on the demo card, then typing `'X'`. -/
theorem editor_invariant_witness :
    (∀ bytes, ramHal.read_file demoNormal.storage [47, 97, 46, 116, 120, 116]
        MAX_FILE_CONTENT_SIZE = some bytes → bytes.length ≤ MAX_FILE_CONTENT_SIZE - 1) ∧
    EditorInv (enter_edit_mode ramHal 0 [47, 97, 46, 116, 120, 116] demoNormal) ∧
    EditorInv (dispatch_key ramHal 0 (KEY_CHAR_BASE + 88)
      (enter_edit_mode ramHal 0 [47, 97, 46, 116, 120, 116] demoNormal)) :=
  have hread : ∀ bytes, ramHal.read_file demoNormal.storage [47, 97, 46, 116, 120, 116]
      MAX_FILE_CONTENT_SIZE = some bytes → bytes.length ≤ MAX_FILE_CONTENT_SIZE - 1 := by
    intro bytes h
    have hb : bytes = [104, 105] := by
      have h2 : ramHal.read_file demoNormal.storage [47, 97, 46, 116, 120, 116]
          MAX_FILE_CONTENT_SIZE = some [104, 105] := by decide
      rw [h2] at h
      exact (Option.some.inj h).symm
    rw [hb]
    decide
  ⟨hread, (editor_invariant ramHal 0).1 demoNormal _ hread,
    (editor_invariant ramHal 0).2 _ _ rfl
      ((editor_invariant ramHal 0).1 demoNormal _ hread)⟩

/-- C4: Up/Down keep the selection in range.  Starting in Normal state with the selection
of the focused column in range, let `N` be the number of entries of the focused column.
A single Up sets the selection to `selected_index - 1` unless it is already 0 and a
single Down to `selected_index + 1` unless it is already `N - 1`; and after every finite
sequence of cycles whose keys are Up or Down the focused column is the same column with
the same `N`, its selection is below `N` when `N > 0` and unchanged when `N = 0`, and the
state is still Normal. -/
theorem selection_stays_in_range (hal : Hal σ) (s : State σ)
    (hinit : s.initialized = true) (hstate : s.current_state = AppState.STATE_NORMAL)
    (hsel : 0 < s.focused.file_count → s.focused.selected_index < s.focused.file_count) :
    (∀ now : Int, 0 < s.focused.file_count →
      (dispatch_key hal now KEY_ARROW_UP s).focused.selected_index =
        (if s.focused.selected_index = 0 then 0 else s.focused.selected_index - 1) ∧
      (dispatch_key hal now KEY_ARROW_DOWN s).focused.selected_index =
        (if s.focused.selected_index = s.focused.file_count - 1 then s.focused.selected_index
         else s.focused.selected_index + 1)) ∧
    (∀ inputs : List CycleInput,
      (∀ inp ∈ inputs, inp.key = KEY_ARROW_UP ∨ inp.key = KEY_ARROW_DOWN) →
      (run_cycles hal inputs s).current_state = AppState.STATE_NORMAL ∧
      (run_cycles hal inputs s).focused_column = s.focused_column ∧
      (run_cycles hal inputs s).focused.file_count = s.focused.file_count ∧
      (0 < s.focused.file_count →
        (run_cycles hal inputs s).focused.selected_index < s.focused.file_count) ∧
      (s.focused.file_count = 0 →
        (run_cycles hal inputs s).focused.selected_index = s.focused.selected_index)) := by
  constructor
  · intro now hpos
    have hd : ∀ key, dispatch_key hal now key s = handle_normal_navigation hal now key s := by
      intro key; simp only [dispatch_key, hstate]
    have hlt := lt_length_of_file_count_pos s _ hpos
    have hin := hsel hpos
    rw [hd, hd, handle_normal_navigation_up, handle_normal_navigation_down]
    constructor
    · by_cases hc : s.focused.file_count > 0 ∧ s.focused.selected_index > 0
      · rw [if_pos hc]
        simp only [State.focused, State.col, getD_set_self _ _ _ hlt]
        have h0 : ¬ (s.columns.getD s.focused_column zeroColumn).selected_index = 0 := by
          have := hc.2
          simp only [State.focused, State.col] at this
          omega
        rw [if_neg h0]
      · rw [if_neg hc]
        split_ifs <;> omega
    · by_cases hc : s.focused.file_count > 0 ∧
          s.focused.selected_index < s.focused.file_count - 1
      · rw [if_pos hc]
        simp only [State.focused, State.col, getD_set_self _ _ _ hlt]
        simp only [State.focused, State.col] at hc
        rw [if_neg (by omega)]
      · rw [if_neg hc]
        split_ifs <;> omega
  · intro inputs
    induction inputs generalizing s with
    | nil => intro _; exact ⟨hstate, rfl, rfl, hsel, fun _ => rfl⟩
    | cons inp rest ih =>
      intro hkeys
      obtain ⟨a1, a2, a3, a4, a5⟩ :=
        updown_cycle hal inp s hinit hstate (hkeys inp (List.mem_cons_self _ _))
      have hsel1 : 0 < (cybertyper_run_cycle hal inp s).focused.file_count →
          (cybertyper_run_cycle hal inp s).focused.selected_index <
            (cybertyper_run_cycle hal inp s).focused.file_count := by
        rw [a4, a5]
        intro hpos
        have := hsel hpos
        split_ifs <;> omega
      obtain ⟨r1, r2, r3, r4, r5⟩ := ih (cybertyper_run_cycle hal inp s) a1 a2 hsel1
        (fun i hi => hkeys i (List.mem_cons_of_mem _ hi))
      simp only [run_cycles, List.foldl_cons] at r1 r2 r3 r4 r5 ⊢
      refine ⟨r1, r2.trans a3, r3.trans a4, ?_, ?_⟩
      · intro hpos
        have := r4 (by rw [a4]; exact hpos)
        rw [a4] at this
        exact this
      · intro hz
        rw [r5 (by rw [a4]; exact hz), a5]
        split_ifs <;> omega

/-- C4 at a concrete input: Down, Down, Up on the two-entry root of the demo card. -/
theorem selection_stays_in_range_witness :
    demoNormal.initialized = true ∧
    demoNormal.current_state = AppState.STATE_NORMAL ∧
    (0 < demoNormal.focused.file_count →
      demoNormal.focused.selected_index < demoNormal.focused.file_count) ∧
    (0 < demoNormal.focused.file_count →
      (run_cycles ramHal [⟨1, KEY_ARROW_DOWN, 1⟩, ⟨2, KEY_ARROW_DOWN, 2⟩, ⟨3, KEY_ARROW_UP, 3⟩]
        demoNormal).focused.selected_index < demoNormal.focused.file_count) :=
  ⟨by decide, by decide, by decide,
    ((selection_stays_in_range ramHal demoNormal (by decide) (by decide) (by decide)).2
      [⟨1, KEY_ARROW_DOWN, 1⟩, ⟨2, KEY_ARROW_DOWN, 2⟩, ⟨3, KEY_ARROW_UP, 3⟩]
      (by decide)).2.2.2.1⟩

/-- C5: the navigation invariant over reachable states.  If the Storage Gateway never
lists more than the 50 entries it is asked for, then after `cybertyper_init` and after
any finite sequence of cycles (any key codes, in whatever application state they
arrive), `focused_column < column_count ≤ 10`, and every column of the array has
`selected_index < file_count` when `file_count > 0`, `selected_index = 0` when
`file_count = 0`, and at most 50 entries. -/
theorem navigation_invariant_reachable (hal : Hal σ) (hb : ListingBounded hal) (st : σ)
    (now : Int) (inputs : List CycleInput) :
    (run_cycles hal inputs (cybertyper_init hal now (boot st))).focused_column <
      (run_cycles hal inputs (cybertyper_init hal now (boot st))).column_count ∧
    (run_cycles hal inputs (cybertyper_init hal now (boot st))).column_count ≤ 10 ∧
    (run_cycles hal inputs (cybertyper_init hal now (boot st))).columns.length = 10 ∧
    ∀ i : Nat,
      (0 < ((run_cycles hal inputs (cybertyper_init hal now (boot st))).col i).file_count →
        ((run_cycles hal inputs (cybertyper_init hal now (boot st))).col i).selected_index <
        ((run_cycles hal inputs (cybertyper_init hal now (boot st))).col i).file_count) ∧
      (((run_cycles hal inputs (cybertyper_init hal now (boot st))).col i).file_count = 0 →
        ((run_cycles hal inputs (cybertyper_init hal now (boot st))).col i).selected_index
          = 0) ∧
      ((run_cycles hal inputs (cybertyper_init hal now (boot st))).col i).file_count ≤ 50 := by
  have h := navInv_run_cycles hal hb inputs _ (navInv_cybertyper_init hal hb now st)
  exact ⟨h.2.1, h.2.2.1, h.1, fun i => colOK_col _ i h.2.2.2⟩

/-- C5 at a concrete input: the demo card, with Down, Right (opens `docs`), Left. -/
theorem navigation_invariant_reachable_witness :
    ListingBounded ramHal ∧
    (run_cycles ramHal [⟨1, KEY_ARROW_DOWN, 1⟩, ⟨2, KEY_ARROW_RIGHT, 2⟩, ⟨3, KEY_ARROW_LEFT, 3⟩]
        (cybertyper_init ramHal 0 (boot demoDisk))).focused_column <
      (run_cycles ramHal [⟨1, KEY_ARROW_DOWN, 1⟩, ⟨2, KEY_ARROW_RIGHT, 2⟩, ⟨3, KEY_ARROW_LEFT, 3⟩]
        (cybertyper_init ramHal 0 (boot demoDisk))).column_count :=
  ⟨listingBounded_ramHal,
    (navigation_invariant_reachable ramHal listingBounded_ramHal demoDisk 0
      [⟨1, KEY_ARROW_DOWN, 1⟩, ⟨2, KEY_ARROW_RIGHT, 2⟩, ⟨3, KEY_ARROW_LEFT, 3⟩]).1⟩

/-- C6: commit with an empty buffer is rejected.  In Rename, NewFolder or NewFile, with
`input_len = 0`, handling Enter returns the state it was given: the same modal state,
buffer, navigation model and gateway-call log (so no Storage Gateway call is made), and
in a full cycle only the blink step has run. -/
theorem empty_commit_rejected (hal : Hal σ) (now : Int) (s : State σ)
    (hlen : s.input_len = 0)
    (hmodal : s.current_state = AppState.STATE_RENAME ∨
      s.current_state = AppState.STATE_NEW_FOLDER ∨
      s.current_state = AppState.STATE_NEW_FILE) :
    dispatch_key hal now KEY_ENTER s = s ∧
    (dispatch_key hal now KEY_ENTER s).calls = s.calls ∧
    (dispatch_key hal now KEY_ENTER s).current_state = s.current_state ∧
    (∀ inp : CycleInput, inp.key = KEY_ENTER →
      (cybertyper_run_cycle hal inp s).calls = s.calls ∧
      (cybertyper_run_cycle hal inp s).current_state = s.current_state ∧
      (cybertyper_run_cycle hal inp s).input_buffer = s.input_buffer ∧
      (cybertyper_run_cycle hal inp s).input_len = s.input_len ∧
      (cybertyper_run_cycle hal inp s).columns = s.columns ∧
      (cybertyper_run_cycle hal inp s).column_count = s.column_count ∧
      (cybertyper_run_cycle hal inp s).focused_column = s.focused_column ∧
      (cybertyper_run_cycle hal inp s).storage = s.storage) := by
  have key : ∀ (t : Int) (u : State σ), u.input_len = 0 →
      (u.current_state = AppState.STATE_RENAME ∨
        u.current_state = AppState.STATE_NEW_FOLDER ∨
        u.current_state = AppState.STATE_NEW_FILE) →
      dispatch_key hal t KEY_ENTER u = u := by
    intro t u hl hm
    rcases hm with h | h | h <;>
    simp only [dispatch_key, h, handle_rename_input, handle_new_folder_input,
      handle_new_file_input, hl, if_true]
  have h0 := key now s hlen hmodal
  refine ⟨h0, by rw [h0], by rw [h0], ?_⟩
  intro inp hk
  have hne : inp.key ≠ KEY_NONE := by rw [hk]; decide
  unfold cybertyper_run_cycle
  split_ifs with hi
  · exact ⟨rfl, rfl, rfl, rfl, rfl, rfl, rfl, rfl⟩
  · have hb : blink_tick inp.current_time s =
        { s with
          cursor_visible := (blink_tick inp.current_time s).cursor_visible
          last_toggle_time := (blink_tick inp.current_time s).last_toggle_time } :=
      blink_tick_eq _ s
    rw [hk, key inp.open_time (blink_tick inp.current_time s)
      (by rw [hb]; exact hlen) (by rw [hb]; exact hmodal), hb]
    exact ⟨rfl, rfl, rfl, rfl, rfl, rfl, rfl, rfl⟩

/-- C6 at a concrete input: Enter right after the rename-request key on `a.txt`. -/
theorem empty_commit_rejected_witness :
    demoRename.input_len = 0 ∧
    demoRename.current_state = AppState.STATE_RENAME ∧
    dispatch_key ramHal 0 KEY_ENTER demoRename = demoRename ∧
    (dispatch_key ramHal 0 KEY_ENTER demoRename).calls = demoRename.calls :=
  have h := empty_commit_rejected ramHal 0 demoRename (by decide) (Or.inl (by decide))
  ⟨by decide, by decide, h.1, h.2.1⟩

/-- C7: save is one write and leaves the Editor Model alone.  In Editing state, handling
the save-request key appends exactly one call to the gateway log, the call
`write_file edit_filename edit_buffer edit_length`, hands the storage to that write, and
leaves filename, content, length and cursor unchanged. -/
theorem save_request_writes_once (hal : Hal σ) (now : Int) (s : State σ)
    (hstate : s.current_state = AppState.STATE_EDITING) :
    (dispatch_key hal now KEY_CTRL_S s).calls =
      s.calls ++ [StorageCall.write_file s.edit_filename s.edit_buffer s.edit_length] ∧
    (dispatch_key hal now KEY_CTRL_S s).storage =
      (hal.write_file s.storage s.edit_filename s.edit_buffer s.edit_length).2 ∧
    (dispatch_key hal now KEY_CTRL_S s).edit_filename = s.edit_filename ∧
    (dispatch_key hal now KEY_CTRL_S s).edit_buffer = s.edit_buffer ∧
    (dispatch_key hal now KEY_CTRL_S s).edit_length = s.edit_length ∧
    (dispatch_key hal now KEY_CTRL_S s).edit_cursor_pos = s.edit_cursor_pos := by
  have h : dispatch_key hal now KEY_CTRL_S s = handle_editor_input hal KEY_CTRL_S s := by
    simp only [dispatch_key, hstate]
  rw [h, handle_editor_input_save]
  exact ⟨rfl, rfl, rfl, rfl, rfl, rfl⟩

/-- C7 at a concrete input: Ctrl+S with `a.txt` open. -/
theorem save_request_writes_once_witness :
    demoEditing.current_state = AppState.STATE_EDITING ∧
    (dispatch_key ramHal 0 KEY_CTRL_S demoEditing).calls =
      demoEditing.calls ++ [StorageCall.write_file demoEditing.edit_filename
        demoEditing.edit_buffer demoEditing.edit_length] ∧
    (dispatch_key ramHal 0 KEY_CTRL_S demoEditing).edit_buffer = demoEditing.edit_buffer :=
  have h := save_request_writes_once ramHal 0 demoEditing (by decide)
  ⟨by decide, h.1, h.2.2.2.1⟩

set_option maxRecDepth 1000000 in
/-- C8 at the failing input: the root holds one file whose name has 63 characters, so
its path has 64.  After Right (open), `X`, save-request the log holds one read, of the
64-character path, and one write, of content `hiX` with length 3, whose target is the
first 63 characters of that path: a different path, and the opened file still holds
`hi`. -/
theorem open_type_save_long_path :
    read_calls (run_cycles ramHal openTypeSave
        (cybertyper_init ramHal 0 (boot longDisk))).calls
      = [StorageCall.read_file longPath MAX_FILE_CONTENT_SIZE] ∧
    write_calls (run_cycles ramHal openTypeSave
        (cybertyper_init ramHal 0 (boot longDisk))).calls
      = [StorageCall.write_file (longPath.take 63)
          (run_cycles ramHal openTypeSave
            (cybertyper_init ramHal 0 (boot longDisk))).edit_buffer 3] ∧
    (run_cycles ramHal openTypeSave
        (cybertyper_init ramHal 0 (boot longDisk))).edit_buffer.take 3 = [104, 105, 88] ∧
    longPath.take 63 ≠ longPath ∧
    ramHal.read_file (run_cycles ramHal openTypeSave
        (cybertyper_init ramHal 0 (boot longDisk))).storage longPath MAX_FILE_CONTENT_SIZE
      = some [104, 105] := by
  refine ⟨by decide, by decide, by decide, by decide, by decide⟩

/-- What the code does on the edit scenario of C8.  Starting in Normal state with a
selected entry that is not a directory and whose read returns `B` (fewer than 1023
bytes), the cycles Right, `c` (printable), save-request make exactly three gateway calls:
the directory test and the read of the opened path, and one write of length `|B| + 1`
whose content is `B` followed by `c`, addressed to the first 63 characters of the opened
path (the opened path itself when it has at most 63 characters). -/
theorem open_type_save_writes_once (hal : Hal σ) (s : State σ) (B : List Nat) (c : Nat)
    (i1 i2 i3 : CycleInput)
    (hinit : s.initialized = true) (hstate : s.current_state = AppState.STATE_NORMAL)
    (hentries : 0 < s.focused.file_count)
    (hfile : hal.is_directory s.storage (selected_path s) = false)
    (hread : hal.read_file s.storage (selected_path s) MAX_FILE_CONTENT_SIZE = some B)
    (hB : B.length < MAX_FILE_CONTENT_SIZE - 1)
    (hbuf : s.edit_buffer.length = MAX_FILE_CONTENT_SIZE)
    (hc : 32 ≤ c ∧ c ≤ 126)
    (hk1 : i1.key = KEY_ARROW_RIGHT) (hk2 : i2.key = KEY_CHAR_BASE + c)
    (hk3 : i3.key = KEY_CTRL_S) :
    (run_cycles hal [i1, i2, i3] s).calls =
      s.calls ++ [StorageCall.is_directory (selected_path s),
        StorageCall.read_file (selected_path s) MAX_FILE_CONTENT_SIZE,
        StorageCall.write_file ((selected_path s).take (MAX_FILENAME_LEN - 1))
          (run_cycles hal [i1, i2, i3] s).edit_buffer (B.length + 1)] ∧
    (run_cycles hal [i1, i2, i3] s).edit_buffer.take (B.length + 1) = B ++ [c] ∧
    ((selected_path s).length ≤ MAX_FILENAME_LEN - 1 →
      (selected_path s).take (MAX_FILENAME_LEN - 1) = selected_path s) := by
  have e1 := cycle_open_file hal i1 s hinit hstate (Or.inl hk1) hentries hfile
  have hlen1 : (enter_edit_mode hal i1.open_time (selected_path s)
      { s with calls := s.calls ++ [StorageCall.is_directory (selected_path s)] }).edit_length
      < MAX_FILE_CONTENT_SIZE - 1 := by
    simp only [enter_edit_mode, hread]; exact hB
  obtain ⟨v2, l2, e2⟩ := cycle_editor_char hal i2
    (enter_edit_mode hal i1.open_time (selected_path s)
      { s with calls := s.calls ++ [StorageCall.is_directory (selected_path s)] })
    c hinit rfl hk2 hc hlen1
  obtain ⟨v3, l3, e3⟩ := cycle_editor_save hal i3 _
    (show ({ (enter_edit_mode hal i1.open_time (selected_path s)
      { s with calls := s.calls ++ [StorageCall.is_directory (selected_path s)] }) with
        edit_buffer := _, edit_length := _, edit_cursor_pos := _, cursor_visible := v2,
        last_toggle_time := l2 } : State σ).initialized = true from hinit) rfl hk3
  have hrun : run_cycles hal [i1, i2, i3] s =
      cybertyper_run_cycle hal i3 (cybertyper_run_cycle hal i2
        (cybertyper_run_cycle hal i1 s)) := rfl
  rw [hrun, e1, e2, e3]
  refine ⟨?_, ?_, fun h => List.take_of_length_le h⟩
  · simp only [enter_edit_mode, hread, List.append_assoc, List.singleton_append,
      List.cons_append, List.nil_append]
  simp only [enter_edit_mode, hread, Nat.sub_self, Nat.zero_add]
  simp only [MAX_FILE_CONTENT_SIZE] at hB hbuf
  have hl0 : (B ++ List.drop B.length s.edit_buffer).length = s.edit_buffer.length := by
    rw [List.length_append, List.length_drop]; omega
  apply List.ext_getElem?
  intro k
  rw [List.getElem?_take, List.getElem?_set, memmove_length _ _ _ _
    (by rw [List.length_set, hl0]; omega), List.length_set, hl0,
    memmove_getElem? _ _ _ _ _ (by rw [List.length_set, hl0]; omega)
      (by rw [List.length_set, hl0]; omega),
    List.getElem?_set, hl0, List.getElem?_append, List.getElem?_append]
  split_ifs <;> first | rfl | omega | (simp_all <;> omega)

set_option maxRecDepth 1000000 in
/-- The edit scenario at a concrete input: the long-named file of `longDisk`. -/
theorem open_type_save_writes_once_witness :
    (cybertyper_init ramHal 0 (boot longDisk)).initialized = true ∧
    (cybertyper_init ramHal 0 (boot longDisk)).current_state = AppState.STATE_NORMAL ∧
    0 < (cybertyper_init ramHal 0 (boot longDisk)).focused.file_count ∧
    ramHal.is_directory (cybertyper_init ramHal 0 (boot longDisk)).storage
      (selected_path (cybertyper_init ramHal 0 (boot longDisk))) = false ∧
    ramHal.read_file (cybertyper_init ramHal 0 (boot longDisk)).storage
      (selected_path (cybertyper_init ramHal 0 (boot longDisk))) MAX_FILE_CONTENT_SIZE
      = some [104, 105] ∧
    (run_cycles ramHal openTypeSave
        (cybertyper_init ramHal 0 (boot longDisk))).edit_buffer.take 3 = [104, 105, 88] :=
  ⟨by decide, by decide, by decide, by decide, by decide,
    (open_type_save_writes_once ramHal (cybertyper_init ramHal 0 (boot longDisk))
      [104, 105] 88 ⟨1, KEY_ARROW_RIGHT, 1⟩ ⟨2, KEY_CHAR_BASE + 88, 2⟩ ⟨3, KEY_CTRL_S, 3⟩
      (by decide) (by decide) (by decide) (by decide) (by decide) (by decide) (by decide)
      (by decide) rfl rfl rfl).2.1⟩

/-- What the code does on save-then-reopen (C9) when the path fits the filename buffer.
Over a storage model in which a read returns the bytes last written to the path, for an
Editing state opened from a path `F` of at most 63 characters with content `B` (the first
`edit_length ≤ 1023` bytes of the buffer), handling save-request and then opening `F`
again yields the content `B`, the length `|B|` and the cursor at the end. -/
theorem save_then_reopen_short_path (hal : Hal σ) (hlaw : ReadAfterWrite hal)
    (now now2 : Int) (s : State σ) (F : List Nat)
    (hstate : s.current_state = AppState.STATE_EDITING)
    (hname : s.edit_filename = F.take (MAX_FILENAME_LEN - 1))
    (hF : F.length ≤ MAX_FILENAME_LEN - 1)
    (hlen : s.edit_length ≤ MAX_FILE_CONTENT_SIZE - 1)
    (hbuf : s.edit_buffer.length = MAX_FILE_CONTENT_SIZE) :
    (enter_edit_mode hal now2 F (dispatch_key hal now KEY_CTRL_S s)).edit_buffer.take
        (enter_edit_mode hal now2 F (dispatch_key hal now KEY_CTRL_S s)).edit_length
      = s.edit_buffer.take s.edit_length ∧
    (enter_edit_mode hal now2 F (dispatch_key hal now KEY_CTRL_S s)).edit_length
      = s.edit_length ∧
    (enter_edit_mode hal now2 F (dispatch_key hal now KEY_CTRL_S s)).edit_cursor_pos
      = s.edit_length ∧
    (enter_edit_mode hal now2 F (dispatch_key hal now KEY_CTRL_S s)).current_state
      = AppState.STATE_EDITING := by
  have hd : dispatch_key hal now KEY_CTRL_S s = handle_editor_input hal KEY_CTRL_S s := by
    simp only [dispatch_key, hstate]
  have hFF : s.edit_filename = F := by rw [hname, List.take_of_length_le hF]
  simp only [MAX_FILE_CONTENT_SIZE] at hlen hbuf
  have hr : hal.read_file
      (hal.write_file s.storage s.edit_filename s.edit_buffer s.edit_length).2 F
      MAX_FILE_CONTENT_SIZE = some (s.edit_buffer.take s.edit_length) := by
    have h := hlaw s.storage F s.edit_buffer s.edit_length MAX_FILE_CONTENT_SIZE
    rw [hFF, h, List.take_take]
    simp only [MAX_FILE_CONTENT_SIZE]
    rw [Nat.min_eq_right (by omega)]
  have hl : (s.edit_buffer.take s.edit_length).length = s.edit_length := by
    rw [List.length_take]; omega
  rw [hd, handle_editor_input_save]
  simp only [enter_edit_mode, hr, hl]
  refine ⟨?_, trivial, trivial, trivial⟩
  apply List.ext_getElem?
  intro k
  simp only [List.getElem?_take, List.getElem?_set, List.getElem?_append, hl]
  split_ifs <;> first | rfl | omega

set_option maxRecDepth 1000000 in
/-- The short-path case at a concrete input: `a.txt` of the demo card, saved and reopened. -/
theorem save_then_reopen_short_path_witness :
    ReadAfterWrite ramHal ∧
    demoEditing.current_state = AppState.STATE_EDITING ∧
    demoEditing.edit_filename = List.take (MAX_FILENAME_LEN - 1) [47, 97, 46, 116, 120, 116] ∧
    (enter_edit_mode ramHal 2 [47, 97, 46, 116, 120, 116]
        (dispatch_key ramHal 1 KEY_CTRL_S demoEditing)).edit_length
      = demoEditing.edit_length :=
  ⟨readAfterWrite_ramHal, by decide, by decide,
    (save_then_reopen_short_path ramHal readAfterWrite_ramHal 1 2 demoEditing
      [47, 97, 46, 116, 120, 116] (by decide) (by decide) (by decide) (by decide)
      (by decide)).2.1⟩

set_option maxRecDepth 1000000 in
/-- C9 at the failing input: the 64-character path of `longDisk`, over the in-memory
gateway (which returns on a read the bytes last written to the path).  The editor holds
`hiX` when save-request is handled; after Escape and Right the same entry is opened again
from the same path, and the Editor Model holds `hi` with length 2, not `hiX`. -/
theorem save_then_reopen_long_path :
    ReadAfterWrite ramHal ∧
    (run_cycles ramHal openTypeSave
        (cybertyper_init ramHal 0 (boot longDisk))).edit_buffer.take
      (run_cycles ramHal openTypeSave
        (cybertyper_init ramHal 0 (boot longDisk))).edit_length = [104, 105, 88] ∧
    read_calls (run_cycles ramHal openTypeSaveReopen
        (cybertyper_init ramHal 0 (boot longDisk))).calls
      = [StorageCall.read_file longPath MAX_FILE_CONTENT_SIZE,
         StorageCall.read_file longPath MAX_FILE_CONTENT_SIZE] ∧
    (run_cycles ramHal openTypeSaveReopen
        (cybertyper_init ramHal 0 (boot longDisk))).current_state
      = AppState.STATE_EDITING ∧
    (run_cycles ramHal openTypeSaveReopen
        (cybertyper_init ramHal 0 (boot longDisk))).edit_length = 2 ∧
    (run_cycles ramHal openTypeSaveReopen
        (cybertyper_init ramHal 0 (boot longDisk))).edit_buffer.take 2 = [104, 105] := by
  refine ⟨readAfterWrite_ramHal, by decide, by decide, by decide, by decide, by decide⟩

/-- C17: Escape cancels without persisting.  In Rename, NewFolder, NewFile and Editing,
handling Escape changes `current_state` to Normal and nothing else: the gateway-call log
and the storage are untouched (no write, rename, create or listing) and the navigation
model (columns, column_count, focused_column, selections) is unchanged. -/
theorem escape_cancels (hal : Hal σ) (now : Int) (s : State σ)
    (hstate : s.current_state = AppState.STATE_RENAME ∨
      s.current_state = AppState.STATE_NEW_FOLDER ∨
      s.current_state = AppState.STATE_NEW_FILE ∨
      s.current_state = AppState.STATE_EDITING) :
    dispatch_key hal now KEY_ESCAPE s = { s with current_state := AppState.STATE_NORMAL } ∧
    (dispatch_key hal now KEY_ESCAPE s).current_state = AppState.STATE_NORMAL ∧
    (dispatch_key hal now KEY_ESCAPE s).calls = s.calls ∧
    (dispatch_key hal now KEY_ESCAPE s).storage = s.storage ∧
    (dispatch_key hal now KEY_ESCAPE s).columns = s.columns ∧
    (dispatch_key hal now KEY_ESCAPE s).column_count = s.column_count ∧
    (dispatch_key hal now KEY_ESCAPE s).focused_column = s.focused_column := by
  have hne : s.current_state ≠ AppState.STATE_NORMAL := by
    rcases hstate with h | h | h | h <;> rw [h] <;> decide
  rw [dispatch_key_escape hal now s hne]
  exact ⟨rfl, rfl, rfl, rfl, rfl, rfl, rfl⟩

/-- C17 at a concrete input: Escape in the rename prompt after `x` was typed. -/
theorem escape_cancels_witness :
    demoRenameTyped.current_state = AppState.STATE_RENAME ∧
    (dispatch_key ramHal 0 KEY_ESCAPE demoRenameTyped).current_state
      = AppState.STATE_NORMAL ∧
    (dispatch_key ramHal 0 KEY_ESCAPE demoRenameTyped).calls = demoRenameTyped.calls :=
  have h := escape_cancels ramHal 0 demoRenameTyped (Or.inl (by decide))
  ⟨by decide, h.2.1, h.2.2.1⟩

/-- C13: focus left.  In Normal state with `focused_column = f > 0`, handling Left sets
`focused_column` to `f - 1` and `column_count` to `f`, replaces every column with index
in `[f, column_count)` by the cleared column (empty path, no entries, selection 0) and
leaves every other column, in particular columns `0..f-1`, as it was; no gateway call is
made and the state stays Normal.  With `focused_column = 0`, Left changes nothing. -/
theorem focus_left (hal : Hal σ) (now : Int) (s : State σ)
    (hstate : s.current_state = AppState.STATE_NORMAL) :
    (0 < s.focused_column →
      (dispatch_key hal now KEY_ARROW_LEFT s).focused_column = s.focused_column - 1 ∧
      (dispatch_key hal now KEY_ARROW_LEFT s).column_count = s.focused_column ∧
      (∀ i, s.focused_column ≤ i → i < s.column_count →
        (dispatch_key hal now KEY_ARROW_LEFT s).col i = zeroColumn) ∧
      (∀ i, i < s.focused_column →
        (dispatch_key hal now KEY_ARROW_LEFT s).col i = s.col i) ∧
      (∀ i, s.column_count ≤ i →
        (dispatch_key hal now KEY_ARROW_LEFT s).col i = s.col i) ∧
      (dispatch_key hal now KEY_ARROW_LEFT s).current_state = AppState.STATE_NORMAL ∧
      (dispatch_key hal now KEY_ARROW_LEFT s).calls = s.calls) ∧
    (s.focused_column = 0 → dispatch_key hal now KEY_ARROW_LEFT s = s) ∧
    zeroColumn.directory = [] ∧ zeroColumn.entries = [] ∧ zeroColumn.file_count = 0 ∧
    zeroColumn.selected_index = 0 := by
  have hd : dispatch_key hal now KEY_ARROW_LEFT s =
      handle_normal_navigation hal now KEY_ARROW_LEFT s := by
    simp only [dispatch_key, hstate]
  rw [hd, handle_normal_navigation_left]
  refine ⟨fun hpos => ?_, fun h0 => ?_, rfl, rfl, rfl, rfl⟩
  · rw [if_pos hpos]
    have hcol : ∀ i, State.col
        ({ s with
          focused_column := s.focused_column - 1
          columns := (List.range s.columns.length).map (fun i =>
            if s.focused_column - 1 + 1 ≤ i ∧ i < s.column_count then zeroColumn
            else s.col i)
          column_count := s.focused_column - 1 + 1 } : State σ) i =
        if s.focused_column ≤ i ∧ i < s.column_count then zeroColumn else s.col i := by
      intro i
      show ((List.range s.columns.length).map _).getD i zeroColumn = _
      rw [getD_map_range, Nat.sub_add_cancel hpos]
      by_cases hi : i < s.columns.length
      · rw [if_pos hi]
      · rw [if_neg hi, col_eq_zero_of_length_le s i (by omega)]
        split_ifs <;> rfl
    refine ⟨rfl, Nat.sub_add_cancel hpos, fun i h1 h2 => ?_, fun i h1 => ?_,
      fun i h1 => ?_, hstate, rfl⟩
    · rw [hcol, if_pos ⟨h1, h2⟩]
    · rw [hcol, if_neg (by omega)]
    · rw [hcol, if_neg (by omega)]
  · rw [if_neg (by omega)]

/-- C13 at a concrete input: Left with the directory `docs` open in the second column. -/
theorem focus_left_witness :
    demoDocs.current_state = AppState.STATE_NORMAL ∧
    0 < demoDocs.focused_column ∧
    (dispatch_key ramHal 0 KEY_ARROW_LEFT demoDocs).focused_column
      = demoDocs.focused_column - 1 ∧
    (dispatch_key ramHal 0 KEY_ARROW_LEFT demoDocs).column_count = demoDocs.focused_column :=
  have h := (focus_left ramHal 0 demoDocs (by decide)).1 (by decide)
  ⟨by decide, by decide, h.1, h.2.1⟩

/-- C16: path construction for opening an entry.  In Normal state with a non-empty focused
column, let `d` be the focused directory path and `n` the selected entry name.  When the
joined path has fewer than 512 characters, the path that Right or Enter passes to the
gateway's directory test, and then to the listing of the new column or to the read of the
editor, is `d ++ n` when `d` ends with `'/'` and `d ++ "/" ++ n` otherwise; for `d = "/"`
it is `"/" ++ n`. -/
theorem open_path_construction (hal : Hal σ) (now : Int) (key : Nat) (s : State σ)
    (hstate : s.current_state = AppState.STATE_NORMAL)
    (hkey : key = KEY_ARROW_RIGHT ∨ key = KEY_ENTER)
    (hentries : 0 < s.focused.file_count)
    (hlen : (spec_open_path s.focused.directory s.selected_name).length < MAX_PATH_LEN) :
    selected_path s = spec_open_path s.focused.directory s.selected_name ∧
    (s.focused.directory = [SLASH] → selected_path s = SLASH :: s.selected_name) ∧
    (hal.is_directory s.storage (selected_path s) = true → s.column_count < MAX_COLUMNS →
      (dispatch_key hal now key s).calls = s.calls ++
        [StorageCall.is_directory (spec_open_path s.focused.directory s.selected_name),
         StorageCall.list_files (spec_open_path s.focused.directory s.selected_name)
           MAX_FILES]) ∧
    (hal.is_directory s.storage (selected_path s) = true → ¬ s.column_count < MAX_COLUMNS →
      (dispatch_key hal now key s).calls = s.calls ++
        [StorageCall.is_directory (spec_open_path s.focused.directory s.selected_name)]) ∧
    (hal.is_directory s.storage (selected_path s) = false →
      (dispatch_key hal now key s).calls = s.calls ++
        [StorageCall.is_directory (spec_open_path s.focused.directory s.selected_name),
         StorageCall.read_file (spec_open_path s.focused.directory s.selected_name)
           MAX_FILE_CONTENT_SIZE]) := by
  have hp : selected_path s = spec_open_path s.focused.directory s.selected_name := by
    have hp0 : selected_path s =
        (spec_open_path s.focused.directory s.selected_name).take (MAX_PATH_LEN - 1) := by
      simp only [selected_path, spec_open_path, State.focused, ends_with_slash_iff]
      split_ifs <;> rfl
    rw [hp0]
    exact List.take_of_length_le (by omega)
  have hd : dispatch_key hal now key s = handle_normal_navigation hal now key s := by
    simp only [dispatch_key, hstate]
  refine ⟨hp, fun hroot => ?_, fun hdir hcc => ?_, fun hdir hcc => ?_, fun hfile => ?_⟩
  · rw [hp, hroot]
    rfl
  · have hcc2 : ¬ s.column_count ≥ MAX_COLUMNS := by omega
    rw [hd, handle_normal_navigation_open hal now key s hkey, if_pos hentries, if_pos hdir,
      if_pos hcc, ← hp]
    simp only [load_directory, hcc2, if_false, List.append_assoc, List.singleton_append]
  · rw [hd, handle_normal_navigation_open hal now key s hkey, if_pos hentries, if_pos hdir,
      if_neg hcc, ← hp]
  · rw [hd, handle_normal_navigation_open hal now key s hkey, if_pos hentries,
      if_neg (by rw [hfile]; exact Bool.false_ne_true), ← hp]
    simp only [enter_edit_mode, List.append_assoc, List.singleton_append]

/-- C16 at a concrete input: Right on `a.txt` in the root of the demo card builds
`/a.txt`. -/
theorem open_path_construction_witness :
    demoNormal.current_state = AppState.STATE_NORMAL ∧
    0 < demoNormal.focused.file_count ∧
    (spec_open_path demoNormal.focused.directory demoNormal.selected_name).length
      < MAX_PATH_LEN ∧
    demoNormal.focused.directory = [SLASH] ∧
    selected_path demoNormal = SLASH :: demoNormal.selected_name ∧
    selected_path demoNormal = [47, 97, 46, 116, 120, 116] :=
  have h := open_path_construction ramHal 0 KEY_ARROW_RIGHT demoNormal (by decide)
    (Or.inl rfl) (by decide) (by decide)
  ⟨by decide, by decide, by decide, by decide, h.2.1 (by decide), by decide⟩

/-- C20: editor insert.  In Editing state with cursor `i ≤ L` (the length) and content
`b` (the first `L` bytes of the buffer), a key code at or above `KEY_CHAR_BASE` stands
for the character `c = (key - KEY_CHAR_BASE) mod 256`.  If `c` is printable (32..126) and
`L < 1023`, the content becomes `b[0..i) ++ [c] ++ b[i..L)` (the terminator moves one
slot right), the length `L + 1` and the cursor `i + 1`; if `c` is not printable or `L` is
not below 1023, the handler returns the state it was given.  The state stays Editing and
no gateway call is made. -/
theorem editor_insert (hal : Hal σ) (now : Int) (key : Nat) (s : State σ)
    (hstate : s.current_state = AppState.STATE_EDITING)
    (hkey : KEY_CHAR_BASE ≤ key)
    (hbuf : s.edit_buffer.length = MAX_FILE_CONTENT_SIZE)
    (hcur : s.edit_cursor_pos ≤ s.edit_length) :
    (s.edit_length < MAX_FILE_CONTENT_SIZE - 1 →
      32 ≤ (key - KEY_CHAR_BASE) % 256 → (key - KEY_CHAR_BASE) % 256 ≤ 126 →
      (dispatch_key hal now key s).edit_buffer.take (s.edit_length + 1) =
        s.edit_buffer.take s.edit_cursor_pos ++ [(key - KEY_CHAR_BASE) % 256] ++
          (s.edit_buffer.drop s.edit_cursor_pos).take (s.edit_length - s.edit_cursor_pos) ∧
      (dispatch_key hal now key s).edit_buffer.getD (s.edit_length + 1) 1 =
        s.edit_buffer.getD s.edit_length 1 ∧
      (dispatch_key hal now key s).edit_length = s.edit_length + 1 ∧
      (dispatch_key hal now key s).edit_cursor_pos = s.edit_cursor_pos + 1 ∧
      (dispatch_key hal now key s).current_state = AppState.STATE_EDITING ∧
      (dispatch_key hal now key s).calls = s.calls) ∧
    (¬ (s.edit_length < MAX_FILE_CONTENT_SIZE - 1 ∧
        32 ≤ (key - KEY_CHAR_BASE) % 256 ∧ (key - KEY_CHAR_BASE) % 256 ≤ 126) →
      dispatch_key hal now key s = s) := by
  have hd : dispatch_key hal now key s = handle_editor_input hal key s := by
    simp only [dispatch_key, hstate]
  rw [hd, handle_editor_input_charkey hal s key hkey]
  refine ⟨fun hl h1 h2 => ?_, fun hn => by rw [if_neg hn]⟩
  rw [if_pos ⟨hl, h1, h2⟩]
  simp only [MAX_FILE_CONTENT_SIZE] at hbuf hl
  have hlen1 : (memmove s.edit_buffer (s.edit_cursor_pos + 1) s.edit_cursor_pos
      (s.edit_length - s.edit_cursor_pos + 1)).length = s.edit_buffer.length :=
    memmove_length _ _ _ _ (by omega)
  refine ⟨?_, ?_, rfl, rfl, hstate, rfl⟩
  · apply List.ext_getElem?
    intro k
    simp only [List.getElem?_take, List.getElem?_set, hlen1, List.getElem?_append,
      List.length_append, List.length_take, List.length_singleton, List.getElem?_drop]
    rw [memmove_getElem? _ _ _ _ _ (by omega) (by omega)]
    have hmin : min s.edit_cursor_pos s.edit_buffer.length = s.edit_cursor_pos := by omega
    rw [hmin]
    split_ifs <;> first
      | rfl
      | omega
      | (have hz : k - s.edit_cursor_pos = 0 := by omega
         rw [hz]; rfl)
  · rw [List.getD_eq_getElem?_getD, List.getD_eq_getElem?_getD, List.getElem?_set,
      if_neg (by omega), memmove_getElem? _ _ _ _ _ (by omega) (by omega),
      if_neg (by omega), if_pos (by omega)]
    congr 2
    omega

set_option maxRecDepth 1000000 in
/-- C20 at a concrete input: `X` typed at the end of `hi` in the demo editor. -/
theorem editor_insert_witness :
    demoEditing.current_state = AppState.STATE_EDITING ∧
    KEY_CHAR_BASE ≤ KEY_CHAR_BASE + 88 ∧
    demoEditing.edit_buffer.length = MAX_FILE_CONTENT_SIZE ∧
    demoEditing.edit_cursor_pos ≤ demoEditing.edit_length ∧
    demoEditing.edit_length < MAX_FILE_CONTENT_SIZE - 1 ∧
    (dispatch_key ramHal 0 (KEY_CHAR_BASE + 88) demoEditing).edit_buffer.take
        (demoEditing.edit_length + 1)
      = demoEditing.edit_buffer.take demoEditing.edit_cursor_pos ++
          [(KEY_CHAR_BASE + 88 - KEY_CHAR_BASE) % 256] ++
          (demoEditing.edit_buffer.drop demoEditing.edit_cursor_pos).take
            (demoEditing.edit_length - demoEditing.edit_cursor_pos) ∧
    (dispatch_key ramHal 0 (KEY_CHAR_BASE + 88) demoEditing).edit_buffer.take 3
      = [104, 105, 88] :=
  have h := (editor_insert ramHal 0 (KEY_CHAR_BASE + 88) demoEditing (by decide)
    (by decide) (by decide) (by decide)).1 (by decide) (by decide) (by decide)
  ⟨by decide, by decide, by decide, by decide, by decide, h.1, by decide⟩

/-- C11: new-file commit.  In NewFile state with a non-empty buffer, handling Enter first
asks the gateway whether the target path exists; the target is the focused directory, a
separator, the string in the modal buffer and `.txt` (cut to 511 characters).  If it
exists, no create call is made, the focused column is listed again and the state becomes
Normal.  If it does not exist, `create_file` is called once with that path: on success
`enter_edit_mode` opens that path (one read call) and the state becomes Editing, on
failure the focused column is listed again and the state becomes Normal.  The editor
filename is the first 63 characters of the target path: when the joined path has at most
63 characters the target is that path and the editor is bound to it, as the claim says. -/
theorem new_file_commit (hal : Hal σ) (now : Int) (s : State σ)
    (hstate : s.current_state = AppState.STATE_NEW_FILE)
    (hlen : s.input_len ≠ 0)
    (hcount : 0 < s.column_count) :
    ((s.focused.directory ++ [SLASH] ++ cstr s.input_buffer ++ DOT_TXT).length
        < MAX_FILENAME_LEN →
      new_file_path s = s.focused.directory ++ [SLASH] ++ cstr s.input_buffer ++ DOT_TXT ∧
      (new_file_path s).take (MAX_FILENAME_LEN - 1) = new_file_path s) ∧
    (hal.file_exists s.storage (new_file_path s) = true →
      (dispatch_key hal now KEY_ENTER s).calls = s.calls ++
        [StorageCall.file_exists (new_file_path s),
         StorageCall.list_files s.focused.directory MAX_FILES] ∧
      (dispatch_key hal now KEY_ENTER s).storage = s.storage ∧
      (dispatch_key hal now KEY_ENTER s).current_state = AppState.STATE_NORMAL) ∧
    (hal.file_exists s.storage (new_file_path s) = false →
      (hal.create_file s.storage (new_file_path s)).1 = true →
      dispatch_key hal now KEY_ENTER s =
        enter_edit_mode hal now (new_file_path s)
          { s with
            storage := (hal.create_file s.storage (new_file_path s)).2
            calls := s.calls ++ [StorageCall.file_exists (new_file_path s)] ++
              [StorageCall.create_file (new_file_path s)] } ∧
      (dispatch_key hal now KEY_ENTER s).calls = s.calls ++
        [StorageCall.file_exists (new_file_path s),
         StorageCall.create_file (new_file_path s),
         StorageCall.read_file (new_file_path s) MAX_FILE_CONTENT_SIZE] ∧
      (dispatch_key hal now KEY_ENTER s).edit_filename
        = (new_file_path s).take (MAX_FILENAME_LEN - 1) ∧
      (dispatch_key hal now KEY_ENTER s).current_state = AppState.STATE_EDITING) ∧
    (hal.file_exists s.storage (new_file_path s) = false →
      (hal.create_file s.storage (new_file_path s)).1 = false →
      (dispatch_key hal now KEY_ENTER s).calls = s.calls ++
        [StorageCall.file_exists (new_file_path s),
         StorageCall.create_file (new_file_path s),
         StorageCall.list_files s.focused.directory MAX_FILES] ∧
      (dispatch_key hal now KEY_ENTER s).current_state = AppState.STATE_NORMAL) ∧
    ((s.focused.directory ++ [SLASH] ++ cstr s.input_buffer ++ DOT_TXT).length
        < MAX_PATH_LEN →
      new_file_path s = s.focused.directory ++ [SLASH] ++ cstr s.input_buffer ++ DOT_TXT) ∧
    (ModalWF s → cstr s.input_buffer = s.input_buffer.take s.input_len) := by
  refine ⟨fun hs => ?_, ?_⟩
  · have hs' : (s.focused.directory ++ [SLASH] ++ cstr s.input_buffer ++ DOT_TXT).length
        < 64 := hs
    have h1 : new_file_path s
        = s.focused.directory ++ [SLASH] ++ cstr s.input_buffer ++ DOT_TXT :=
      List.take_of_length_le (by simp only [MAX_PATH_LEN]; omega)
    refine ⟨h1, ?_⟩
    rw [h1]
    exact List.take_of_length_le (by simp only [MAX_FILENAME_LEN]; omega)
  have hc0 : s.column_count ≠ 0 := by omega
  have hp : (List.take (MAX_PATH_LEN - 1)
      ((s.col s.focused_column).directory ++ [SLASH] ++ cstr s.input_buffer ++ DOT_TXT))
      = new_file_path s := rfl
  rw [dispatch_key_enter_new_file hal now s hstate hlen]
  simp only [commit_new_file, hc0, if_false, hp]
  refine ⟨fun he => ?_, fun he hc => ?_, fun he hc => ?_,
    fun h => List.take_of_length_le (by omega), cstr_of_modalWF s⟩
  · rw [if_pos he]
    refine ⟨?_, rfl, rfl⟩
    simp only [reload_column, State.focused, List.append_assoc, List.singleton_append]
    rfl
  · rw [if_neg (by rw [he]; exact Bool.false_ne_true), if_pos hc]
    refine ⟨rfl, ?_, rfl, rfl⟩
    simp only [enter_edit_mode, List.append_assoc, List.singleton_append]
    rfl
  · rw [if_neg (by rw [he]; exact Bool.false_ne_true),
      if_neg (by rw [hc]; exact Bool.false_ne_true)]
    refine ⟨?_, rfl⟩
    simp only [reload_column, State.focused, List.append_assoc, List.singleton_append]
    rfl

set_option maxRecDepth 1000000 in
/-- C11 at a concrete input: the name `n` committed in the directory `docs`. -/
theorem new_file_commit_witness :
    demoNewFile.current_state = AppState.STATE_NEW_FILE ∧
    demoNewFile.input_len ≠ 0 ∧
    0 < demoNewFile.column_count ∧
    new_file_path demoNewFile = [47, 100, 111, 99, 115, 47, 110, 46, 116, 120, 116] ∧
    ramHal.file_exists demoNewFile.storage (new_file_path demoNewFile) = false ∧
    (ramHal.create_file demoNewFile.storage (new_file_path demoNewFile)).1 = true ∧
    (dispatch_key ramHal 0 KEY_ENTER demoNewFile).calls = demoNewFile.calls ++
      [StorageCall.file_exists (new_file_path demoNewFile),
       StorageCall.create_file (new_file_path demoNewFile),
       StorageCall.read_file (new_file_path demoNewFile) MAX_FILE_CONTENT_SIZE] ∧
    (dispatch_key ramHal 0 KEY_ENTER demoNewFile).current_state = AppState.STATE_EDITING ∧
    (dispatch_key ramHal 0 KEY_ENTER demoNewFile).edit_filename
      = new_file_path demoNewFile :=
  have h0 := new_file_commit ramHal 0 demoNewFile (by decide) (by decide) (by decide)
  have h := h0.2.2.1 (by decide) (by decide)
  ⟨by decide, by decide, by decide, by decide, by decide, by decide, h.2.1, h.2.2.2,
    h.2.2.1.trans (h0.1 (by decide)).2⟩

set_option maxRecDepth 1000000 in
/-- C11 at the failing input: in the directory `/docs` the name `n` repeated 60 times is
committed.  The target path has 70 characters; it does not exist, `create_file` is
called with it and succeeds, the read is on it and the state becomes Editing, but the
editor filename is only its first 63 characters, a different path, and a save request
writes there and not to the file that was created. -/
theorem new_file_commit_long_path :
    demoLongNewFile.current_state = AppState.STATE_NEW_FILE ∧
    demoLongNewFile.input_len = 60 ∧
    new_file_path demoLongNewFile
      = [47, 100, 111, 99, 115, 47] ++ List.replicate 60 110 ++ DOT_TXT ∧
    (new_file_path demoLongNewFile).length = 70 ∧
    (dispatch_key ramHal 1 KEY_ENTER demoLongNewFile).calls = demoLongNewFile.calls ++
      [StorageCall.file_exists (new_file_path demoLongNewFile),
       StorageCall.create_file (new_file_path demoLongNewFile),
       StorageCall.read_file (new_file_path demoLongNewFile) MAX_FILE_CONTENT_SIZE] ∧
    (dispatch_key ramHal 1 KEY_ENTER demoLongNewFile).current_state
      = AppState.STATE_EDITING ∧
    (dispatch_key ramHal 1 KEY_ENTER demoLongNewFile).edit_filename
      = [47, 100, 111, 99, 115, 47] ++ List.replicate 57 110 ∧
    (dispatch_key ramHal 1 KEY_ENTER demoLongNewFile).edit_filename
      ≠ new_file_path demoLongNewFile ∧
    write_calls (dispatch_key ramHal 2 KEY_CTRL_S
        (dispatch_key ramHal 1 KEY_ENTER demoLongNewFile)).calls =
      [StorageCall.write_file ([47, 100, 111, 99, 115, 47] ++ List.replicate 57 110)
        (dispatch_key ramHal 1 KEY_ENTER demoLongNewFile).edit_buffer 0] := by
  decide

/-- C18, the claim as stated fails: in the rename prompt with `x` typed (length 1), after
handling Escape the modal buffer still has length 1 and still holds `x`, and so it does
after handling Enter (the commit). -/
theorem modal_buffer_not_cleared_on_exit :
    demoRenameTyped.current_state = AppState.STATE_RENAME ∧
    demoRenameTyped.input_len = 1 ∧
    (dispatch_key ramHal 0 KEY_ESCAPE demoRenameTyped).current_state
      = AppState.STATE_NORMAL ∧
    (dispatch_key ramHal 0 KEY_ESCAPE demoRenameTyped).input_len = 1 ∧
    (dispatch_key ramHal 0 KEY_ESCAPE demoRenameTyped).input_len ≠ 0 ∧
    cstr (dispatch_key ramHal 0 KEY_ESCAPE demoRenameTyped).input_buffer = [120] ∧
    (dispatch_key ramHal 0 KEY_ENTER demoRenameTyped).current_state
      = AppState.STATE_NORMAL ∧
    (dispatch_key ramHal 0 KEY_ENTER demoRenameTyped).input_len = 1 ∧
    (dispatch_key ramHal 0 KEY_ENTER demoRenameTyped).input_len ≠ 0 ∧
    cstr (dispatch_key ramHal 0 KEY_ENTER demoRenameTyped).input_buffer = [120] := by
  refine ⟨by decide, by decide, by decide, by decide, by decide, by decide, by decide,
    by decide, by decide, by decide⟩

/-- C18 as amended: the modal buffer is cleared on entry to a modal mode, not on leaving
it.  In Rename, NewFolder or NewFile, handling Escape, or Enter (with a non-empty buffer
or not), leaves `input_len` and the bytes of `input_buffer` as they were.  The length is
reset to 0 and the buffer to the empty string when a modal mode is entered: by the
rename-request key on a non-empty column, by the new-file-request key, and by
`enter_new_folder_mode`. -/
theorem modal_buffer_cleared_on_entry (hal : Hal σ) (now : Int) (s : State σ)
    (hmodal : s.current_state = AppState.STATE_RENAME ∨
      s.current_state = AppState.STATE_NEW_FOLDER ∨
      s.current_state = AppState.STATE_NEW_FILE) :
    (dispatch_key hal now KEY_ESCAPE s).input_len = s.input_len ∧
    (dispatch_key hal now KEY_ESCAPE s).input_buffer = s.input_buffer ∧
    (dispatch_key hal now KEY_ENTER s).input_len = s.input_len ∧
    (dispatch_key hal now KEY_ENTER s).input_buffer = s.input_buffer ∧
    (∀ u : State σ, u.current_state = AppState.STATE_NORMAL → 0 < u.focused.file_count →
      (dispatch_key hal now KEY_CTRL_R u).current_state = AppState.STATE_RENAME ∧
      (dispatch_key hal now KEY_CTRL_R u).input_len = 0 ∧
      cstr (dispatch_key hal now KEY_CTRL_R u).input_buffer = []) ∧
    (∀ u : State σ, u.current_state = AppState.STATE_NORMAL →
      (dispatch_key hal now KEY_CTRL_N u).current_state = AppState.STATE_NEW_FILE ∧
      (dispatch_key hal now KEY_CTRL_N u).input_len = 0 ∧
      cstr (dispatch_key hal now KEY_CTRL_N u).input_buffer = []) ∧
    (∀ u : State σ,
      (enter_new_folder_mode u).current_state = AppState.STATE_NEW_FOLDER ∧
      (enter_new_folder_mode u).input_len = 0 ∧
      cstr (enter_new_folder_mode u).input_buffer = []) := by
  have hne : s.current_state ≠ AppState.STATE_NORMAL := by
    rcases hmodal with h | h | h <;> rw [h] <;> decide
  obtain ⟨e1, e2⟩ := dispatch_key_enter_keeps_modal_buffer hal now s hmodal
  refine ⟨?_, ?_, e1, e2, fun u hu hpos => ?_, fun u hu => ?_, fun u => ?_⟩
  · rw [dispatch_key_escape hal now s hne]
  · rw [dispatch_key_escape hal now s hne]
  · have hd : dispatch_key hal now KEY_CTRL_R u =
        handle_normal_navigation hal now KEY_CTRL_R u := by
      simp only [dispatch_key, hu]
    have hnz : ¬ (u.col u.focused_column).file_count = 0 := by
      have := hpos
      unfold State.focused at this
      omega
    rw [hd, handle_normal_navigation_ctrl_r, if_pos hpos]
    simp only [enter_rename_mode, hnz, if_false]
    exact ⟨trivial, trivial, cstr_set_zero _⟩
  · have hd : dispatch_key hal now KEY_CTRL_N u =
        handle_normal_navigation hal now KEY_CTRL_N u := by
      simp only [dispatch_key, hu]
    rw [hd, handle_normal_navigation_ctrl_n]
    exact ⟨rfl, rfl, cstr_set_zero _⟩
  · exact ⟨rfl, rfl, cstr_set_zero _⟩

/-- C18 as amended, at a concrete input: Escape in the rename prompt with `x` typed, and
the rename-request key pressed again afterwards. -/
theorem modal_buffer_cleared_on_entry_witness :
    demoRenameTyped.current_state = AppState.STATE_RENAME ∧
    (dispatch_key ramHal 0 KEY_ESCAPE demoRenameTyped).input_len
      = demoRenameTyped.input_len ∧
    (dispatch_key ramHal 0 KEY_CTRL_R
      (dispatch_key ramHal 0 KEY_ESCAPE demoRenameTyped)).input_len = 0 :=
  have h := modal_buffer_cleared_on_entry ramHal 0 demoRenameTyped (Or.inl (by decide))
  ⟨by decide, h.1,
    (h.2.2.2.2.1 (dispatch_key ramHal 0 KEY_ESCAPE demoRenameTyped) (by decide)
      (by decide)).2.1⟩

/-- C19: modal input editing.  In Rename, NewFolder or NewFile, with the modal buffer a
well-formed C string of length `input_len < 128`: a key code at or above `KEY_CHAR_BASE`
stands for the character `c = (key - KEY_CHAR_BASE) mod 256`; if `c` is printable
(32..126) and `input_len < 127` the string gets `c` appended and the length grows by 1,
otherwise (length 127, or `c` not printable) the handler returns the state it was given.
Backspace removes exactly the last character when the length is positive and returns the
state it was given when the length is 0.  After any key the length is at most 127, and
append followed by Backspace restores the string and the length.  In all these cases the
application state is the same modal state and no gateway call is made. -/
theorem modal_input_editing (hal : Hal σ) (now : Int) (s : State σ)
    (hmodal : s.current_state = AppState.STATE_RENAME ∨
      s.current_state = AppState.STATE_NEW_FOLDER ∨
      s.current_state = AppState.STATE_NEW_FILE)
    (hwf : ModalWF s) :
    (∀ key, KEY_CHAR_BASE ≤ key →
      32 ≤ (key - KEY_CHAR_BASE) % 256 → (key - KEY_CHAR_BASE) % 256 ≤ 126 →
      s.input_len < INPUT_BUFFER_SIZE - 1 →
      (dispatch_key hal now key s).input_len = s.input_len + 1 ∧
      cstr (dispatch_key hal now key s).input_buffer
        = cstr s.input_buffer ++ [(key - KEY_CHAR_BASE) % 256] ∧
      (dispatch_key hal now key s).current_state = s.current_state ∧
      (dispatch_key hal now key s).calls = s.calls ∧
      ModalWF (dispatch_key hal now key s) ∧
      (dispatch_key hal now KEY_BACKSPACE (dispatch_key hal now key s)).input_len
        = s.input_len ∧
      cstr (dispatch_key hal now KEY_BACKSPACE (dispatch_key hal now key s)).input_buffer
        = cstr s.input_buffer ∧
      (dispatch_key hal now KEY_BACKSPACE (dispatch_key hal now key s)).current_state
        = s.current_state) ∧
    (∀ key, KEY_CHAR_BASE ≤ key →
      ¬ (s.input_len < INPUT_BUFFER_SIZE - 1 ∧ 32 ≤ (key - KEY_CHAR_BASE) % 256 ∧
        (key - KEY_CHAR_BASE) % 256 ≤ 126) →
      dispatch_key hal now key s = s) ∧
    (0 < s.input_len →
      (dispatch_key hal now KEY_BACKSPACE s).input_len = s.input_len - 1 ∧
      cstr (dispatch_key hal now KEY_BACKSPACE s).input_buffer
        = (cstr s.input_buffer).dropLast ∧
      (dispatch_key hal now KEY_BACKSPACE s).current_state = s.current_state ∧
      (dispatch_key hal now KEY_BACKSPACE s).calls = s.calls ∧
      ModalWF (dispatch_key hal now KEY_BACKSPACE s)) ∧
    (s.input_len = 0 → dispatch_key hal now KEY_BACKSPACE s = s) ∧
    (∀ key, (dispatch_key hal now key s).input_len ≤ INPUT_BUFFER_SIZE - 1) ∧
    (cstr s.input_buffer).length = s.input_len := by
  have hlenwf : s.input_len ≤ INPUT_BUFFER_SIZE - 1 := by
    have := hwf.2.1
    simp only [INPUT_BUFFER_SIZE] at this ⊢
    omega
  have hbs : KEY_BACKSPACE ≠ KEY_ENTER ∧ KEY_BACKSPACE ≠ KEY_ESCAPE := by decide
  refine ⟨fun key hk h1 h2 hl => ?_, fun key hk hn => ?_, fun hpos => ?_, fun h0 => ?_,
    fun key => ?_, ?_⟩
  · obtain ⟨a1, a2, a3⟩ := modal_append_step hal now key s hmodal hwf hk h1 h2 hl
    have hm1 : (dispatch_key hal now key s).current_state = s.current_state := by rw [a1]
    have hmodal1 : (dispatch_key hal now key s).current_state = AppState.STATE_RENAME ∨
        (dispatch_key hal now key s).current_state = AppState.STATE_NEW_FOLDER ∨
        (dispatch_key hal now key s).current_state = AppState.STATE_NEW_FILE := by
      rw [hm1]; exact hmodal
    have hl1 : (dispatch_key hal now key s).input_len = s.input_len + 1 := by rw [a1]
    obtain ⟨b1, _, b3⟩ := modal_backspace_step hal now (dispatch_key hal now key s) hmodal1
      a2 (by rw [hl1]; exact Nat.succ_pos _)
    refine ⟨hl1, a3, hm1, by rw [a1], a2, ?_, ?_, ?_⟩
    · rw [b1]
      show (dispatch_key hal now key s).input_len - 1 = s.input_len
      rw [hl1]
      rfl
    · rw [b3, a3, List.dropLast_concat]
    · rw [b1]
      exact hm1
  · have e1 : key ≠ KEY_ENTER := by simp only [KEY_CHAR_BASE, KEY_ENTER] at *; omega
    have e2 : key ≠ KEY_ESCAPE := by simp only [KEY_CHAR_BASE, KEY_ESCAPE] at *; omega
    rw [dispatch_key_modal_text hal now key s hmodal e1 e2,
      handle_text_input_charkey key s hk, if_neg hn]
  · obtain ⟨b1, b2, b3⟩ := modal_backspace_step hal now s hmodal hwf hpos
    exact ⟨by rw [b1], b3, by rw [b1], by rw [b1], b2⟩
  · rw [dispatch_key_modal_text hal now KEY_BACKSPACE s hmodal hbs.1 hbs.2,
      handle_text_input_backspace, if_neg (by omega)]
  · by_cases e1 : key = KEY_ENTER
    · rw [e1, (dispatch_key_enter_keeps_modal_buffer hal now s hmodal).1]
      exact hlenwf
    by_cases e2 : key = KEY_ESCAPE
    · have hne : s.current_state ≠ AppState.STATE_NORMAL := by
        rcases hmodal with h | h | h <;> rw [h] <;> decide
      rw [e2, dispatch_key_escape hal now s hne]
      exact hlenwf
    rw [dispatch_key_modal_text hal now key s hmodal e1 e2]
    simp only [handle_text_input]
    split_ifs with c1 c2 c3 c4
    · show s.input_len - 1 ≤ _
      omega
    · exact hlenwf
    · show s.input_len + 1 ≤ _
      omega
    · exact hlenwf
    · exact hlenwf
  · rw [cstr_of_modalWF s hwf, List.length_take]
    have h1 := hwf.1
    have h2 := hwf.2.1
    omega

set_option maxRecDepth 1000000 in
/-- C19 at a concrete input: `y` typed after `x` in the rename prompt, then Backspace. -/
theorem modal_input_editing_witness :
    demoRenameTyped.current_state = AppState.STATE_RENAME ∧
    ModalWF demoRenameTyped ∧
    cstr demoRenameTyped.input_buffer = [120] ∧
    cstr (dispatch_key ramHal 0 (KEY_CHAR_BASE + 121) demoRenameTyped).input_buffer
      = cstr demoRenameTyped.input_buffer ++ [(KEY_CHAR_BASE + 121 - KEY_CHAR_BASE) % 256] ∧
    cstr (dispatch_key ramHal 0 KEY_BACKSPACE
      (dispatch_key ramHal 0 (KEY_CHAR_BASE + 121) demoRenameTyped)).input_buffer
      = cstr demoRenameTyped.input_buffer :=
  have hwf : ModalWF demoRenameTyped := by
    refine ⟨by decide, by decide, fun k hk => ?_, by decide⟩
    have hk0 : k = 0 := by
      have h1 : demoRenameTyped.input_len = 1 := by decide
      omega
    rw [hk0]
    decide
  have h := (modal_input_editing ramHal 0 demoRenameTyped (Or.inl (by decide)) hwf).1
    (KEY_CHAR_BASE + 121) (by decide) (by decide) (by decide) (by decide)
  ⟨by decide, hwf, by decide, h.2.1, h.2.2.2.2.2.2.1⟩

/-- C21. Backspace in the editor deletes the character before the cursor.  In the
Editing state with content `s` (the first `L = edit_length` bytes of `edit_buffer`) and
cursor `i ≤ L`: when `i > 0` the new content is `s[0..i-1) ++ s[i..L)`, the terminator
moves to index `L - 1`, the length is `L - 1`, the cursor is `i - 1`, the filename and
the call log are unchanged and the state stays Editing; when `i = 0` the whole state is
unchanged. -/
theorem editor_delete_before_cursor (hal : Hal σ) (now : Int) (s : State σ)
    (hstate : s.current_state = AppState.STATE_EDITING)
    (hbuf : s.edit_buffer.length = MAX_FILE_CONTENT_SIZE)
    (hcur : s.edit_cursor_pos ≤ s.edit_length)
    (hlen : s.edit_length ≤ MAX_FILE_CONTENT_SIZE - 1) :
    (0 < s.edit_cursor_pos →
      (dispatch_key hal now KEY_BACKSPACE s).edit_buffer.take (s.edit_length - 1)
        = s.edit_buffer.take (s.edit_cursor_pos - 1)
          ++ (s.edit_buffer.drop s.edit_cursor_pos).take
              (s.edit_length - s.edit_cursor_pos) ∧
      (dispatch_key hal now KEY_BACKSPACE s).edit_buffer.getD (s.edit_length - 1) 1
        = s.edit_buffer.getD s.edit_length 1 ∧
      (dispatch_key hal now KEY_BACKSPACE s).edit_buffer.length = MAX_FILE_CONTENT_SIZE ∧
      (dispatch_key hal now KEY_BACKSPACE s).edit_length = s.edit_length - 1 ∧
      (dispatch_key hal now KEY_BACKSPACE s).edit_cursor_pos = s.edit_cursor_pos - 1 ∧
      (dispatch_key hal now KEY_BACKSPACE s).edit_filename = s.edit_filename ∧
      (dispatch_key hal now KEY_BACKSPACE s).current_state = AppState.STATE_EDITING ∧
      (dispatch_key hal now KEY_BACKSPACE s).calls = s.calls) ∧
    (s.edit_cursor_pos = 0 → dispatch_key hal now KEY_BACKSPACE s = s) := by
  have hd : dispatch_key hal now KEY_BACKSPACE s = handle_editor_input hal KEY_BACKSPACE s := by
    simp only [dispatch_key, hstate]
  rw [hd, handle_editor_input_backspace]
  simp only [MAX_FILE_CONTENT_SIZE] at hbuf hlen
  constructor
  · intro hpos
    rw [if_pos hpos]
    refine ⟨?_, ?_, ?_, rfl, rfl, rfl, hstate, rfl⟩
    · apply List.ext_getElem?
      intro k
      simp only [List.getElem?_take, List.getElem?_append, List.length_take,
        List.getElem?_drop]
      rw [memmove_getElem? _ _ _ _ _ (by omega) (by omega)]
      have h1 : min (s.edit_cursor_pos - 1) s.edit_buffer.length = s.edit_cursor_pos - 1 := by
        omega
      rw [h1]
      split_ifs <;> first
        | rfl
        | omega
    · show (memmove _ _ _ _).getD _ _ = _
      rw [List.getD_eq_getElem?_getD, List.getD_eq_getElem?_getD,
        memmove_getElem? _ _ _ _ _ (by omega) (by omega)]
      rw [if_neg (by omega), if_pos (by omega)]
      congr 2
      omega
    · show (memmove _ _ _ _).length = _
      rw [memmove_length _ _ _ _ (by omega), hbuf]
      rfl
  · intro h0
    rw [if_neg (by omega)]

set_option maxRecDepth 1000000 in
/-- C21 at a concrete input: Backspace at the end of `hi` in `demoEditing` leaves `h`, length 1,
cursor 1. -/
theorem editor_delete_before_cursor_witness :
    (dispatch_key ramHal 0 KEY_BACKSPACE demoEditing).edit_buffer.take 1 = [104] ∧
    (dispatch_key ramHal 0 KEY_BACKSPACE demoEditing).edit_length = 1 ∧
    (dispatch_key ramHal 0 KEY_BACKSPACE demoEditing).edit_cursor_pos = 1 :=
  have h := (editor_delete_before_cursor ramHal 0 demoEditing (by decide) (by decide)
    (by decide) (by decide)).1 (by decide)
  ⟨h.1.trans (by decide), h.2.2.2.1.trans (by decide), h.2.2.2.2.1.trans (by decide)⟩

/-- C22. Cursor movement in the editor clamps to `[0, length]`: Left decrements the
cursor by one unless it is 0, Right increments it by one unless it equals the length;
the result stays within the length, and nothing but the cursor changes: content,
length, filename, application state and call log are as before. -/
theorem editor_cursor_movement (hal : Hal σ) (now : Int) (key : Nat) (s : State σ)
    (hstate : s.current_state = AppState.STATE_EDITING)
    (hcur : s.edit_cursor_pos ≤ s.edit_length)
    (hk : key = KEY_ARROW_LEFT ∨ key = KEY_ARROW_RIGHT) :
    (dispatch_key hal now key s).edit_cursor_pos =
      (if key = KEY_ARROW_LEFT then
        (if s.edit_cursor_pos = 0 then 0 else s.edit_cursor_pos - 1)
       else
        (if s.edit_cursor_pos = s.edit_length then s.edit_length
         else s.edit_cursor_pos + 1)) ∧
    (dispatch_key hal now key s).edit_cursor_pos ≤ s.edit_length ∧
    dispatch_key hal now key s =
      { s with edit_cursor_pos := (dispatch_key hal now key s).edit_cursor_pos } ∧
    (dispatch_key hal now key s).edit_buffer = s.edit_buffer ∧
    (dispatch_key hal now key s).edit_length = s.edit_length ∧
    (dispatch_key hal now key s).edit_filename = s.edit_filename ∧
    (dispatch_key hal now key s).current_state = AppState.STATE_EDITING ∧
    (dispatch_key hal now key s).calls = s.calls := by
  have hd : dispatch_key hal now key s = handle_editor_input hal key s := by
    simp only [dispatch_key, hstate]
  rw [hd]
  have e : KEY_ARROW_RIGHT ≠ KEY_ARROW_LEFT := by decide
  rcases hk with rfl | rfl
  · rw [handle_editor_input_left, if_pos rfl]
    by_cases h : s.edit_cursor_pos > 0
    · rw [if_pos h, if_neg (by omega)]
      exact ⟨rfl, Nat.le_trans (Nat.sub_le _ _) hcur, rfl, rfl, rfl, rfl, hstate, rfl⟩
    · rw [if_neg h, if_pos (by omega)]
      exact ⟨by omega, hcur, rfl, rfl, rfl, rfl, hstate, rfl⟩
  · rw [handle_editor_input_right, if_neg e]
    by_cases h : s.edit_cursor_pos < s.edit_length
    · rw [if_pos h, if_neg (by omega)]
      exact ⟨rfl, h, rfl, rfl, rfl, rfl, hstate, rfl⟩
    · rw [if_neg h, if_pos (by omega)]
      exact ⟨by omega, hcur, rfl, rfl, rfl, rfl, hstate, rfl⟩

set_option maxRecDepth 1000000 in
/-- C22 at a concrete input: Left in `demoEditing` (cursor 2 of 2) moves the cursor to 1 and
keeps the buffer. -/
theorem editor_cursor_movement_witness :
    (dispatch_key ramHal 0 KEY_ARROW_LEFT demoEditing).edit_cursor_pos = 1 ∧
    (dispatch_key ramHal 0 KEY_ARROW_LEFT demoEditing).edit_buffer = demoEditing.edit_buffer :=
  have h := editor_cursor_movement ramHal 0 KEY_ARROW_LEFT demoEditing (by decide)
    (by decide) (Or.inl rfl)
  ⟨h.1.trans (by decide), h.2.2.2.1⟩

/-- C23. Modal mode entry from the Normal state: the rename request (Ctrl+R) enters
Rename exactly when the focused column is non-empty (otherwise the state is unchanged);
the new-file request (Ctrl+N) always enters NewFile, also on an empty column.  In both
cases the modal buffer is empty on entry (`input_len = 0`, string value empty) whatever
an earlier prompt left in it, and no gateway call is made (call log and storage
unchanged). -/
theorem modal_mode_entry (hal : Hal σ) (now : Int) (s : State σ)
    (hstate : s.current_state = AppState.STATE_NORMAL) :
    ((dispatch_key hal now KEY_CTRL_R s).current_state = AppState.STATE_RENAME ↔
      0 < s.focused.file_count) ∧
    (0 < s.focused.file_count →
      dispatch_key hal now KEY_CTRL_R s =
        { s with
          current_state := AppState.STATE_RENAME
          input_len := 0
          input_buffer := s.input_buffer.set 0 0 } ∧
      (dispatch_key hal now KEY_CTRL_R s).input_len = 0 ∧
      cstr (dispatch_key hal now KEY_CTRL_R s).input_buffer = [] ∧
      (dispatch_key hal now KEY_CTRL_R s).calls = s.calls ∧
      (dispatch_key hal now KEY_CTRL_R s).storage = s.storage) ∧
    (s.focused.file_count = 0 → dispatch_key hal now KEY_CTRL_R s = s) ∧
    dispatch_key hal now KEY_CTRL_N s =
      { s with
        current_state := AppState.STATE_NEW_FILE
        input_len := 0
        input_buffer := s.input_buffer.set 0 0 } ∧
    (dispatch_key hal now KEY_CTRL_N s).current_state = AppState.STATE_NEW_FILE ∧
    (dispatch_key hal now KEY_CTRL_N s).input_len = 0 ∧
    cstr (dispatch_key hal now KEY_CTRL_N s).input_buffer = [] ∧
    (dispatch_key hal now KEY_CTRL_N s).calls = s.calls ∧
    (dispatch_key hal now KEY_CTRL_N s).storage = s.storage := by
  have hd : ∀ key, dispatch_key hal now key s = handle_normal_navigation hal now key s := by
    intro key
    simp only [dispatch_key, hstate]
  rw [hd, hd, handle_normal_navigation_ctrl_r, handle_normal_navigation_ctrl_n]
  have hr : 0 < s.focused.file_count → enter_rename_mode s =
      { s with
        current_state := AppState.STATE_RENAME
        input_len := 0
        input_buffer := s.input_buffer.set 0 0 } := by
    intro h
    have h' : ¬ (s.col s.focused_column).file_count = 0 := Nat.pos_iff_ne_zero.mp h
    simp only [enter_rename_mode, if_neg h']
  refine ⟨?_, ?_, ?_, rfl, rfl, rfl, cstr_set_zero _, rfl, rfl⟩
  · by_cases h : s.focused.file_count > 0
    · rw [if_pos h, hr h]
      exact ⟨fun _ => h, fun _ => rfl⟩
    · rw [if_neg h, hstate]
      exact ⟨fun hc => (by cases hc), fun hc => absurd hc h⟩
  · intro h
    rw [if_pos h, hr h]
    exact ⟨rfl, rfl, cstr_set_zero _, rfl, rfl⟩
  · intro h
    rw [if_neg (by omega)]

/-- C23 at a concrete input: `demoStale` still holds one typed character; Ctrl+R enters Rename
with `input_len = 0`; Ctrl+N on the empty root of `demoEmpty` enters NewFile. -/
theorem modal_mode_entry_witness :
    demoStale.input_len = 1 ∧
    (dispatch_key ramHal 0 KEY_CTRL_R demoStale).current_state = AppState.STATE_RENAME ∧
    (dispatch_key ramHal 0 KEY_CTRL_R demoStale).input_len = 0 ∧
    (dispatch_key ramHal 0 KEY_CTRL_N demoEmpty).current_state = AppState.STATE_NEW_FILE :=
  have h := modal_mode_entry ramHal 0 demoStale (by decide)
  have h' := modal_mode_entry ramHal 0 demoEmpty (by decide)
  ⟨by decide, h.1.mpr (by decide), (h.2.1 (by decide)).2.1, h'.2.2.2.2.1⟩

/-- C24. In the Normal state with an empty focused column (`file_count = 0`) each of
Up, Down, Right, Enter and the rename request leaves the whole application state
unchanged, the call log included. -/
theorem empty_column_keys_change_nothing (hal : Hal σ) (now : Int) (key : Nat)
    (s : State σ) (hstate : s.current_state = AppState.STATE_NORMAL)
    (hempty : s.focused.file_count = 0)
    (hk : key = KEY_ARROW_UP ∨ key = KEY_ARROW_DOWN ∨ key = KEY_ARROW_RIGHT ∨
      key = KEY_ENTER ∨ key = KEY_CTRL_R) :
    dispatch_key hal now key s = s := by
  have hd : dispatch_key hal now key s = handle_normal_navigation hal now key s := by
    simp only [dispatch_key, hstate]
  rw [hd]
  rcases hk with rfl | rfl | rfl | rfl | rfl
  · rw [handle_normal_navigation_up, if_neg (by omega)]
  · rw [handle_normal_navigation_down, if_neg (by omega)]
  · rw [handle_normal_navigation_open _ _ _ _ (Or.inl rfl), if_neg (by omega)]
  · rw [handle_normal_navigation_open _ _ _ _ (Or.inr rfl), if_neg (by omega)]
  · rw [handle_normal_navigation_ctrl_r, if_neg (by omega)]

/-- C24 at a concrete input: Enter on the empty root of `demoEmpty` changes nothing. -/
theorem empty_column_keys_change_nothing_witness :
    demoEmpty.current_state = AppState.STATE_NORMAL ∧ demoEmpty.focused.file_count = 0 ∧
    dispatch_key ramHal 0 KEY_ENTER demoEmpty = demoEmpty :=
  ⟨by decide, by decide,
    empty_column_keys_change_nothing ramHal 0 KEY_ENTER demoEmpty (by decide) (by decide)
      (by decide)⟩

/-- C25. A cycle whose poll returns no key event changes nothing but the blink: the
resulting state is the old one with possibly other `cursor_visible` and
`last_toggle_time`; active state, navigation model, editor model, modal buffer, call
log and storage are unchanged.  The blink toggles exactly when the application is
initialised and the interval has elapsed, otherwise the state is unchanged. -/
theorem idle_cycle_only_blinks (hal : Hal σ) (inp : CycleInput) (s : State σ)
    (hkey : inp.key = KEY_NONE) :
    cybertyper_run_cycle hal inp s =
      { s with
        cursor_visible := (cybertyper_run_cycle hal inp s).cursor_visible
        last_toggle_time := (cybertyper_run_cycle hal inp s).last_toggle_time } ∧
    (cybertyper_run_cycle hal inp s).current_state = s.current_state ∧
    (cybertyper_run_cycle hal inp s).columns = s.columns ∧
    (cybertyper_run_cycle hal inp s).column_count = s.column_count ∧
    (cybertyper_run_cycle hal inp s).focused_column = s.focused_column ∧
    (cybertyper_run_cycle hal inp s).edit_filename = s.edit_filename ∧
    (cybertyper_run_cycle hal inp s).edit_buffer = s.edit_buffer ∧
    (cybertyper_run_cycle hal inp s).edit_length = s.edit_length ∧
    (cybertyper_run_cycle hal inp s).edit_cursor_pos = s.edit_cursor_pos ∧
    (cybertyper_run_cycle hal inp s).input_buffer = s.input_buffer ∧
    (cybertyper_run_cycle hal inp s).input_len = s.input_len ∧
    (cybertyper_run_cycle hal inp s).calls = s.calls ∧
    (cybertyper_run_cycle hal inp s).storage = s.storage ∧
    (s.initialized = true → inp.current_time - s.last_toggle_time ≥ 1 →
      (cybertyper_run_cycle hal inp s).cursor_visible = !s.cursor_visible ∧
      (cybertyper_run_cycle hal inp s).last_toggle_time = inp.current_time) ∧
    (¬ (s.initialized = true ∧ inp.current_time - s.last_toggle_time ≥ 1) →
      cybertyper_run_cycle hal inp s = s) := by
  by_cases hi : s.initialized = true
  · have hc : cybertyper_run_cycle hal inp s = blink_tick inp.current_time s := by
      simp only [cybertyper_run_cycle, hi, hkey, Bool.not_true, if_true, Bool.false_eq_true,
        if_false]
    rw [hc]
    by_cases ht : inp.current_time - s.last_toggle_time ≥ 1
    · have hb : blink_tick inp.current_time s =
          { s with cursor_visible := !s.cursor_visible,
                   last_toggle_time := inp.current_time } := by
        simp only [blink_tick, if_pos ht]
      rw [hb]
      exact ⟨rfl, rfl, rfl, rfl, rfl, rfl, rfl, rfl, rfl, rfl, rfl, rfl, rfl,
        fun _ _ => ⟨rfl, rfl⟩, fun h => absurd ⟨hi, ht⟩ h⟩
    · have hb : blink_tick inp.current_time s = s := by
        simp only [blink_tick, if_neg ht]
      rw [hb]
      exact ⟨rfl, rfl, rfl, rfl, rfl, rfl, rfl, rfl, rfl, rfl, rfl, rfl, rfl,
        fun _ h => absurd h ht, fun _ => rfl⟩
  · have hc : cybertyper_run_cycle hal inp s = s := by
      have hf : s.initialized = false := by simpa using hi
      simp only [cybertyper_run_cycle, hf, Bool.not_false, if_true]
    rw [hc]
    exact ⟨rfl, rfl, rfl, rfl, rfl, rfl, rfl, rfl, rfl, rfl, rfl, rfl, rfl,
      fun h => absurd h hi, fun _ => rfl⟩

set_option maxRecDepth 1000000 in
/-- C25 at a concrete input: an idle cycle at time 5 in `demoEditing` toggles the cursor off and
keeps the Editing state and the call log. -/
theorem idle_cycle_only_blinks_witness :
    (cybertyper_run_cycle ramHal ⟨5, KEY_NONE, 5⟩ demoEditing).current_state
      = AppState.STATE_EDITING ∧
    (cybertyper_run_cycle ramHal ⟨5, KEY_NONE, 5⟩ demoEditing).cursor_visible = false ∧
    (cybertyper_run_cycle ramHal ⟨5, KEY_NONE, 5⟩ demoEditing).calls = demoEditing.calls :=
  have h := idle_cycle_only_blinks ramHal ⟨5, KEY_NONE, 5⟩ demoEditing rfl
  ⟨h.2.1.trans (by decide),
    (h.2.2.2.2.2.2.2.2.2.2.2.2.2.1 (by decide) (by decide)).1.trans (by decide),
    h.2.2.2.2.2.2.2.2.2.2.2.1⟩

/-- C26. Storage is mutated only on explicit commit actions.  For every state and key,
handling the key appends some list `added` to the call log; if `added` contains a
`write_file`, `create_file`, `create_directory` or `rename_file` call, or if the
storage state changed, then either the state was Editing and the key was Ctrl+S, or the
state was Rename, NewFolder or NewFile, the key was Enter and the modal buffer was
non-empty. -/
theorem storage_mutated_only_on_commit (hal : Hal σ) (now : Int) (key : Nat)
    (s : State σ) :
    ∃ added : List StorageCall,
      (dispatch_key hal now key s).calls = s.calls ++ added ∧
      ((∃ c ∈ added, c.mutates = true) →
        (s.current_state = AppState.STATE_EDITING ∧ key = KEY_CTRL_S) ∨
        ((s.current_state = AppState.STATE_RENAME ∨
            s.current_state = AppState.STATE_NEW_FOLDER ∨
            s.current_state = AppState.STATE_NEW_FILE) ∧
          key = KEY_ENTER ∧ s.input_len ≠ 0)) ∧
      ((dispatch_key hal now key s).storage ≠ s.storage →
        (s.current_state = AppState.STATE_EDITING ∧ key = KEY_CTRL_S) ∨
        ((s.current_state = AppState.STATE_RENAME ∨
            s.current_state = AppState.STATE_NEW_FOLDER ∨
            s.current_state = AppState.STATE_NEW_FILE) ∧
          key = KEY_ENTER ∧ s.input_len ≠ 0)) := by
  obtain ⟨⟨added, ha, hmut, _⟩, hsto, _, _⟩ := stepOK_dispatch_key hal now key s
  refine ⟨added, ha, ?_, ?_⟩
  · rintro ⟨c, hm, hc⟩
    exact hmut c hm hc
  · intro hne
    by_contra hca
    exact hne (hsto hca)

/-- C27, as the code behaves: `handle_normal_navigation` has no case for `KEY_F2`, so in
the Normal state F2 leaves the whole state unchanged; in particular the state is not
NewFolder, the state that `enter_new_folder_mode` would have set. -/
theorem f2_key_is_ignored (hal : Hal σ) (now : Int) (s : State σ)
    (hstate : s.current_state = AppState.STATE_NORMAL) :
    dispatch_key hal now KEY_F2 s = s ∧
    (dispatch_key hal now KEY_F2 s).current_state ≠ AppState.STATE_NEW_FOLDER ∧
    (dispatch_key hal now KEY_F2 s).current_state ≠ (enter_new_folder_mode s).current_state := by
  have hd : dispatch_key hal now KEY_F2 s = s := by
    simp only [dispatch_key, hstate]
    exact handle_normal_navigation_other hal now KEY_F2 s (by decide) (by decide) (by decide)
      (by decide) (by decide) (by decide) (by decide)
  rw [hd, hstate]
  exact ⟨rfl, by decide, by simp [enter_new_folder_mode]⟩

/-- C27 at a concrete input: on the empty root of `demoEmpty`, where the browse screen shows
the F2 hint, F2 changes nothing. -/
theorem f2_key_is_ignored_witness :
    demoEmpty.current_state = AppState.STATE_NORMAL ∧
    dispatch_key ramHal 0 KEY_F2 demoEmpty = demoEmpty :=
  ⟨by decide, (f2_key_is_ignored ramHal 0 demoEmpty (by decide)).1⟩

/-- C28. In every state reached from `cybertyper_init` by a finite sequence of cycles
(with or without key events) `column_count = focused_column + 1`. -/
theorem column_count_is_focus_plus_one (hal : Hal σ) (now : Int) (st : σ)
    (inputs : List CycleInput) :
    (run_cycles hal inputs (cybertyper_init hal now (boot st))).column_count =
      (run_cycles hal inputs (cybertyper_init hal now (boot st))).focused_column + 1 :=
  (reach_run_cycles hal inputs _ (reach_cybertyper_init hal now st)).1

/-- C29. The NewFolder state is unreachable: after `cybertyper_init` and any finite
sequence of cycles the active state is not NewFolder, and the call log holds no
`create_directory` call. -/
theorem new_folder_state_unreachable (hal : Hal σ) (now : Int) (st : σ)
    (inputs : List CycleInput) :
    (run_cycles hal inputs (cybertyper_init hal now (boot st))).current_state
      ≠ AppState.STATE_NEW_FOLDER ∧
    ∀ dirpath : List Nat, StorageCall.create_directory dirpath ∉
      (run_cycles hal inputs (cybertyper_init hal now (boot st))).calls := by
  obtain ⟨_, h1, h2⟩ := reach_run_cycles hal inputs _ (reach_cybertyper_init hal now st)
  refine ⟨h1, ?_⟩
  intro dirpath hm
  have h := h2 _ hm
  cases h

/-- C30. Commit paths always insert a separator.  The three commit functions hand the
gateway `rename_oldpath`, `typed_path` and `new_file_path`, built as
`directory ++ "/" ++ name` (plus `.txt` for a new file) with no test for a trailing
separator.  With the focused directory `/` these paths begin with `//` and differ from
the path `/` ++ name that opening the entry of that name constructs; for a directory
that does not end in `/` the two constructions agree.  The names are taken within the
capacity of their arrays (`file_list` slots and the modal buffer). -/
theorem commit_paths_always_insert_separator (hal : Hal σ) (now : Int) (s : State σ)
    (hcount : s.column_count ≠ 0)
    (hname : s.selected_name.length < MAX_FILENAME_LEN)
    (htyped : (cstr s.input_buffer).length < INPUT_BUFFER_SIZE) :
    (commit_rename hal s).calls = s.calls ++
      [StorageCall.rename_file (rename_oldpath s) (typed_path s),
       StorageCall.list_files s.focused.directory MAX_FILES] ∧
    (commit_new_folder hal s).calls = s.calls ++
      [StorageCall.create_directory (typed_path s),
       StorageCall.list_files s.focused.directory MAX_FILES] ∧
    (commit_new_file hal now s).calls = s.calls ++
      (StorageCall.file_exists (new_file_path s) ::
        (if hal.file_exists s.storage (new_file_path s) then
          [StorageCall.list_files s.focused.directory MAX_FILES]
         else
          StorageCall.create_file (new_file_path s) ::
            (if (hal.create_file s.storage (new_file_path s)).1 then
              [StorageCall.read_file (new_file_path s) MAX_FILE_CONTENT_SIZE]
             else [StorageCall.list_files s.focused.directory MAX_FILES]))) ∧
    (s.focused.directory = [SLASH] →
      rename_oldpath s = SLASH :: SLASH :: s.selected_name ∧
      selected_path s = SLASH :: s.selected_name ∧
      rename_oldpath s ≠ selected_path s ∧
      typed_path s = SLASH :: SLASH :: cstr s.input_buffer ∧
      typed_path s ≠ spec_open_path s.focused.directory (cstr s.input_buffer) ∧
      new_file_path s = SLASH :: SLASH :: (cstr s.input_buffer ++ DOT_TXT) ∧
      new_file_path s ≠ spec_open_path s.focused.directory (cstr s.input_buffer ++ DOT_TXT)) ∧
    (s.focused.directory.getLast? ≠ some SLASH →
      rename_oldpath s = selected_path s ∧
      typed_path s
        = (spec_open_path s.focused.directory (cstr s.input_buffer)).take (MAX_PATH_LEN - 1) ∧
      new_file_path s
        = (spec_open_path s.focused.directory (cstr s.input_buffer ++ DOT_TXT)).take
            (MAX_PATH_LEN - 1)) := by
  simp only [MAX_FILENAME_LEN] at hname
  simp only [INPUT_BUFFER_SIZE] at htyped
  refine ⟨?_, ?_, ?_, ?_, ?_⟩
  · simp only [commit_rename, if_neg hcount, reload_column, rename_oldpath, typed_path,
      State.focused, State.col, List.append_assoc, List.singleton_append]
  · simp only [commit_new_folder, if_neg hcount, reload_column, typed_path,
      State.focused, State.col, List.append_assoc, List.singleton_append]
  · simp only [commit_new_file, if_neg hcount, new_file_path, State.focused]
    split_ifs <;>
      simp only [reload_column, enter_edit_mode, State.col, List.append_assoc,
        List.singleton_append, List.cons_append, List.nil_append]
  · intro hd
    have h1 : rename_oldpath s = SLASH :: SLASH :: s.selected_name := by
      simp only [rename_oldpath, hd, List.singleton_append, List.cons_append, List.nil_append]
      exact List.take_of_length_le (by simp only [List.length_cons, MAX_PATH_LEN]; omega)
    have h2 : selected_path s = SLASH :: s.selected_name := by
      have hf : (s.col s.focused_column).directory = [SLASH] := hd
      simp only [selected_path, hf]
      rw [if_pos (by decide)]
      simp only [List.singleton_append]
      exact List.take_of_length_le (by simp only [List.length_cons, MAX_PATH_LEN]; omega)
    have h3 : typed_path s = SLASH :: SLASH :: cstr s.input_buffer := by
      simp only [typed_path, hd, List.singleton_append, List.cons_append, List.nil_append]
      exact List.take_of_length_le (by simp only [List.length_cons, MAX_PATH_LEN]; omega)
    have h4 : new_file_path s = SLASH :: SLASH :: (cstr s.input_buffer ++ DOT_TXT) := by
      simp only [new_file_path, hd, List.singleton_append, List.cons_append, List.nil_append]
      exact List.take_of_length_le (by
        simp only [List.length_cons, List.length_append, MAX_PATH_LEN, DOT_TXT,
          List.length_nil]
        omega)
    have h5 : ∀ n : List Nat, spec_open_path s.focused.directory n = SLASH :: n := by
      intro n
      simp only [spec_open_path, hd]
      rw [if_pos (by decide)]
      rfl
    have hlen : ∀ n : List Nat, SLASH :: SLASH :: n ≠ SLASH :: n := by
      intro n h
      have h' := congrArg List.length h
      simp only [List.length_cons] at h'
      omega
    refine ⟨h1, h2, ?_, h3, ?_, h4, ?_⟩
    · rw [h1, h2]
      exact hlen _
    · rw [h3, h5]
      exact hlen _
    · rw [h4, h5]
      exact hlen _
  · intro hd
    have hf : ¬ ((s.col s.focused_column).directory.length > 0 ∧
        (s.col s.focused_column).directory.getD
          ((s.col s.focused_column).directory.length - 1) 0 = SLASH) := by
      rw [ends_with_slash_iff]
      exact hd
    refine ⟨?_, ?_, ?_⟩
    · simp only [rename_oldpath, selected_path, if_neg hf, State.focused]
    · simp only [typed_path, spec_open_path, if_neg hd]
    · simp only [new_file_path, spec_open_path, if_neg hd, List.append_assoc]

/-- C30 at a concrete input: at the root the rename source of `a.txt` is `//a.txt` while opening it
uses `/a.txt`; in the column of `/docs` the typed path is `/docs/` followed by the
name. -/
theorem commit_paths_always_insert_separator_witness :
    rename_oldpath demoRenameTyped = [47, 47, 97, 46, 116, 120, 116] ∧
    selected_path demoRenameTyped = [47, 97, 46, 116, 120, 116] ∧
    typed_path demoDocs = [47, 100, 111, 99, 115, 47] :=
  have h := commit_paths_always_insert_separator ramHal 0 demoRenameTyped (by decide)
    (by decide) (by decide)
  have h' := commit_paths_always_insert_separator ramHal 0 demoDocs (by decide)
    (by decide) (by decide)
  ⟨(h.2.2.2.1 (by decide)).1.trans (by decide),
    (h.2.2.2.1 (by decide)).2.1.trans (by decide),
    (h'.2.2.2.2 (by decide)).2.1.trans (by decide)⟩

/-- C31. The editor keeps only the first 63 characters of the opened path.  For every
path `p`, `enter_edit_mode` reads the content from the full path `p` (the one call it
adds to the log; the length is that of the bytes read) but stores `p.take 63`, that is
`min |p| 63` leading characters, as `edit_filename`.  The filename and the Editing state
survive every later cycle whose key is not Escape, so a later save request writes to
`p.take 63`: exactly `p` when `|p| ≤ 63`, a different path when `|p| ≥ 64`. -/
theorem editor_keeps_first_63_chars (hal : Hal σ) (now : Int) (p : List Nat)
    (s : State σ) (inputs : List CycleInput) (save : CycleInput)
    (hinit : s.initialized = true)
    (hkeys : ∀ inp ∈ inputs, inp.key ≠ KEY_ESCAPE)
    (hsave : save.key = KEY_CTRL_S) :
    (enter_edit_mode hal now p s).calls
      = s.calls ++ [StorageCall.read_file p MAX_FILE_CONTENT_SIZE] ∧
    (enter_edit_mode hal now p s).edit_length
      = ((hal.read_file s.storage p MAX_FILE_CONTENT_SIZE).map List.length).getD 0 ∧
    (enter_edit_mode hal now p s).edit_filename = p.take 63 ∧
    (enter_edit_mode hal now p s).edit_filename.length = min p.length 63 ∧
    (run_cycles hal inputs (enter_edit_mode hal now p s)).current_state
      = AppState.STATE_EDITING ∧
    (run_cycles hal inputs (enter_edit_mode hal now p s)).edit_filename = p.take 63 ∧
    (cybertyper_run_cycle hal save
        (run_cycles hal inputs (enter_edit_mode hal now p s))).calls
      = (run_cycles hal inputs (enter_edit_mode hal now p s)).calls ++
        [StorageCall.write_file (p.take 63)
          (run_cycles hal inputs (enter_edit_mode hal now p s)).edit_buffer
          (run_cycles hal inputs (enter_edit_mode hal now p s)).edit_length] ∧
    (p.length ≤ 63 → p.take 63 = p) ∧
    (64 ≤ p.length → p.take 63 ≠ p) := by
  obtain ⟨h1, h2, h3⟩ := editing_run_cycles_keeps_filename hal inputs
    (enter_edit_mode hal now p s) rfl hkeys
  have hf : (enter_edit_mode hal now p s).edit_filename = p.take 63 := rfl
  refine ⟨rfl, ?_, hf, ?_, h1, h2.trans hf, ?_, List.take_of_length_le, ?_⟩
  · cases hr : hal.read_file s.storage p MAX_FILE_CONTENT_SIZE <;>
      simp only [enter_edit_mode, hr] <;> rfl
  · rw [hf, List.length_take, Nat.min_comm]
  · obtain ⟨v, l, hc⟩ := cycle_editor_save hal save _ (h3.trans hinit) h1 hsave
    rw [hc, ← h2.trans hf]
  · intro hlen heq
    have h := congrArg List.length heq
    rw [List.length_take] at h
    omega

set_option maxRecDepth 1000000 in
/-- C31 at a concrete input: the 64-character path `longPath` is opened, `X` is typed and
the save request follows; the editor filename is the 63-character prefix, which is not
the opened path. -/
theorem editor_keeps_first_63_chars_witness :
    (enter_edit_mode ramHal 0 longPath
      (cybertyper_init ramHal 0 (boot longDisk))).edit_filename = longPath.take 63 ∧
    longPath.take 63 ≠ longPath :=
  have h := editor_keeps_first_63_chars ramHal 0 longPath
    (cybertyper_init ramHal 0 (boot longDisk)) [⟨1, KEY_CHAR_BASE + 88, 1⟩]
    ⟨2, KEY_CTRL_S, 2⟩ rfl (by decide) rfl
  ⟨h.2.2.1, h.2.2.2.2.2.2.2.2 (by decide)⟩

/-- C32. Open-directory then Left is the identity on the navigation model.  For every
Normal state `s` reached from `cybertyper_init` by a finite sequence of cycles, with
`column_count < MAX_COLUMNS` and a selected entry that the gateway reports as a
directory, handling Right (or Enter) adds a column and moves the focus, and handling
Left after it restores `columns` (every column's path, listing and `selected_index`),
`column_count` and `focused_column`; the whole state is the old one with only the two
gateway calls of the open added to the log, whatever listing the gateway returned. -/
theorem open_directory_then_left_restores (hal : Hal σ) (t0 now now2 : Int) (st : σ)
    (inputs : List CycleInput) (key : Nat) (s : State σ)
    (hreach : s = run_cycles hal inputs (cybertyper_init hal t0 (boot st)))
    (hstate : s.current_state = AppState.STATE_NORMAL)
    (hcap : s.column_count < MAX_COLUMNS)
    (hkey : key = KEY_ARROW_RIGHT ∨ key = KEY_ENTER)
    (hentries : 0 < s.focused.file_count)
    (hdir : hal.is_directory s.storage (selected_path s) = true) :
    (dispatch_key hal now key s).column_count = s.column_count + 1 ∧
    (dispatch_key hal now key s).focused_column = s.focused_column + 1 ∧
    (dispatch_key hal now2 KEY_ARROW_LEFT (dispatch_key hal now key s)).columns
      = s.columns ∧
    (dispatch_key hal now2 KEY_ARROW_LEFT (dispatch_key hal now key s)).column_count
      = s.column_count ∧
    (dispatch_key hal now2 KEY_ARROW_LEFT (dispatch_key hal now key s)).focused_column
      = s.focused_column ∧
    (∀ i, (dispatch_key hal now2 KEY_ARROW_LEFT (dispatch_key hal now key s)).col i
      = s.col i) ∧
    dispatch_key hal now2 KEY_ARROW_LEFT (dispatch_key hal now key s) =
      { s with
        calls := s.calls ++
          [StorageCall.is_directory (selected_path s),
           StorageCall.list_files (selected_path s) MAX_FILES] } := by
  have hinv : NoStaleColumns s := by
    rw [hreach]
    exact noStale_run_cycles hal inputs _ (noStale_cybertyper_init hal t0 st)
  obtain ⟨hcnt, hzero⟩ := hinv
  have hopen : dispatch_key hal now key s =
      { s with
        columns := s.columns.set s.column_count
          { directory := (selected_path s).take (MAX_PATH_LEN - 1)
            file_list := store_listing (s.col s.column_count).file_list
              (hal.list_files s.storage (selected_path s) MAX_FILES)
            file_count := (hal.list_files s.storage (selected_path s) MAX_FILES).length
            selected_index := 0 }
        calls := s.calls ++
          [StorageCall.is_directory (selected_path s),
           StorageCall.list_files (selected_path s) MAX_FILES]
        column_count := s.column_count + 1
        focused_column := s.focused_column + 1 } := by
    rw [dispatch_key_normal hal now key s hstate,
      handle_normal_navigation_open hal now key s hkey, if_pos hentries,
      if_pos hdir, if_pos hcap, load_directory_lt hal _ _ _ hcap]
    exact state_ext _ _ rfl rfl rfl rfl rfl rfl rfl rfl rfl rfl rfl rfl rfl rfl
      (List.append_assoc _ _ _)
  have hleft : dispatch_key hal now2 KEY_ARROW_LEFT (dispatch_key hal now key s) =
      { s with
        calls := s.calls ++
          [StorageCall.is_directory (selected_path s),
           StorageCall.list_files (selected_path s) MAX_FILES] } := by
    have h1 : (dispatch_key hal now key s).current_state = AppState.STATE_NORMAL := by
      rw [hopen]
      exact hstate
    rw [dispatch_key_normal hal now2 KEY_ARROW_LEFT _ h1, handle_normal_navigation_left,
      hopen]
    have hpos : s.focused_column + 1 > 0 := Nat.succ_pos _
    rw [if_pos hpos]
    refine state_ext _ _ ?_ ?_ rfl rfl rfl rfl rfl rfl rfl rfl rfl rfl rfl rfl rfl
    · show (List.range (s.columns.set _ _).length).map _ = s.columns
      rw [List.length_set]
      refine Eq.trans ?_ (map_range_col s)
      apply List.map_congr_left
      intro i _
      show (if s.focused_column + 1 - 1 + 1 ≤ i ∧ i < s.column_count + 1 then zeroColumn
        else (s.columns.set s.column_count _).getD i zeroColumn) = s.col i
      split_ifs with hi
      · have hic : i = s.column_count := by omega
        rw [hic]
        exact (hzero _ (Nat.le_refl _)).symm
      · rw [getD_set_ne _ _ _ _ (by omega)]
        rfl
    · show s.focused_column + 1 - 1 + 1 = s.column_count
      omega
  refine ⟨?_, ?_, ?_, ?_, ?_, ?_, hleft⟩
  · rw [hopen]
  · rw [hopen]
  · rw [hleft]
  · rw [hleft]
  · rw [hleft]
  · intro i
    rw [hleft]
    rfl

set_option maxRecDepth 1000000 in
/-- C32 at a concrete input: in `demoReached` (the directory `docs` selected in the root
column) Right opens `docs` and Left restores the columns and both counters. -/
theorem open_directory_then_left_restores_witness :
    (dispatch_key ramHal 0 KEY_ARROW_LEFT
      (dispatch_key ramHal 0 KEY_ARROW_RIGHT demoReached)).columns = demoReached.columns ∧
    (dispatch_key ramHal 0 KEY_ARROW_LEFT
      (dispatch_key ramHal 0 KEY_ARROW_RIGHT demoReached)).column_count = 1 ∧
    (dispatch_key ramHal 0 KEY_ARROW_LEFT
      (dispatch_key ramHal 0 KEY_ARROW_RIGHT demoReached)).focused.selected_index = 1 :=
  have h := open_directory_then_left_restores ramHal 0 0 0 demoDisk
    [⟨1, KEY_ARROW_DOWN, 1⟩] KEY_ARROW_RIGHT demoReached rfl (by decide) (by decide)
    (Or.inl rfl) (by decide) (by decide)
  ⟨h.2.2.1, h.2.2.2.1.trans (by decide),
    (congrArg (fun v => v.focused.selected_index) h.2.2.2.2.2.2).trans (by decide)⟩

end Theorems

end CyberTyper
